import Mathlib

/-!
GizmoH5-utils: the `H5pio` particle I/O class.

A shallow embedding of `src/H5pio.h` / `src/H5pio.cpp` and theorems about it.

Conventions of the embedding.

* A C string (`XcString`, `char[XCUDA_PATH_LENGTH]`) is the `List Char` of its characters
  before the terminating NUL.  Writing `'\0'` at index `i` is `List.take i`.
* `int` is `Int`; `float` is `F32`, the bit pattern of the value (`0` is `0.0f`).  No
  arithmetic is ever done on a `float` by `H5pio`; values are only copied.
* A pointer is a `Nat` address, `0` being `nullptr`; the caller's arrays live in
  `World.heap`, one list of cells per address.
* `XcHandleError(cond, XCUDA_ERROR, a, b)` aborts the running operation when `cond` holds.
  An operation returns an `Outcome`: the error raised, if any, and the state reached.
* The HDF5 library and the C `FILE` streams are outside the repository; they are modelled
  as a key/value container service and as lists of written lines (`World`).
-/

namespace GizmoH5

/-! ## Errors -/

/-- The two message strings handed to `XcHandleError`, in argument order. -/
structure XcError where
  where_ : String
  what : String
  deriving DecidableEq, Repr

deriving instance DecidableEq for Except

/-- The result of running an operation: the error that aborted it (if any) and the state
at the point where the operation stopped. -/
structure Outcome (σ : Type) where
  error : Option XcError
  state : σ

/-- Sequencing of two operations: the second one runs only if the first did not abort. -/
def Outcome.andThen {σ : Type} (r : Outcome σ) (f : σ → Outcome σ) : Outcome σ :=
  match r.error with
  | none => f r.state
  | some _ => r

/-- An operation that finished normally. -/
def Outcome.ok {σ : Type} (s : σ) : Outcome σ := ⟨none, s⟩

/-- Modelled from the spec: the `XcHandleError` macro of `XCut.h` (not among the sources).
When the condition holds the operation fails with the given error and stops at once. -/
def XcHandleError {σ : Type} (cond : Bool) (a b : String) (s : σ) : Outcome σ :=
  if cond then ⟨some ⟨a, b⟩, s⟩ else ⟨none, s⟩

/-! ## C strings and the file-name utilities (`H5pio.cpp` 660-704) -/

/-- Modelled from the spec: `XCuda::stringLength` of `XCut.h` (not among the sources), the
number of characters of a C string. -/
def stringLength (s : List Char) : Int := s.length

/-- Modelled from the spec: `XCuda::stringCopy(dst, src, XCUDA_PATH_LENGTH)` of `XCut.h`
(not among the sources); the path buffer is taken to be large enough for the name. -/
def stringCopy (src : List Char) : List Char := src

/-- Modelled from the spec: `XCuda::stringCat(dst, src, XCUDA_PATH_LENGTH)` of `XCut.h`
(not among the sources); the path buffer is taken to be large enough for the result. -/
def stringCat (dst src : List Char) : List Char := dst ++ src

/-- The character `s[i]` of a C string; index `length` holds the terminating NUL. -/
def charAt (s : List Char) (i : Nat) : Char := s.getD i (Char.ofNat 0)

/-- Translation of `H5pio::isDot`. -/
def isDot (c : Char) : Bool := c == '.'

/-- Translation of `H5pio::isDelimiter`. -/
def isDelimiter (c : Char) : Bool := c == '/' || c == ':'

/-- Translation of `H5pio::isDigit`. -/
def isDigit (c : Char) : Bool := decide ('0' ≤ c) && decide (c ≤ '9')

/-- The loop of `stripSuffix`:
`while ((idx>0) && !(isDot(fileName[idx]) || isDelimiter(fileName[idx]))) idx--;` -/
def stripSuffixLoop (fileName : List Char) : Nat → Nat
  | 0 => 0
  | idx + 1 =>
    if !(isDot (charAt fileName (idx + 1)) || isDelimiter (charAt fileName (idx + 1))) then
      stripSuffixLoop fileName idx
    else idx + 1

/-- Translation of `H5pio::stripSuffix` (lines 672-683); the result is the new content of
the buffer. -/
def stripSuffix (fileName : List Char) : Except XcError (List Char) :=
  let idx : Int := stringLength fileName - 1
  if idx < 0 then .error ⟨"nullptr fileName", "H5pio::stripSuffix"⟩
  else if isDot (charAt fileName idx.toNat) || isDelimiter (charAt fileName idx.toNat) then
    .error ⟨"Invalid fileName", "H5pio::stripSuffix"⟩
  else
    let idx := stripSuffixLoop fileName idx.toNat
    if isDot (charAt fileName idx) then .ok (fileName.take idx) else .ok fileName

/-- The loop of `stripID`:
`while ((idx>0) && (fileName[idx]=='_' || isDigit(fileName[idx]))) idx--;` -/
def stripIDLoop (fileName : List Char) : Nat → Nat
  | 0 => 0
  | idx + 1 =>
    if charAt fileName (idx + 1) == '_' || isDigit (charAt fileName (idx + 1)) then
      stripIDLoop fileName idx
    else idx + 1

/-- Translation of `H5pio::stripID` (lines 685-696). -/
def stripID (fileName : List Char) : Except XcError (List Char) :=
  let idx : Int := stringLength fileName - 1
  if idx < 0 then .error ⟨"nullptr fileName", "H5pio::stripID"⟩
  else if isDot (charAt fileName idx.toNat) || isDelimiter (charAt fileName idx.toNat) then
    .error ⟨"Invalid fileName", "H5pio::stripID"⟩
  else
    let idx := stripIDLoop fileName idx.toNat
    .ok (fileName.take (idx + 1))

/-- Translation of `H5pio::addSuffix` (lines 699-704). -/
def addSuffix (fileName suffix : List Char) : Except XcError (List Char) :=
  match stripSuffix fileName with
  | .error e => .error e
  | .ok stripped => .ok (stringCat stripped suffix)

/-- The base-name derivation of `openFiles` (lines 152-154): `stringCopy`, `stripSuffix`,
then `stripID`. -/
def deriveBaseName (fileName_in : List Char) : Except XcError (List Char) :=
  match stripSuffix (stringCopy fileName_in) with
  | .error e => .error e
  | .ok stripped => stripID stripped

/-- The result of `printf("%d", n)`. -/
def fmtD (n : Int) : List Char :=
  if n < 0 then '-' :: Nat.toDigits 10 n.natAbs else Nat.toDigits 10 n.toNat

/-- The result of `printf("%04d", n)`: at least four characters, padded on the left with
zeros after the sign. -/
def fmt04d (n : Int) : List Char :=
  if n < 0 then
    '-' :: (List.replicate (3 - (Nat.toDigits 10 n.natAbs).length) '0' ++ Nat.toDigits 10 n.natAbs)
  else
    List.replicate (4 - (Nat.toDigits 10 n.toNat).length) '0' ++ Nat.toDigits 10 n.toNat

/-- The per-frame file name of `saveFrame` and `loadFrame`:
`sprintf(fileName,"%s_%04d.hdf5",theBaseName,multiTemporalFrameID)`. -/
def frameFileName (theBaseName : List Char) (multiTemporalFrameID : Int) : List Char :=
  theBaseName ++ '_' :: fmt04d multiTemporalFrameID ++ ".hdf5".toList

/-- The result of `sprintf(partType,"PartType%d",type)`. -/
def partTypeName (type : Int) : String := "PartType" ++ String.mk (fmtD type)

/-- The last path component, as `basename` of `libgen.h` returns it for a path that does
not end in a slash: the characters after the last `/`. -/
def basename (path : List Char) : List Char :=
  (path.reverse.takeWhile (fun c => c != '/')).reverse

/-! ## The HDF5 container service

`hdf5.h` is an external library.  A container is a list of named groups; a group holds
named attributes and named datasets.  All tables are association lists in creation
order. -/

/-- A `float`, as its bit pattern; `0` is `0.0f`. -/
abbrev F32 := Int

/-- The three HDF5 memory types `H5pio` uses. -/
inductive H5T
  | NATIVE_HBOOL
  | NATIVE_INT
  | NATIVE_FLOAT
  deriving DecidableEq, Repr

/-- An attribute of a group: element type and the cells written. -/
structure H5Attribute where
  type : H5T
  data : List Int
  deriving DecidableEq, Repr

/-- A dataset: element type, extent (`dims`), chunk extent, deflate level, and cells. -/
structure H5Dataset where
  type : H5T
  dims : List Nat
  chunk : List Nat
  deflate : Nat
  data : List Int
  deriving DecidableEq, Repr

/-- A group of a container. -/
structure H5Group where
  attributes : List (String × H5Attribute)
  datasets : List (String × H5Dataset)
  deriving DecidableEq, Repr

/-- An HDF5 container (one file on disk). -/
structure H5File where
  groups : List (String × H5Group)
  deriving DecidableEq, Repr

/-- Behaviour of the library that the sources do not fix.
`replaceExisting`: what `H5Dcreate` does when the name is already linked in the group:
`false` - the call fails and the following `H5Dwrite` on the invalid id writes nothing
(the HDF5 library); `true` - the new dataset replaces the old one (last write wins, the
wording of the specification).
`convert src dst`: the element conversion done when a memory type differs from the
stored type. -/
structure H5Lib where
  replaceExisting : Bool
  convert : H5T → H5T → Int → Int

/-- Set key `k` to `v` in an association list: replace the entry in place when the key is
present, append at the end otherwise. -/
def assocSet {κ β : Type} [DecidableEq κ] (k : κ) (v : β) : List (κ × β) → List (κ × β)
  | [] => [(k, v)]
  | (k', v') :: rest => if k' = k then (k, v) :: rest else (k', v') :: assocSet k v rest

/-- Cells move between a memory buffer and storage; they are converted when the two
element types differ. -/
def convertCells (lib : H5Lib) (src dst : H5T) (data : List Int) : List Int :=
  if src = dst then data else data.map (lib.convert src dst)

/-- Storing `new` into a buffer that held `old`: the first cells are overwritten. -/
def overlay (new old : List Int) : List Int := new ++ old.drop new.length

/-- The call `H5Gcreate(file_id, name, ...)`: the group handle is the group name, `none`
being an invalid id (the name exists already). -/
def H5Gcreate (f : H5File) (name : String) : H5File × Option String :=
  match f.groups.lookup name with
  | some _ => (f, none)
  | none => (⟨assocSet name ⟨[], []⟩ f.groups⟩, some name)

/-- The call `H5Gopen(file_id, name, ...)`. -/
def H5Gopen (f : H5File) (name : String) : Option String :=
  match f.groups.lookup name with
  | some _ => some name
  | none => none

/-- Translation of `H5pio::writeAttribute` (lines 414-432).  `data` are the cells behind
the (never null) pointer argument; `nDims` of them are written. -/
def writeAttribute (lib : H5Lib) (f : H5File) (group_id : Option String) (type : H5T)
    (name : String) (data : List Int) (nDims : Nat) : H5File :=
  match group_id with
  | none => f
  | some g =>
    match f.groups.lookup g with
    | none => f
    | some grp =>
      let attr : H5Attribute :=
        match grp.attributes.lookup name with
        | some old => ⟨old.type, overlay (convertCells lib type old.type (data.take nDims)) old.data⟩
        | none => ⟨type, data.take nDims⟩
      ⟨assocSet g { grp with attributes := assocSet name attr grp.attributes } f.groups⟩

/-- Translation of `H5pio::readAttribute` (lines 434-444): the cells delivered to the
destination buffer, `none` when nothing is delivered (the attribute does not exist). -/
def readAttribute (lib : H5Lib) (f : H5File) (group_id : Option String) (type : H5T)
    (name : String) : Option (List Int) :=
  match group_id with
  | none => none
  | some g =>
    match f.groups.lookup g with
    | none => none
    | some grp =>
      match grp.attributes.lookup name with
      | none => none
      | some a => some (convertCells lib a.type type a.data)

/-- Translation of `H5pio::writeDataset` (lines 378-400).  `data` is the caller's pointer
and `mem` the caller's memory; `nItems*dof` cells are written. -/
def writeDataset (lib : H5Lib) (mem : Nat → List Int) (f : H5File) (group_id : Option String)
    (type : H5T) (nItems dof : Int) (name : String) (data : Nat) : H5File :=
  if data = 0 then f else
  match group_id with
  | none => f
  | some g =>
    match f.groups.lookup g with
    | none => f
    | some grp =>
      let dims := [nItems.toNat, dof.toNat]
      let cdims := [nItems.toNat, dof.toNat]
      let ds : H5Dataset := ⟨type, dims, cdims, 6, (mem data).take (nItems.toNat * dof.toNat)⟩
      if (grp.datasets.lookup name).isSome && !lib.replaceExisting then f
      else ⟨assocSet g { grp with datasets := assocSet name ds grp.datasets } f.groups⟩

/-- Translation of `H5pio::readDataset` (lines 403-412): the new memory.  The whole stored
dataset is delivered to the caller's array; nothing happens when the pointer is null or
the dataset does not exist. -/
def readDataset (lib : H5Lib) (mem : Nat → List Int) (f : H5File) (group_id : Option String)
    (type : H5T) (name : String) (data : Nat) : Nat → List Int :=
  if data = 0 then mem else
  match group_id with
  | none => mem
  | some g =>
    match f.groups.lookup g with
    | none => mem
    | some grp =>
      match grp.datasets.lookup name with
      | none => mem
      | some ds => Function.update mem data (overlay (convertCells lib ds.type type ds.data) (mem data))

/-! ## The environment: memory, disk and open streams -/

/-- One argument of an `fprintf` call. -/
inductive XArg
  | s (v : String)
  | d (v : Int)
  | e (v : F32)
  deriving DecidableEq, Repr

/-- One `fprintf(xdmfFile, format, args...)` call.  Every format string of `H5pio.cpp`
ends in its only newline, so one call writes one line of the mirror document. -/
structure XLine where
  format : String
  args : List XArg
  deriving DecidableEq, Repr

/-- A `FILE` stream: the path it was opened on, the lines of the file, whether the stream
can be read (a stream opened with mode `"w"` cannot), the number of lines already consumed
by `getline`, and whether `fclose` was called. -/
structure XStream where
  path : List Char
  lines : List XLine
  readable : Bool
  pos : Nat
  closed : Bool
  deriving DecidableEq, Repr

/-- Everything outside the `H5pio` object.
`heap`: the caller's arrays, by address.  `containers`: the HDF5 files on disk, by path.
`handles`: the paths behind the `hid_t` file ids handed out so far (id `i+1` is entry
`i`).  `streams`: the `FILE` streams opened so far (`FILE*` value `h+1` is entry `h`).
`readOnly`: the paths at which no file can be created.  `indeterminate`: the content of
uninitialised local arrays. -/
structure World where
  heap : Nat → List Int
  lib : H5Lib
  containers : List (List Char × H5File)
  handles : List (List Char)
  streams : List XStream
  readOnly : List (List Char)
  indeterminate : Nat → Int

/-- The container behind a file id, if the id is valid. -/
def World.container (w : World) (file_id : Int) : Option H5File :=
  if file_id ≤ 0 then none else
  match w.handles[file_id.toNat - 1]? with
  | none => none
  | some path => w.containers.lookup path

/-- Apply a sequence of library calls to the container behind a file id; calls on an
invalid id do nothing. -/
def World.onContainer (w : World) (file_id : Int) (g : H5File → H5File) : World :=
  if file_id ≤ 0 then w else
  match w.handles[file_id.toNat - 1]? with
  | none => w
  | some path =>
    match w.containers.lookup path with
    | none => w
    | some f => { w with containers := assocSet path (g f) w.containers }

/-- The call `H5Fcreate(name, H5F_ACC_TRUNC, ...)`: a negative id on failure. -/
def H5Fcreate (w : World) (name : List Char) : World × Int :=
  if name ∈ w.readOnly then (w, -1)
  else ({ w with containers := assocSet name ⟨[]⟩ w.containers, handles := w.handles ++ [name] },
        (w.handles.length : Int) + 1)

/-- The call `H5Fopen(name, H5F_ACC_RDWR, ...)`: a negative id on failure. -/
def H5Fopen (w : World) (name : List Char) : World × Int :=
  match w.containers.lookup name with
  | none => (w, -1)
  | some _ => ({ w with handles := w.handles ++ [name] }, (w.handles.length : Int) + 1)

/-- Whether `fopen(path, "r")` returns a non-null stream: some file exists at the path. -/
def World.fileExists (w : World) (path : List Char) : Bool :=
  (w.containers.lookup path).isSome || w.streams.any (fun st => decide (st.path = path))

/-- The call `fopen(path, "w")`: a fresh empty stream, or `nullptr` (`0`) on failure. -/
def fopenW (w : World) (path : List Char) : World × Nat :=
  if path ∈ w.readOnly then (w, 0)
  else ({ w with streams := w.streams ++ [⟨path, [], false, 0, false⟩] }, w.streams.length + 1)

/-- Apply `g` to entry `n` of a list; nothing happens when there is no such entry. -/
def modifyAt {α : Type} (g : α → α) : Nat → List α → List α
  | _, [] => []
  | 0, x :: xs => g x :: xs
  | n + 1, x :: xs => x :: modifyAt g n xs

/-- Change the stream behind a `FILE*` value; nothing happens for an invalid value. -/
def World.onStream (w : World) (fp : Nat) (g : XStream → XStream) : World :=
  if fp = 0 then w else { w with streams := modifyAt g (fp - 1) w.streams }

/-- The stream behind a `FILE*` value. -/
def World.stream (w : World) (fp : Nat) : Option XStream :=
  if fp = 0 then none else w.streams[fp - 1]?

/-! ## The `H5pio` object (`H5pio.h` 117-182) -/

/-- The anonymous struct `saveXdmfState` of `H5pio.h` line 172. -/
structure XdmfState where
  fp : Nat
  isOpen : Bool
  frameID : Int
  deriving DecidableEq, Repr

/-- The data members of class `H5pio`, under their own names.  `nParticles` is the array
`int nParticles[N_TYPES]` with `N_TYPES = 6`. -/
structure H5pio where
  nParticles : Fin 6 → Int
  theParticleType : Int
  dataParticleType : List Int
  dataIsNodeCentered : List Bool
  dataIsBoolean1D : List Bool
  dataIsInteger1D : List Bool
  dataIsFloat1D : List Bool
  dataIsFloat3D : List Bool
  dataIsGeometry3D : List Bool
  dataName : List String
  dataPointer : List Nat
  frameTime : F32
  endOfFile : Bool
  multiTemporalFrameID : Int
  theBaseName : List Char
  hdf5Name : List Char
  fileIsOpen : Bool
  file_id : Int
  xdmfFileName : List Char
  xdmfFileIsOpen : Bool
  xdmfFrameID : Int
  xdmfFile : Nat
  writeXdmfTerminator : Bool
  saveXdmfState : XdmfState

/-- The number of particle types, `static const int N_TYPES= 6`. -/
def N_TYPES : Nat := 6

/-- The array element `nParticles[type]`.  An index outside `[0,5]` has no defined value in
C; here it is reduced modulo 6. -/
def H5pio.count (o : H5pio) (type : Int) : Int := o.nParticles (Fin.ofNat type.toNat)

/-- Translation of `H5pio::resetFields` (lines 34-48). -/
def resetFields (o : H5pio) : H5pio :=
  { o with
    nParticles := fun _ => 0
    theParticleType := 0
    dataParticleType := []
    dataIsNodeCentered := []
    dataIsBoolean1D := []
    dataIsInteger1D := []
    dataIsFloat1D := []
    dataIsFloat3D := []
    dataIsGeometry3D := []
    dataName := []
    dataPointer := [] }

/-- Translation of the constructor `H5pio::H5pio` (lines 11-26), run on the raw object
`raw`; the members the constructor does not assign keep their indeterminate values. -/
def construct (raw : H5pio) : H5pio :=
  resetFields
    { raw with
      frameTime := 0
      endOfFile := false
      fileIsOpen := false
      file_id := 0
      xdmfFileIsOpen := false
      xdmfFrameID := 0
      xdmfFile := 0
      writeXdmfTerminator := true }

/-- Translation of `H5pio::registerParticles` (lines 51-58). -/
def registerParticles (np type : Int) (o : H5pio) : Outcome H5pio :=
  (XcHandleError (decide (np ≤ 0)) "H5pio::registerParticles" "nParticles <= 0" o).andThen fun o =>
  (XcHandleError (decide (type < 0) || decide (type > 5)) "H5pio::registerParticles"
      "invalid particle type" o).andThen fun o =>
  Outcome.ok
    { o with
      nParticles := Function.update o.nParticles (Fin.ofNat type.toNat) np
      theParticleType := type }

/-- The nine `push_back` calls shared by the five `register...Field` functions; the five
Booleans are the values pushed to `dataIsBoolean1D` ... `dataIsGeometry3D`. -/
def pushField (o : H5pio) (isNodeCentered : Bool) (b1 i1 f1 f3 g3 : Bool) (name : String)
    (ptr : Nat) : H5pio :=
  { o with
    dataParticleType := o.dataParticleType ++ [o.theParticleType]
    dataIsNodeCentered := o.dataIsNodeCentered ++ [isNodeCentered]
    dataIsBoolean1D := o.dataIsBoolean1D ++ [b1]
    dataIsInteger1D := o.dataIsInteger1D ++ [i1]
    dataIsFloat1D := o.dataIsFloat1D ++ [f1]
    dataIsFloat3D := o.dataIsFloat3D ++ [f3]
    dataIsGeometry3D := o.dataIsGeometry3D ++ [g3]
    dataName := o.dataName ++ [name]
    dataPointer := o.dataPointer ++ [ptr] }

/-- Translation of `H5pio::registerBoolean1DField` (lines 61-74). -/
def registerBoolean1DField (isNodeCentered : Bool) (name : String) (ptr : Nat) (o : H5pio) :
    H5pio :=
  if ptr ≠ 0 then pushField o isNodeCentered true false false false false name ptr else o

/-- Translation of `H5pio::registerInteger1DField` (lines 77-90). -/
def registerInteger1DField (isNodeCentered : Bool) (name : String) (ptr : Nat) (o : H5pio) :
    H5pio :=
  if ptr ≠ 0 then pushField o isNodeCentered false true false false false name ptr else o

/-- Translation of `H5pio::registerFloat1DField` (lines 93-106). -/
def registerFloat1DField (isNodeCentered : Bool) (name : String) (ptr : Nat) (o : H5pio) :
    H5pio :=
  if ptr ≠ 0 then pushField o isNodeCentered false false true false false name ptr else o

/-- Translation of `H5pio::registerFloat3DField` (lines 109-122). -/
def registerFloat3DField (isNodeCentered : Bool) (name : String) (ptr : Nat) (o : H5pio) :
    H5pio :=
  if ptr ≠ 0 then pushField o isNodeCentered false false false true false name ptr else o

/-- Translation of `H5pio::registerGeometry3DField` (lines 125-138). -/
def registerGeometry3DField (isNodeCentered : Bool) (name : String) (ptr : Nat) (o : H5pio) :
    H5pio :=
  if ptr ≠ 0 then pushField o isNodeCentered false false false false true name ptr else o

/-- Translation of `H5pio::getNumberOfParticles` (lines 141-144). -/
def getNumberOfParticles (type : Int) (o : H5pio) : Int := o.count type

/-- One `H5pio` object together with the environment it runs in. -/
structure Sys where
  obj : H5pio
  env : World

/-! ## HDF5 I/O (`H5pio.cpp` 219-376) -/

/-- Translation of `H5pio::openH5File` (lines 219-237). -/
def openH5File (fileName : List Char) (createFile : Bool) (s : Sys) : Outcome Sys :=
  let o := { s.obj with frameTime := 0, endOfFile := false, hdf5Name := stringCopy fileName }
  match addSuffix o.hdf5Name ".hdf5".toList with
  | .error e => ⟨some e, { s with obj := o }⟩
  | .ok name =>
    let o := { o with hdf5Name := name }
    let r := if createFile then H5Fcreate s.env o.hdf5Name else H5Fopen s.env o.hdf5Name
    let o := { o with file_id := r.2 }
    (XcHandleError (decide (o.file_id < 0)) "H5pio::openH5File"
        "Unable to create or open an HDF5 file (check name and/or path)"
        (⟨o, r.1⟩ : Sys)).andThen fun s =>
    Outcome.ok { s with obj := { s.obj with fileIsOpen := true } }

/-- Translation of `H5pio::closeH5File` (lines 239-248).  `H5Fclose` leaves the stored
container as it is. -/
def closeH5File (s : Sys) : Sys :=
  if !s.obj.fileIsOpen then s
  else { s with obj := { s.obj with fileIsOpen := false, frameTime := 0, endOfFile := true } }

/-- The element type and the `dof` argument that `saveH5Frame` (lines 293-303) hands to
`writeDataset` for descriptor `gid`, and that `loadH5Frame` (lines 356-366) hands to
`readDataset`; `none` when no kind flag is set (no call is made). -/
def H5pio.datasetKind (o : H5pio) (gid : Nat) : Option (H5T × Int) :=
  if o.dataIsBoolean1D.getD gid false then some (.NATIVE_HBOOL, 1)
  else if o.dataIsInteger1D.getD gid false then some (.NATIVE_INT, 1)
  else if o.dataIsFloat1D.getD gid false then some (.NATIVE_FLOAT, 1)
  else if o.dataIsFloat3D.getD gid false then some (.NATIVE_FLOAT, 3)
  else if o.dataIsGeometry3D.getD gid false then some (.NATIVE_FLOAT, 3)
  else none

/-- The header part of `saveH5Frame` (lines 256-270). -/
def saveH5Header (lib : H5Lib) (o : H5pio) (f : H5File) : H5File :=
  let r := H5Gcreate f "Header"
  let f := r.1
  let group_id := r.2
  let flag_DoublePrecision : Int := 0
  let massTable : List Int := List.replicate N_TYPES 0
  let numFilesPerSnapshot : Int := 1
  let numPart_Total_HighWord : List Int := List.replicate N_TYPES 0
  let nParticles : List Int := List.ofFn o.nParticles
  let f := writeAttribute lib f group_id .NATIVE_INT "Flag_DoublePrecision" [flag_DoublePrecision] 1
  let f := writeAttribute lib f group_id .NATIVE_FLOAT "MassTable" massTable N_TYPES
  let f := writeAttribute lib f group_id .NATIVE_INT "NumFilesPerSnapshot" [numFilesPerSnapshot] 1
  let f := writeAttribute lib f group_id .NATIVE_INT "NumPart_ThisFile" nParticles N_TYPES
  let f := writeAttribute lib f group_id .NATIVE_INT "NumPart_Total" nParticles N_TYPES
  let f := writeAttribute lib f group_id .NATIVE_INT "NumPart_Total_HighWord" numPart_Total_HighWord N_TYPES
  writeAttribute lib f group_id .NATIVE_FLOAT "Time" [o.frameTime] 1

/-- The body of the loop over `gid` in `saveH5Frame` (lines 282-305). -/
def saveH5Field (lib : H5Lib) (mem : Nat → List Int) (o : H5pio) (type : Nat) (np : Int)
    (group_id : Option String) (f : H5File) (gid : Nat) : H5File :=
  if o.dataParticleType.getD gid 0 = (type : Int) then
    let name := o.dataName.getD gid ""
    let ptr := o.dataPointer.getD gid 0
    match o.datasetKind gid with
    | some (t, dof) => writeDataset lib mem f group_id t np dof name ptr
    | none => f
  else f

/-- The body of the loop over `type` in `saveH5Frame` (lines 273-310). -/
def saveH5Type (lib : H5Lib) (mem : Nat → List Int) (o : H5pio) (f : H5File) (type : Nat) :
    H5File :=
  let np := o.count type
  if np > 0 then
    let partType := partTypeName type
    let r := H5Gcreate f partType
    (List.range o.dataName.length).foldl (saveH5Field lib mem o type np r.2) r.1
  else f

/-- Translation of `H5pio::saveH5Frame` (lines 250-312). -/
def saveH5Frame (time : F32) (s : Sys) : Sys :=
  if !s.obj.fileIsOpen || s.obj.endOfFile then s
  else
    let o := { s.obj with frameTime := time }
    { obj := o
      env := s.env.onContainer o.file_id fun f =>
        (List.range N_TYPES).foldl (saveH5Type s.env.lib s.env.heap o) (saveH5Header s.env.lib o f) }

/-- The body of the loop over `gid` in `loadH5Frame` (lines 345-368): the new memory. -/
def loadH5Field (lib : H5Lib) (o : H5pio) (f : H5File) (type : Nat) (group_id : Option String)
    (mem : Nat → List Int) (gid : Nat) : Nat → List Int :=
  if o.dataParticleType.getD gid 0 = (type : Int) then
    let name := o.dataName.getD gid ""
    let ptr := o.dataPointer.getD gid 0
    match o.datasetKind gid with
    | some (t, _) => readDataset lib mem f group_id t name ptr
    | none => mem
  else mem

/-- The body of the loop over `type` in `loadH5Frame` (lines 335-374): the new memory. -/
def loadH5Type (lib : H5Lib) (o : H5pio) (f : H5File) (mem : Nat → List Int) (type : Nat) :
    Nat → List Int :=
  let np := o.count type
  if np > 0 then
    let partType := partTypeName type
    let group_id := H5Gopen f partType
    (List.range o.dataName.length).foldl (loadH5Field lib o f type group_id) mem
  else mem

/-- The local array `int np[N_TYPES]` of `loadH5Frame` after
`readAttribute(group_id,H5T_NATIVE_INT,"NumPart_ThisFile",np)`. -/
def loadedCounts (w : World) (f : H5File) (group_id : Option String) : List Int :=
  let np := (List.range N_TYPES).map w.indeterminate
  match readAttribute w.lib f group_id .NATIVE_INT "NumPart_ThisFile" with
  | some cells => (overlay cells np).take N_TYPES
  | none => np

/-- The member `frameTime` after `frameTime= 0.0f;` and
`readAttribute(group_id,H5T_NATIVE_FLOAT,"Time",&frameTime)`. -/
def loadedTime (w : World) (f : H5File) (group_id : Option String) : F32 :=
  match readAttribute w.lib f group_id .NATIVE_FLOAT "Time" with
  | some (t :: _) => t
  | _ => 0

/-- The loop of lines 327-330: one `XcHandleError` per particle type. -/
def checkCounts (np : List Int) (s : Sys) : Outcome Sys :=
  (List.range N_TYPES).foldl
    (fun r i => r.andThen fun s =>
      XcHandleError (decide (np.getD i 0 ≠ s.obj.nParticles (Fin.ofNat i))) "H5pio::loadH5Frame"
        "Inconsistent number of particles; bad checkpoint file?" s)
    (Outcome.ok s)

/-- Translation of `H5pio::loadH5Frame` (lines 315-376).  Calls on an invalid file id
deliver nothing, which is the behaviour of an empty container. -/
def loadH5Frame (s : Sys) : Outcome Sys :=
  if !s.obj.fileIsOpen then Outcome.ok s
  else
    let f := (s.env.container s.obj.file_id).getD ⟨[]⟩
    let group_id := H5Gopen f "Header"
    let np := loadedCounts s.env f group_id
    let s : Sys := { s with obj := { s.obj with frameTime := loadedTime s.env f group_id } }
    (checkCounts np s).andThen fun s =>
    Outcome.ok
      { s with env := { s.env with
          heap := (List.range N_TYPES).foldl (loadH5Type s.env.lib s.obj f) s.env.heap } }

/-! ## XDMF I/O (`H5pio.cpp` 449-657) -/

/-- One call `fprintf(xdmfFile, format, args...)`. -/
def fprintf (s : Sys) (format : String) (args : List XArg) : Sys :=
  { s with env := s.env.onStream s.obj.xdmfFile fun st =>
      { st with lines := st.lines ++ [⟨format, args⟩] } }

/-- What `getline` does to the stream it is called on: the next line is consumed, if the
stream can be read and there is one. -/
def readLine (st : XStream) : XStream :=
  if st.readable && decide (st.pos < st.lines.length) then { st with pos := st.pos + 1 } else st

/-- One call `getline(&line,&len,xdmfFile)`. -/
def getline (s : Sys) : Sys :=
  { s with env := s.env.onStream s.obj.xdmfFile readLine }

/-- The call `fclose(xdmfFile)`. -/
def fclose (s : Sys) : Sys :=
  { s with env := s.env.onStream s.obj.xdmfFile fun st => { st with closed := true } }

/-- Translation of `H5pio::openXdmfFile` (lines 449-473); the default argument is the
empty string. -/
def openXdmfFile (fileName : List Char) (s : Sys) : Outcome Sys :=
  let copied :=
    if stringLength fileName > 0 then stringCopy fileName else stringCopy s.obj.hdf5Name
  match addSuffix copied ".xdmf".toList with
  | .error e => ⟨some e, { s with obj := { s.obj with xdmfFileName := copied } }⟩
  | .ok name =>
    let r := fopenW s.env name
    let o := { s.obj with
      xdmfFileName := name
      xdmfFile := r.2
      xdmfFileIsOpen := decide (r.2 ≠ 0)
      xdmfFrameID := 0 }
    (XcHandleError (!o.xdmfFileIsOpen) "H5pio::openXdmfFile"
        "Unable to create or open an XDFM file (check name and/or path)"
        (⟨o, r.1⟩ : Sys)).andThen fun s =>
    let s := fprintf s "<?xml version=\"1.0\" ?>\n" []
    let s := fprintf s "<!DOCTYPE Xdmf SYSTEM \"Xdmf.dtd\" []>\n" []
    let s := fprintf s "\n" []
    let s := fprintf s "<Xdmf Version=\"2.0\" >\n" []
    let s := fprintf s "  <Domain>\n" []
    let s := fprintf s
      "    <Grid Name=\"Temporal Collection\" GridType=\"Collection\" CollectionType=\"Temporal\" >\n" []
    Outcome.ok { s with obj := { s.obj with writeXdmfTerminator := true } }

/-- Translation of `H5pio::closeXdmfFile` (lines 475-490). -/
def closeXdmfFile (s : Sys) : Sys :=
  if !s.obj.xdmfFileIsOpen then s
  else
    let s :=
      if s.obj.writeXdmfTerminator then
        let s := fprintf s "    </Grid>\n" []
        let s := fprintf s "  </Domain>\n" []
        fprintf s "</Xdmf>\n" []
      else s
    let s := fclose s
    { s with obj := { s.obj with xdmfFile := 0, xdmfFileIsOpen := false, xdmfFrameID := 0 } }

/-- A counted loop `for (int i=0; i<n; i++) body;` whose body does not use `i`. -/
def forCount (n : Nat) (body : Sys → Sys) (s : Sys) : Sys :=
  (List.range n).foldl (fun s _ => body s) s

/-- Translation of `H5pio::skipXdmfFrames` (lines 493-531). -/
def skipXdmfFrames (nFrames : Int) (s : Sys) : Sys :=
  let s := forCount 6 getline s
  forCount nFrames.toNat
    (fun s =>
      let s := forCount 5 getline s
      let s := forCount s.obj.dataName.length (fun s => forCount 6 getline s) s
      forCount 3 getline s)
    s

/-- The value of `isNodeCentered ? "Node" : "Cell"`. -/
def centerMode (isNodeCentered : Bool) : String := if isNodeCentered then "Node" else "Cell"

/-- Translation of `H5pio::writeXdmfAttributeBoolean1D` (lines 587-599). -/
def writeXdmfAttributeBoolean1D (np : Int) (partType name : String) (isNodeCentered : Bool)
    (s : Sys) : Sys :=
  if !s.obj.xdmfFileIsOpen then s
  else
    let mode := centerMode isNodeCentered
    let s := fprintf s "\n" []
    let s := fprintf s "        <Attribute Name=\"%s\" AttributeType=\"Scalar\" Center=\"%s\">\n"
      [.s name, .s mode]
    let s := fprintf s
      "          <DataItem Dimensions=\"%d\" NumberType=\"Char\" Precision=\"1\" Format=\"HDF\" >\n"
      [.d np]
    let s := fprintf s "            %s:/%s/%s\n"
      [.s (String.mk (basename s.obj.hdf5Name)), .s partType, .s name]
    let s := fprintf s "          </DataItem>\n" []
    fprintf s "        </Attribute>\n" []

/-- Translation of `H5pio::writeXdmfAttributeInteger1D` (lines 602-614). -/
def writeXdmfAttributeInteger1D (np : Int) (partType name : String) (isNodeCentered : Bool)
    (s : Sys) : Sys :=
  if !s.obj.xdmfFileIsOpen then s
  else
    let mode := centerMode isNodeCentered
    let s := fprintf s "\n" []
    let s := fprintf s "        <Attribute Name=\"%s\" AttributeType=\"Scalar\" Center=\"%s\">\n"
      [.s name, .s mode]
    let s := fprintf s
      "          <DataItem Dimensions=\"%d\" NumberType=\"Integer\" Precision=\"4\" Format=\"HDF\" >\n"
      [.d np]
    let s := fprintf s "            %s:/%s/%s\n"
      [.s (String.mk (basename s.obj.hdf5Name)), .s partType, .s name]
    let s := fprintf s "          </DataItem>\n" []
    fprintf s "        </Attribute>\n" []

/-- Translation of `H5pio::writeXdmfAttributeFloat1D` (lines 617-629). -/
def writeXdmfAttributeFloat1D (np : Int) (partType name : String) (isNodeCentered : Bool)
    (s : Sys) : Sys :=
  if !s.obj.xdmfFileIsOpen then s
  else
    let mode := centerMode isNodeCentered
    let s := fprintf s "\n" []
    let s := fprintf s "        <Attribute Name=\"%s\" AttributeType=\"Scalar\" Center=\"%s\">\n"
      [.s name, .s mode]
    let s := fprintf s
      "          <DataItem Dimensions=\"%d\" NumberType=\"Float\" Precision=\"4\" Format=\"HDF\" >\n"
      [.d np]
    let s := fprintf s "            %s:/%s/%s\n"
      [.s (String.mk (basename s.obj.hdf5Name)), .s partType, .s name]
    let s := fprintf s "          </DataItem>\n" []
    fprintf s "        </Attribute>\n" []

/-- Translation of `H5pio::writeXdmfAttributeFloat3D` (lines 632-644). -/
def writeXdmfAttributeFloat3D (np : Int) (partType name : String) (isNodeCentered : Bool)
    (s : Sys) : Sys :=
  if !s.obj.xdmfFileIsOpen then s
  else
    let mode := centerMode isNodeCentered
    let s := fprintf s "\n" []
    let s := fprintf s "        <Attribute Name=\"%s\" AttributeType=\"Vector\" Center=\"%s\">\n"
      [.s name, .s mode]
    let s := fprintf s
      "          <DataItem Dimensions=\"%d 3\" NumberType=\"Float\" Precision=\"4\" Format=\"HDF\" >\n"
      [.d np]
    let s := fprintf s "            %s:/%s/%s\n"
      [.s (String.mk (basename s.obj.hdf5Name)), .s partType, .s name]
    let s := fprintf s "          </DataItem>\n" []
    fprintf s "        </Attribute>\n" []

/-- Translation of `H5pio::writeXdmfGeometry3D` (lines 647-657). -/
def writeXdmfGeometry3D (np : Int) (partType name : String) (s : Sys) : Sys :=
  if !s.obj.xdmfFileIsOpen then s
  else
    let s := fprintf s "\n" []
    let s := fprintf s "        <Geometry GeometryType=\"XYZ\">\n" []
    let s := fprintf s
      "          <DataItem Dimensions=\"%d 3\" NumberType=\"Float\" Precision=\"4\" Format=\"HDF\" >\n"
      [.d np]
    let s := fprintf s "            %s:/%s/%s\n"
      [.s (String.mk (basename s.obj.hdf5Name)), .s partType, .s name]
    let s := fprintf s "          </DataItem>\n" []
    fprintf s "        </Geometry>\n" []

/-- The body of the loop over `pg` in `saveXdmfFrame` (lines 548-579). -/
def saveXdmfField (s : Sys) (pg : Nat) : Sys :=
  let type := s.obj.dataParticleType.getD pg 0
  let np := s.obj.count type
  let s := fprintf s
    "        <Topology TopologyType=\"Polyvertex\" NumberOfElements=\"%d\" />\n" [.d np]
  let partType := partTypeName type
  let isNodeCentered := s.obj.dataIsNodeCentered.getD pg false
  let isBoolean1D := s.obj.dataIsBoolean1D.getD pg false
  let isInteger1D := s.obj.dataIsInteger1D.getD pg false
  let isFloat1D := s.obj.dataIsFloat1D.getD pg false
  let isFloat3D := s.obj.dataIsFloat3D.getD pg false
  let isGeometry3D := s.obj.dataIsGeometry3D.getD pg false
  let name := s.obj.dataName.getD pg ""
  if isBoolean1D then writeXdmfAttributeBoolean1D np partType name isNodeCentered s
  else if isInteger1D then writeXdmfAttributeInteger1D np partType name isNodeCentered s
  else if isFloat1D then writeXdmfAttributeFloat1D np partType name isNodeCentered s
  else if isFloat3D then writeXdmfAttributeFloat3D np partType name isNodeCentered s
  else if isGeometry3D then writeXdmfGeometry3D np partType name s
  else s

/-- Translation of `H5pio::saveXdmfFrame` (lines 534-585). -/
def saveXdmfFrame (time : F32) (s : Sys) : Sys :=
  if !s.obj.xdmfFileIsOpen then s
  else
    let s : Sys := { s with obj := { s.obj with xdmfFrameID := s.obj.xdmfFrameID + 1 } }
    let s := fprintf s "\n" []
    let s := fprintf s "      <Grid Name=\"GIZMO Particles\" GridType=\"Uniform\">\n" []
    let s := fprintf s "        <Time Value=\"%.4e\"/>\n" [.e time]
    let s := fprintf s "\n" []
    let nGroups : Int := s.obj.dataName.length
    let s := if nGroups > 0 then (List.range nGroups.toNat).foldl saveXdmfField s else s
    let s := fprintf s "\n" []
    let s := fprintf s "      </Grid>\n" []
    fprintf s "\n" []

/-- Translation of `H5pio::pushXdmfState` (`H5pio.h` lines 174-176). -/
def pushXdmfState (s : Sys) : Sys :=
  { s with obj := { s.obj with
      saveXdmfState := ⟨s.obj.xdmfFile, s.obj.xdmfFileIsOpen, s.obj.xdmfFrameID⟩ } }

/-- Translation of `H5pio::popXdmfState` (`H5pio.h` lines 178-182). -/
def popXdmfState (s : Sys) : Sys :=
  { s with obj := { s.obj with
      xdmfFile := s.obj.saveXdmfState.fp
      xdmfFileIsOpen := s.obj.saveXdmfState.isOpen
      xdmfFrameID := s.obj.saveXdmfState.frameID } }

/-! ## Consolidated file I/O (`H5pio.cpp` 149-214) -/

/-- Translation of `H5pio::openFiles` (lines 149-155). -/
def openFiles (fileName_in : List Char) (s : Sys) : Outcome Sys :=
  let o := { s.obj with multiTemporalFrameID := 0, theBaseName := stringCopy fileName_in }
  match stripSuffix o.theBaseName with
  | .error e => ⟨some e, { s with obj := o }⟩
  | .ok stripped =>
    let o := { o with theBaseName := stripped }
    match stripID o.theBaseName with
    | .error e => ⟨some e, { s with obj := o }⟩
    | .ok base => Outcome.ok { s with obj := { o with theBaseName := base } }

/-- Translation of `H5pio::closeFiles` (lines 158-162). -/
def closeFiles (s : Sys) : Sys := closeXdmfFile (closeH5File s)

/-- The first part of `H5pio::saveFrame` (lines 167-181): from the entry of the function
to the point just after `popXdmfState()`. -/
def saveFrameStandalone (time : F32) (s : Sys) : Outcome Sys :=
  let s : Sys :=
    { s with obj := { s.obj with multiTemporalFrameID := s.obj.multiTemporalFrameID + 1 } }
  let fileName := frameFileName s.obj.theBaseName s.obj.multiTemporalFrameID
  let s := pushXdmfState s
  (openH5File fileName true s).andThen fun s =>
  (openXdmfFile [] s).andThen fun s =>
  let s := saveH5Frame time s
  let s := saveXdmfFrame time s
  let s := closeH5File s
  let s := closeXdmfFile s
  Outcome.ok (popXdmfState s)

/-- Translation of `H5pio::saveFrame` (lines 165-185). -/
def saveFrame (time : F32) (s : Sys) : Outcome Sys :=
  (saveFrameStandalone time s).andThen fun s =>
  let s : Sys := { s with obj := { s.obj with xdmfFrameID := 0 } }
  Outcome.ok (saveXdmfFrame time s)

/-- Translation of `H5pio::loadFrame` (lines 187-214). -/
def loadFrame (s : Sys) : Outcome Sys :=
  let s : Sys :=
    { s with obj := { s.obj with multiTemporalFrameID := s.obj.multiTemporalFrameID + 1 } }
  let fileName := frameFileName s.obj.theBaseName s.obj.multiTemporalFrameID
  let fp := s.env.fileExists fileName
  let s : Sys := { s with obj := { s.obj with endOfFile := !fp } }
  if fp then
    (openH5File fileName false s).andThen fun s =>
    (loadH5Frame s).andThen fun s =>
    let theFrameTime := s.obj.frameTime
    let s := closeH5File s
    Outcome.ok { s with obj := { s.obj with frameTime := theFrameTime, endOfFile := false } }
  else Outcome.ok s

/-! ## Descriptions used in the statements -/

/-- The lines `ls` are appended to the stream behind `xdmfFile`. -/
def emit (s : Sys) (ls : List XLine) : Sys :=
  { s with env := s.env.onStream s.obj.xdmfFile fun st => { st with lines := st.lines ++ ls } }

/-- The six lines that `openXdmfFile` writes at the head of a mirror document. -/
def xdmfHeaderLines : List XLine :=
  [⟨"<?xml version=\"1.0\" ?>\n", []⟩,
   ⟨"<!DOCTYPE Xdmf SYSTEM \"Xdmf.dtd\" []>\n", []⟩,
   ⟨"\n", []⟩,
   ⟨"<Xdmf Version=\"2.0\" >\n", []⟩,
   ⟨"  <Domain>\n", []⟩,
   ⟨"    <Grid Name=\"Temporal Collection\" GridType=\"Collection\" CollectionType=\"Temporal\" >\n", []⟩]

/-- The three lines that `closeXdmfFile` writes when `writeXdmfTerminator` is set. -/
def xdmfTerminatorLines : List XLine :=
  [⟨"    </Grid>\n", []⟩, ⟨"  </Domain>\n", []⟩, ⟨"</Xdmf>\n", []⟩]

/-- The data-item reference line `"            %s:/%s/%s\n"` of a field. -/
def xdmfReference (hdf5Name : List Char) (partType name : String) : XLine :=
  ⟨"            %s:/%s/%s\n", [.s (String.mk (basename hdf5Name)), .s partType, .s name]⟩

/-- The six lines of an `Attribute` element, as the four `writeXdmfAttribute...` functions
write them: `attributeType` is `Scalar` or `Vector`, `dataItem` the format of the
`DataItem` line. -/
def xdmfAttributeLines (hdf5Name : List Char) (header dataItem : String) (np : Int)
    (partType name : String) (isNodeCentered : Bool) : List XLine :=
  [⟨"\n", []⟩,
   ⟨header, [.s name, .s (centerMode isNodeCentered)]⟩,
   ⟨dataItem, [.d np]⟩,
   xdmfReference hdf5Name partType name,
   ⟨"          </DataItem>\n", []⟩,
   ⟨"        </Attribute>\n", []⟩]

/-- The lines one pass of the loop over `pg` in `saveXdmfFrame` writes for descriptor `pg`:
the `Topology` line, then the element of the first kind flag that is set. -/
def xdmfFieldLines (o : H5pio) (pg : Nat) : List XLine :=
  let type := o.dataParticleType.getD pg 0
  let np := o.count type
  let partType := partTypeName type
  let isNodeCentered := o.dataIsNodeCentered.getD pg false
  let name := o.dataName.getD pg ""
  (⟨"        <Topology TopologyType=\"Polyvertex\" NumberOfElements=\"%d\" />\n", [.d np]⟩ : XLine) ::
  (if o.dataIsBoolean1D.getD pg false then
    xdmfAttributeLines o.hdf5Name
      "        <Attribute Name=\"%s\" AttributeType=\"Scalar\" Center=\"%s\">\n"
      "          <DataItem Dimensions=\"%d\" NumberType=\"Char\" Precision=\"1\" Format=\"HDF\" >\n"
      np partType name isNodeCentered
  else if o.dataIsInteger1D.getD pg false then
    xdmfAttributeLines o.hdf5Name
      "        <Attribute Name=\"%s\" AttributeType=\"Scalar\" Center=\"%s\">\n"
      "          <DataItem Dimensions=\"%d\" NumberType=\"Integer\" Precision=\"4\" Format=\"HDF\" >\n"
      np partType name isNodeCentered
  else if o.dataIsFloat1D.getD pg false then
    xdmfAttributeLines o.hdf5Name
      "        <Attribute Name=\"%s\" AttributeType=\"Scalar\" Center=\"%s\">\n"
      "          <DataItem Dimensions=\"%d\" NumberType=\"Float\" Precision=\"4\" Format=\"HDF\" >\n"
      np partType name isNodeCentered
  else if o.dataIsFloat3D.getD pg false then
    xdmfAttributeLines o.hdf5Name
      "        <Attribute Name=\"%s\" AttributeType=\"Vector\" Center=\"%s\">\n"
      "          <DataItem Dimensions=\"%d 3\" NumberType=\"Float\" Precision=\"4\" Format=\"HDF\" >\n"
      np partType name isNodeCentered
  else if o.dataIsGeometry3D.getD pg false then
    [⟨"\n", []⟩,
     ⟨"        <Geometry GeometryType=\"XYZ\">\n", []⟩,
     ⟨"          <DataItem Dimensions=\"%d 3\" NumberType=\"Float\" Precision=\"4\" Format=\"HDF\" >\n", [.d np]⟩,
     xdmfReference o.hdf5Name partType name,
     ⟨"          </DataItem>\n", []⟩,
     ⟨"        </Geometry>\n", []⟩]
  else [])

/-- The frame block: all lines one call of `saveXdmfFrame(time)` writes for the registry
and binary file name of `o`. -/
def xdmfFrameLines (o : H5pio) (time : F32) : List XLine :=
  [⟨"\n", []⟩,
   ⟨"      <Grid Name=\"GIZMO Particles\" GridType=\"Uniform\">\n", []⟩,
   ⟨"        <Time Value=\"%.4e\"/>\n", [.e time]⟩,
   ⟨"\n", []⟩] ++
  (List.range o.dataName.length).flatMap (xdmfFieldLines o) ++
  [⟨"\n", []⟩, ⟨"      </Grid>\n", []⟩, ⟨"\n", []⟩]

/-- The content `saveH5Frame` gives a container that was just created (and is empty), for
the object `o` (whose `frameTime` is already the time of the frame) and the memory `mem`. -/
def frameContainer (lib : H5Lib) (mem : Nat → List Int) (o : H5pio) : H5File :=
  (List.range N_TYPES).foldl (saveH5Type lib mem o) (saveH5Header lib o ⟨[]⟩)

/-- The name of the per-frame standalone mirror document: the frame file name with `.xdmf`
in place of `.hdf5`. -/
def frameMirrorName (theBaseName : List Char) (multiTemporalFrameID : Int) : List Char :=
  theBaseName ++ '_' :: fmt04d multiTemporalFrameID ++ ".xdmf".toList

/-- The state of `saveFrame(time)` at the point just after `popXdmfState()`, when both
per-frame files could be created. -/
def afterStandalone (time : F32) (s : Sys) : Sys :=
  ⟨{ s.obj with
      multiTemporalFrameID := s.obj.multiTemporalFrameID + 1
      saveXdmfState := ⟨s.obj.xdmfFile, s.obj.xdmfFileIsOpen, s.obj.xdmfFrameID⟩
      frameTime := 0
      endOfFile := true
      hdf5Name := frameFileName s.obj.theBaseName (s.obj.multiTemporalFrameID + 1)
      file_id := (s.env.handles.length : Int) + 1
      fileIsOpen := false
      xdmfFileName := frameMirrorName s.obj.theBaseName (s.obj.multiTemporalFrameID + 1)
      writeXdmfTerminator := true },
   { s.env with
      containers := assocSet (frameFileName s.obj.theBaseName (s.obj.multiTemporalFrameID + 1))
        (frameContainer s.env.lib s.env.heap { s.obj with frameTime := time }) s.env.containers
      handles := s.env.handles ++
        [frameFileName s.obj.theBaseName (s.obj.multiTemporalFrameID + 1)]
      streams := s.env.streams ++
        [⟨frameMirrorName s.obj.theBaseName (s.obj.multiTemporalFrameID + 1),
          xdmfHeaderLines ++
            xdmfFrameLines
              { s.obj with
                hdf5Name := frameFileName s.obj.theBaseName (s.obj.multiTemporalFrameID + 1) }
              time ++
            xdmfTerminatorLines,
          false, 0, true⟩] }⟩

/-- The dataset `writeDataset(group_id,t,np,dof,name,ptr)` creates for descriptor `gid`:
extent and chunk extent `[np, dof]`, deflate level 6, and the first `np*dof` cells of the
caller's array. -/
def fieldDataset (mem : Nat → List Int) (o : H5pio) (gid : Nat) (np : Int) (t : H5T) (dof : Int) :
    H5Dataset :=
  ⟨t, [np.toNat, dof.toNat], [np.toNat, dof.toNat], 6,
    (mem (o.dataPointer.getD gid 0)).take (np.toNat * dof.toNat)⟩

/-- What one pass of the loop over `gid` in `saveH5Frame` does to the dataset table of the
group of particle type `type` (with `np` particles). -/
def datasetStep (lib : H5Lib) (mem : Nat → List Int) (o : H5pio) (type : Nat) (np : Int)
    (ds : List (String × H5Dataset)) (gid : Nat) : List (String × H5Dataset) :=
  if o.dataParticleType.getD gid 0 = (type : Int) then
    match o.datasetKind gid with
    | some (t, dof) =>
      if o.dataPointer.getD gid 0 = 0 then ds
      else if (ds.lookup (o.dataName.getD gid "")).isSome && !lib.replaceExisting then ds
      else assocSet (o.dataName.getD gid "") (fieldDataset mem o gid np t dof) ds
    | none => ds
  else ds

/-- The dataset table of the group `PartType<type>` in a container written by
`saveH5Frame`. -/
def groupDatasets (lib : H5Lib) (mem : Nat → List Int) (o : H5pio) (type : Nat) :
    List (String × H5Dataset) :=
  (List.range o.dataName.length).foldl (datasetStep lib mem o type (o.count type)) []

/-- The error `loadH5Frame` raises when a count of the header differs from the registry. -/
def inconsistentCheckpoint : XcError :=
  ⟨"H5pio::loadH5Frame", "Inconsistent number of particles; bad checkpoint file?"⟩

/-- The per-category counts stored in the header of a checkpoint file, as
`readAttribute(group_id,H5T_NATIVE_INT,"NumPart_ThisFile",np)` delivers them. -/
def headerCounts (lib : H5Lib) (f : H5File) : Option (List Int) :=
  readAttribute lib f (H5Gopen f "Header") .NATIVE_INT "NumPart_ThisFile"

/-- The registry part of an `H5pio` object: the counts, the current category and the nine
descriptor vectors.  The members for the files are left out. -/
structure Registry where
  nParticles : Fin 6 → Int
  theParticleType : Int
  dataParticleType : List Int
  dataIsNodeCentered : List Bool
  dataIsBoolean1D : List Bool
  dataIsInteger1D : List Bool
  dataIsFloat1D : List Bool
  dataIsFloat3D : List Bool
  dataIsGeometry3D : List Bool
  dataName : List String
  dataPointer : List Nat

/-- The registry of an object. -/
def H5pio.registry (o : H5pio) : Registry :=
  ⟨o.nParticles, o.theParticleType, o.dataParticleType, o.dataIsNodeCentered,
   o.dataIsBoolean1D, o.dataIsInteger1D, o.dataIsFloat1D, o.dataIsFloat3D,
   o.dataIsGeometry3D, o.dataName, o.dataPointer⟩

/-- The number of kind flags that are set for descriptor `pg`. -/
def H5pio.kindFlags (o : H5pio) (pg : Nat) : Nat :=
  [o.dataIsBoolean1D.getD pg false, o.dataIsInteger1D.getD pg false,
   o.dataIsFloat1D.getD pg false, o.dataIsFloat3D.getD pg false,
   o.dataIsGeometry3D.getD pg false].count true

/-- A well-formed registry: the nine descriptor vectors are parallel, every descriptor has
exactly one kind flag set, a category in `[0,5]` and a non-null reference, and the current
category is in `[0,5]`. -/
structure RegistryOK (o : H5pio) : Prop where
  lenType : o.dataParticleType.length = o.dataName.length
  lenCenter : o.dataIsNodeCentered.length = o.dataName.length
  lenB1 : o.dataIsBoolean1D.length = o.dataName.length
  lenI1 : o.dataIsInteger1D.length = o.dataName.length
  lenF1 : o.dataIsFloat1D.length = o.dataName.length
  lenF3 : o.dataIsFloat3D.length = o.dataName.length
  lenG3 : o.dataIsGeometry3D.length = o.dataName.length
  lenPtr : o.dataPointer.length = o.dataName.length
  current : 0 ≤ o.theParticleType ∧ o.theParticleType ≤ 5
  kind : ∀ pg, pg < o.dataName.length → o.kindFlags pg = 1
  category : ∀ pg, pg < o.dataName.length →
    0 ≤ o.dataParticleType.getD pg 0 ∧ o.dataParticleType.getD pg 0 ≤ 5
  pointer : ∀ pg, pg < o.dataName.length → o.dataPointer.getD pg 0 ≠ 0

/-- The reader `r` has the registry of the writer `w` up to the arrays: the same counts and
the same fields (category, centering, kind, name) in the same order. -/
structure SameLayout (r w : H5pio) : Prop where
  counts : r.nParticles = w.nParticles
  category : r.dataParticleType = w.dataParticleType
  centering : r.dataIsNodeCentered = w.dataIsNodeCentered
  boolean1D : r.dataIsBoolean1D = w.dataIsBoolean1D
  integer1D : r.dataIsInteger1D = w.dataIsInteger1D
  float1D : r.dataIsFloat1D = w.dataIsFloat1D
  float3D : r.dataIsFloat3D = w.dataIsFloat3D
  geometry3D : r.dataIsGeometry3D = w.dataIsGeometry3D
  name : r.dataName = w.dataName
  arrays : r.dataPointer.length = w.dataPointer.length

/-- The number of cells of the array of descriptor `pg` that the codec moves: the count of
the category of the field times the `dof` of its kind. -/
def H5pio.cells (o : H5pio) (pg : Nat) : Nat :=
  match o.datasetKind pg with
  | some (_, dof) => (o.count (o.dataParticleType.getD pg 0)).toNat * dof.toNat
  | none => 0

/-- The five kinds of field, one per `register...Field` function. -/
inductive FieldKind
  | Boolean1D
  | Integer1D
  | Float1D
  | Float3D
  | Geometry3D
  deriving DecidableEq, Repr

/-- The five `register...Field` functions, by the kind in their name. -/
def registerField (kind : FieldKind) (isNodeCentered : Bool) (name : String) (ptr : Nat)
    (o : H5pio) : H5pio :=
  match kind with
  | .Boolean1D => registerBoolean1DField isNodeCentered name ptr o
  | .Integer1D => registerInteger1DField isNodeCentered name ptr o
  | .Float1D => registerFloat1DField isNodeCentered name ptr o
  | .Float3D => registerFloat3DField isNodeCentered name ptr o
  | .Geometry3D => registerGeometry3DField isNodeCentered name ptr o

/-- One call of a registry operation by the caller. -/
inductive RegistryOp
  | resetFields
  | registerParticles (np type : Int)
  | registerField (kind : FieldKind) (isNodeCentered : Bool) (name : String) (ptr : Nat)

/-- The object after one call of a registry operation; a failing `registerParticles`
is abandoned where `XcHandleError` stops it. -/
def RegistryOp.run (op : RegistryOp) (o : H5pio) : H5pio :=
  match op with
  | .resetFields => GizmoH5.resetFields o
  | .registerParticles np type => (GizmoH5.registerParticles np type o).state
  | .registerField kind isNodeCentered name ptr =>
    GizmoH5.registerField kind isNodeCentered name ptr o

/-- The object after the constructor and a sequence of registry calls. -/
def runOps (raw : H5pio) (ops : List RegistryOp) : H5pio :=
  ops.foldl (fun o op => op.run o) (construct raw)

/-- The category of the most recent successful `registerParticles` call of a sequence of
registry calls (the call succeeds when the count is positive and the type is in `[0,5]`),
and 0 when there was none since construction or the last `resetFields`. -/
def currentCategory (ops : List RegistryOp) : Int :=
  ops.foldl
    (fun cat op =>
      match op with
      | .resetFields => 0
      | .registerParticles np type => if 0 < np ∧ 0 ≤ type ∧ type ≤ 5 then type else cat
      | .registerField _ _ _ _ => cat)
    0

/-- The non-null references registered by a sequence of registry calls since construction
or the last `resetFields`, in the order of the calls. -/
def registeredReferences (ops : List RegistryOp) : List Nat :=
  ops.foldl
    (fun refs op =>
      match op with
      | .resetFields => []
      | .registerParticles _ _ => refs
      | .registerField _ _ _ ptr => if ptr ≠ 0 then refs ++ [ptr] else refs)
    []

/-- The states a caller can reach: the constructor in any environment, then any sequence of
`resetFields`, `registerParticles`, the five `register...Field` functions, `openFiles`,
`closeFiles`, `saveFrame` and `loadFrame`, each with any arguments and whether it ends
normally or is stopped by `XcHandleError`; between two calls the caller may change the
environment (its arrays, the disk). -/
inductive ReachableSys : Sys → Prop
  | construct (raw : H5pio) (W : World) : ReachableSys ⟨construct raw, W⟩
  | environment {s : Sys} (W : World) : ReachableSys s → ReachableSys ⟨s.obj, W⟩
  | resetFields {s : Sys} : ReachableSys s → ReachableSys ⟨resetFields s.obj, s.env⟩
  | registerParticles {s : Sys} (np type : Int) :
      ReachableSys s → ReachableSys ⟨(registerParticles np type s.obj).state, s.env⟩
  | registerField {s : Sys} (kind : FieldKind) (isNodeCentered : Bool) (name : String)
      (ptr : Nat) :
      ReachableSys s → ReachableSys ⟨registerField kind isNodeCentered name ptr s.obj, s.env⟩
  | openFiles {s : Sys} (fileName_in : List Char) :
      ReachableSys s → ReachableSys (openFiles fileName_in s).state
  | closeFiles {s : Sys} : ReachableSys s → ReachableSys (closeFiles s)
  | saveFrame {s : Sys} (time : F32) : ReachableSys s → ReachableSys (saveFrame time s).state
  | loadFrame {s : Sys} : ReachableSys s → ReachableSys (loadFrame s).state

/-- The last path component of a name: the characters after its last delimiter. -/
def lastComponent (X : List Char) : List Char :=
  (X.reverse.takeWhile (fun c => !isDelimiter c)).reverse

/-- The number of suffixes of a name: the dots after its last delimiter. -/
def suffixCount (X : List Char) : Nat := (lastComponent X).countP isDot

/-- The name without its suffix: cut at the last dot, when the last component has one. -/
def stemOf (X : List Char) : List Char :=
  if (lastComponent X).any isDot then ((X.reverse.dropWhile (fun c => !isDot c)).drop 1).reverse
  else X

/-- The name ends in `.`, `/` or `:` (an empty name does not). -/
def endsInSeparator (X : List Char) : Bool :=
  match X.getLast? with
  | some c => c == '.' || c == '/' || c == ':'
  | none => false

/-- The name contains a `.` after its last delimiter. -/
def hasSuffixDot (X : List Char) : Bool := (lastComponent X).any fun c => c == '.'

/-- The part of a name before its last `.`. -/
def beforeLastDot (X : List Char) : List Char :=
  ((X.reverse.dropWhile fun c => c != '.').drop 1).reverse

/-- The name with its maximal trailing run of digit and underscore characters removed. -/
def withoutTrailingId (X : List Char) : List Char :=
  (X.reverse.dropWhile fun c => c == '_' || isDigit c).reverse

/-- The number of maximal runs of digits in a list of characters. -/
def digitGroups : List Char → Nat
  | [] => 0
  | [c] => if isDigit c then 1 else 0
  | c :: d :: rest =>
    (if isDigit c && !isDigit d then 1 else 0) + digitGroups (d :: rest)

/-- The number of trailing numeric ids of a name: the runs of digits in the maximal run of
digits and underscores that ends the name without its suffix. -/
def numericIdCount (X : List Char) : Nat :=
  digitGroups ((stemOf X).reverse.takeWhile (fun c => c == '_' || isDigit c)).reverse

/-- A number below 10000 written with exactly four decimal digits, zero-padded. -/
def fourDigits (i : Nat) : List Char :=
  [Nat.digitChar (i / 1000), Nat.digitChar (i / 100 % 10), Nat.digitChar (i / 10 % 10),
   Nat.digitChar (i % 10)]

/-- The value of a decimal digit character. -/
def digitValue (c : Char) : Nat := c.toNat - 48

/-- The number a string of decimal digits denotes. -/
def decimalValue (cs : List Char) : Nat := cs.foldl (fun acc c => 10 * acc + digitValue c) 0

/-- A caller's loop `for (t : times) saveFrame(t);`, stopped by the first error. -/
def saveFrames (times : List F32) (s : Sys) : Outcome Sys :=
  times.foldl (fun r t => r.andThen (saveFrame t)) (Outcome.ok s)

/-- A caller's loop of `n` calls `loadFrame();`, stopped by the first error. -/
def loadFrames (n : Nat) (s : Sys) : Outcome Sys :=
  (List.range n).foldl (fun r _ => r.andThen loadFrame) (Outcome.ok s)

/-! ## Sample data for the worked instances -/

/-- The memory an `H5pio` object is constructed in. -/
def rawObject : H5pio :=
  { nParticles := fun _ => 0, theParticleType := 0, dataParticleType := [],
    dataIsNodeCentered := [], dataIsBoolean1D := [], dataIsInteger1D := [],
    dataIsFloat1D := [], dataIsFloat3D := [], dataIsGeometry3D := [], dataName := [],
    dataPointer := [], frameTime := 0, endOfFile := false, multiTemporalFrameID := 0,
    theBaseName := [], hdf5Name := [], fileIsOpen := false, file_id := 0, xdmfFileName := [],
    xdmfFileIsOpen := false, xdmfFrameID := 0, xdmfFile := 0, writeXdmfTerminator := false,
    saveXdmfState := ⟨0, false, 0⟩ }

/-- An empty disk and four caller arrays: three `float`s at address 1, three `XcFloat3`s at
address 2, and zeroed arrays of the same sizes at addresses 3 and 4. -/
def sampleWorld : World :=
  { heap := fun p =>
      if p = 1 then [10, 11, 12]
      else if p = 2 then [1, 2, 3, 4, 5, 6, 7, 8, 9]
      else if p = 3 then [0, 0, 0]
      else if p = 4 then [0, 0, 0, 0, 0, 0, 0, 0, 0]
      else []
    lib := ⟨false, fun _ _ v => v⟩
    containers := []
    handles := []
    streams := []
    readOnly := []
    indeterminate := fun _ => 0 }

/-- A writer: three particles of type 0 with the fields `Masses` and `Coordinates`. -/
def sampleWriter : H5pio :=
  registerGeometry3DField true "Coordinates" 2
    (registerFloat1DField true "Masses" 1 (registerParticles 3 0 (construct rawObject)).state)

/-- A reader with the registry of `sampleWriter` and arrays of its own. -/
def sampleReader : H5pio :=
  registerGeometry3DField true "Coordinates" 4
    (registerFloat1DField true "Masses" 3 (registerParticles 3 0 (construct rawObject)).state)

/-- The writer after `openFiles("./data/H5pio")`. -/
def sampleSession : Sys := (openFiles "./data/H5pio".toList ⟨sampleWriter, sampleWorld⟩).state

/-- The writer after `openFiles("./data/H5pio")` and `openXdmfFile("./data/H5pio")`: the
temporal-collection mirror file is open. -/
def sampleCollection : Sys := (openXdmfFile "./data/H5pio".toList sampleSession).state

/-- The lines of the mirror document the sample writer produces with `openXdmfFile`, two
calls of `saveXdmfFrame` (times 0 and 5) and `closeXdmfFile`. -/
def sampleMirrorLines : List XLine :=
  ((closeXdmfFile (saveXdmfFrame 5 (saveXdmfFrame 0 sampleCollection))).env.streams.map
    XStream.lines).headD []

/-- The sample writer after `openFiles("./data/H5pio")`, `openXdmfFile("./data/H5pio")`,
`saveXdmfFrame(0)` and `saveXdmfFrame(5)`: the mirror file is open and holds the header and
two frame blocks. -/
def sampleTwoFrames : Sys := saveXdmfFrame 5 (saveXdmfFrame 0 sampleCollection)

/-- The disk after the sample writer saved one frame at time 42 and closed its files. -/
def sampleSaved : World := (closeFiles (saveFrame 42 sampleSession).state).env

/-- A reader that registered 4 particles of type 0 (the sample writer registered 3), after
`openFiles("./data/H5pio")` on the disk `sampleSaved`. -/
def sampleMismatch : Sys :=
  (openFiles "./data/H5pio".toList
    ⟨registerFloat1DField true "Masses" 3 (registerParticles 4 0 (construct rawObject)).state,
     sampleSaved⟩).state

/-- The number of lines of a mirror document written with the format `format`; every
element of a frame block is opened by a line of its own format. -/
def countFormat (format : String) (lines : List XLine) : Nat :=
  lines.countP fun l => l.format == format

/-- The number of opening lines of `Attribute` elements (scalar or vector). -/
def countAttributes (lines : List XLine) : Nat :=
  countFormat "        <Attribute Name=\"%s\" AttributeType=\"Scalar\" Center=\"%s\">\n" lines +
  countFormat "        <Attribute Name=\"%s\" AttributeType=\"Vector\" Center=\"%s\">\n" lines

/-- The frame block `saveXdmfFrame(42)` appends to the open temporal collection of the
sample writer: the lines after the six header lines. -/
def sampleBlock : List XLine :=
  (((saveXdmfFrame 42 sampleCollection).env.streams.map XStream.lines).headD []).drop 6

section Basics

variable {σ : Type}

theorem Outcome.andThen_ok (s : σ) (f : σ → Outcome σ) : (Outcome.ok s).andThen f = f s := rfl

theorem Outcome.andThen_of_none {r : Outcome σ} (f : σ → Outcome σ) (h : r.error = none) :
    r.andThen f = f r.state := by
  unfold Outcome.andThen; rw [h]

theorem Outcome.andThen_of_some {r : Outcome σ} (f : σ → Outcome σ) {e : XcError}
    (h : r.error = some e) : r.andThen f = r := by
  unfold Outcome.andThen; rw [h]

theorem Outcome.andThen_error_none {r : Outcome σ} {f : σ → Outcome σ}
    (h : (r.andThen f).error = none) : r.error = none ∧ (f r.state).error = none := by
  unfold Outcome.andThen at h
  cases hr : r.error with
  | none => rw [hr] at h; exact ⟨rfl, h⟩
  | some e => rw [hr] at h; simp [hr] at h

theorem XcHandleError_false (a b : String) (s : σ) : XcHandleError false a b s = Outcome.ok s := rfl

theorem XcHandleError_true (a b : String) (s : σ) :
    XcHandleError true a b s = ⟨some ⟨a, b⟩, s⟩ := rfl

theorem XcHandleError_state (c : Bool) (a b : String) (s : σ) :
    (XcHandleError c a b s).state = s := by
  cases c <;> rfl

theorem XcHandleError_error_none (c : Bool) (a b : String) (s : σ) :
    (XcHandleError c a b s).error = none ↔ c = false := by
  cases c <;> simp [XcHandleError]

end Basics

theorem modifyAt_length {α : Type} (g : α → α) (n : Nat) (l : List α) :
    (modifyAt g n l).length = l.length := by
  induction l generalizing n with
  | nil => cases n <;> rfl
  | cons x xs ih => cases n <;> simp [modifyAt, ih]

theorem modifyAt_modifyAt {α : Type} (g h : α → α) (n : Nat) (l : List α) :
    modifyAt h n (modifyAt g n l) = modifyAt (fun x => h (g x)) n l := by
  induction l generalizing n with
  | nil => cases n <;> rfl
  | cons x xs ih => cases n <;> simp [modifyAt, ih]

theorem modifyAt_id {α : Type} (g : α → α) (hg : ∀ x, g x = x) (n : Nat) (l : List α) :
    modifyAt g n l = l := by
  induction l generalizing n with
  | nil => cases n <;> rfl
  | cons x xs ih => cases n <;> simp [modifyAt, ih, hg]

theorem modifyAt_getElem? {α : Type} (g : α → α) (n m : Nat) (l : List α) :
    (modifyAt g n l)[m]? = if m = n then (l[m]?).map g else l[m]? := by
  induction l generalizing n m with
  | nil => cases n <;> simp [modifyAt]
  | cons x xs ih =>
    cases n with
    | zero => cases m <;> simp [modifyAt]
    | succ n => cases m <;> simp [modifyAt, ih]

theorem modifyAt_append_left {α : Type} (g : α → α) (n : Nat) (l r : List α) (h : n < l.length) :
    modifyAt g n (l ++ r) = modifyAt g n l ++ r := by
  induction l generalizing n with
  | nil => simp at h
  | cons x xs ih =>
    cases n with
    | zero => simp [modifyAt]
    | succ n => simp at h; simp [modifyAt, ih n h]

theorem modifyAt_append_right {α : Type} (g : α → α) (l : List α) (x : α) :
    modifyAt g l.length (l ++ [x]) = l ++ [g x] := by
  induction l with
  | nil => rfl
  | cons y ys ih => simp [modifyAt, ih]

/-! ## The registry (C10) -/

theorem registerParticles_fail (np type : Int) (o : H5pio)
    (h : np ≤ 0 ∨ type < 0 ∨ type > 5) :
    (registerParticles np type o).error.isSome = true ∧ (registerParticles np type o).state = o := by
  unfold registerParticles
  by_cases h1 : np ≤ 0
  · simp [h1, XcHandleError, Outcome.andThen]
  · have h2 : type < 0 ∨ type > 5 := by tauto
    have h3 : (decide (type < 0) || decide (type > 5)) = true := by simpa using h2
    simp [h1, h3, XcHandleError, Outcome.andThen]

theorem registerParticles_ok (np type : Int) (o : H5pio)
    (h : ¬ (np ≤ 0 ∨ type < 0 ∨ type > 5)) :
    registerParticles np type o = Outcome.ok
      { o with
        nParticles := Function.update o.nParticles (Fin.ofNat type.toNat) np
        theParticleType := type } := by
  unfold registerParticles
  have h1 : ¬ np ≤ 0 := by tauto
  have h3 : (decide (type < 0) || decide (type > 5)) = false := by
    simp only [Bool.or_eq_false_iff, decide_eq_false_iff_not]; tauto
  simp [h1, h3, XcHandleError, Outcome.andThen, Outcome.ok]

/-- C10: `registerParticles(np, type)` fails exactly when `np <= 0` or `type` is outside
`[0,5]`; a failing call leaves the object as it was; a successful call sets the count of
category `type` to `np` (so `getNumberOfParticles(type)` is `np`), makes `type` the current
category, and changes no other count and no descriptor vector. -/
theorem C10_registerParticles (np type : Int) (o : H5pio) :
    ((registerParticles np type o).error.isSome = true ↔ (np ≤ 0 ∨ type < 0 ∨ type > 5)) ∧
    ((registerParticles np type o).error.isSome = true → (registerParticles np type o).state = o) ∧
    ((registerParticles np type o).error = none →
      getNumberOfParticles type (registerParticles np type o).state = np ∧
      (registerParticles np type o).state.theParticleType = type ∧
      (∀ c : Int, 0 ≤ c → c ≤ 5 → c ≠ type →
        getNumberOfParticles c (registerParticles np type o).state = getNumberOfParticles c o) ∧
      (registerParticles np type o).state.dataParticleType = o.dataParticleType ∧
      (registerParticles np type o).state.dataIsNodeCentered = o.dataIsNodeCentered ∧
      (registerParticles np type o).state.dataIsBoolean1D = o.dataIsBoolean1D ∧
      (registerParticles np type o).state.dataIsInteger1D = o.dataIsInteger1D ∧
      (registerParticles np type o).state.dataIsFloat1D = o.dataIsFloat1D ∧
      (registerParticles np type o).state.dataIsFloat3D = o.dataIsFloat3D ∧
      (registerParticles np type o).state.dataIsGeometry3D = o.dataIsGeometry3D ∧
      (registerParticles np type o).state.dataName = o.dataName ∧
      (registerParticles np type o).state.dataPointer = o.dataPointer) := by
  by_cases h : np ≤ 0 ∨ type < 0 ∨ type > 5
  · have hf := registerParticles_fail np type o h
    refine ⟨⟨fun _ => h, fun _ => hf.1⟩, fun _ => hf.2, fun hn => ?_⟩
    rw [hn] at hf; simp at hf
  · have hk := registerParticles_ok np type o h
    rw [hk]
    refine ⟨⟨fun he => by simp [Outcome.ok] at he, fun hh => absurd hh h⟩,
      fun he => by simp [Outcome.ok] at he, fun _ => ?_⟩
    have h0 : 0 ≤ type := by omega
    have h5 : type ≤ 5 := by omega
    refine ⟨by simp [Outcome.ok, getNumberOfParticles, H5pio.count], rfl, ?_,
      rfl, rfl, rfl, rfl, rfl, rfl, rfl, rfl, rfl⟩
    intro c hc0 hc5 hne
    have hfin : (Fin.ofNat c.toNat : Fin 6) ≠ Fin.ofNat type.toNat := by
      intro heq
      have := congrArg Fin.val heq
      simp [Fin.ofNat] at this
      omega
    simp [Outcome.ok, getNumberOfParticles, H5pio.count, Function.update_noteq hfin]

/-! ## What the mirror writes -/

theorem onStream_onStream (w : World) (fp : Nat) (g h : XStream → XStream) :
    (w.onStream fp g).onStream fp h = w.onStream fp (fun st => h (g st)) := by
  unfold World.onStream
  by_cases hfp : fp = 0
  · simp [hfp]
  · simp [hfp, modifyAt_modifyAt]

theorem onStream_id (w : World) (fp : Nat) (g : XStream → XStream) (hg : ∀ st, g st = st) :
    w.onStream fp g = w := by
  unfold World.onStream
  by_cases hfp : fp = 0
  · simp [hfp]
  · simp [hfp, modifyAt_id g hg]

theorem fprintf_eq_emit (s : Sys) (format : String) (args : List XArg) :
    fprintf s format args = emit s [⟨format, args⟩] := rfl

@[simp] theorem emit_obj (s : Sys) (ls : List XLine) : (emit s ls).obj = s.obj := rfl

theorem emit_nil (s : Sys) : emit s [] = s := by
  unfold emit
  rw [onStream_id]
  intro st; simp

theorem emit_emit (s : Sys) (a b : List XLine) : emit (emit s a) b = emit s (a ++ b) := by
  unfold emit
  simp [onStream_onStream, List.append_assoc]

theorem emit_congr_obj (s : Sys) (o : H5pio) (ls : List XLine) (h : o.xdmfFile = s.obj.xdmfFile) :
    emit { s with obj := o } ls = { emit s ls with obj := o } := by
  unfold emit; simp [h]

theorem writeXdmfAttributeBoolean1D_eq (np : Int) (partType name : String) (c : Bool) (s : Sys)
    (h : s.obj.xdmfFileIsOpen = true) :
    writeXdmfAttributeBoolean1D np partType name c s = emit s (xdmfAttributeLines s.obj.hdf5Name
      "        <Attribute Name=\"%s\" AttributeType=\"Scalar\" Center=\"%s\">\n"
      "          <DataItem Dimensions=\"%d\" NumberType=\"Char\" Precision=\"1\" Format=\"HDF\" >\n"
      np partType name c) := by
  simp [writeXdmfAttributeBoolean1D, h, fprintf_eq_emit, emit_emit, xdmfAttributeLines, xdmfReference]

theorem writeXdmfAttributeInteger1D_eq (np : Int) (partType name : String) (c : Bool) (s : Sys)
    (h : s.obj.xdmfFileIsOpen = true) :
    writeXdmfAttributeInteger1D np partType name c s = emit s (xdmfAttributeLines s.obj.hdf5Name
      "        <Attribute Name=\"%s\" AttributeType=\"Scalar\" Center=\"%s\">\n"
      "          <DataItem Dimensions=\"%d\" NumberType=\"Integer\" Precision=\"4\" Format=\"HDF\" >\n"
      np partType name c) := by
  simp [writeXdmfAttributeInteger1D, h, fprintf_eq_emit, emit_emit, xdmfAttributeLines, xdmfReference]

theorem writeXdmfAttributeFloat1D_eq (np : Int) (partType name : String) (c : Bool) (s : Sys)
    (h : s.obj.xdmfFileIsOpen = true) :
    writeXdmfAttributeFloat1D np partType name c s = emit s (xdmfAttributeLines s.obj.hdf5Name
      "        <Attribute Name=\"%s\" AttributeType=\"Scalar\" Center=\"%s\">\n"
      "          <DataItem Dimensions=\"%d\" NumberType=\"Float\" Precision=\"4\" Format=\"HDF\" >\n"
      np partType name c) := by
  simp [writeXdmfAttributeFloat1D, h, fprintf_eq_emit, emit_emit, xdmfAttributeLines, xdmfReference]

theorem writeXdmfAttributeFloat3D_eq (np : Int) (partType name : String) (c : Bool) (s : Sys)
    (h : s.obj.xdmfFileIsOpen = true) :
    writeXdmfAttributeFloat3D np partType name c s = emit s (xdmfAttributeLines s.obj.hdf5Name
      "        <Attribute Name=\"%s\" AttributeType=\"Vector\" Center=\"%s\">\n"
      "          <DataItem Dimensions=\"%d 3\" NumberType=\"Float\" Precision=\"4\" Format=\"HDF\" >\n"
      np partType name c) := by
  simp [writeXdmfAttributeFloat3D, h, fprintf_eq_emit, emit_emit, xdmfAttributeLines, xdmfReference]

theorem writeXdmfGeometry3D_eq (np : Int) (partType name : String) (s : Sys)
    (h : s.obj.xdmfFileIsOpen = true) :
    writeXdmfGeometry3D np partType name s = emit s
      [⟨"\n", []⟩,
       ⟨"        <Geometry GeometryType=\"XYZ\">\n", []⟩,
       ⟨"          <DataItem Dimensions=\"%d 3\" NumberType=\"Float\" Precision=\"4\" Format=\"HDF\" >\n", [.d np]⟩,
       xdmfReference s.obj.hdf5Name partType name,
       ⟨"          </DataItem>\n", []⟩,
       ⟨"        </Geometry>\n", []⟩] := by
  simp [writeXdmfGeometry3D, h, fprintf_eq_emit, emit_emit, xdmfReference]

theorem saveXdmfField_eq (s : Sys) (pg : Nat) (h : s.obj.xdmfFileIsOpen = true) :
    saveXdmfField s pg = emit s (xdmfFieldLines s.obj pg) := by
  unfold saveXdmfField xdmfFieldLines
  simp only [fprintf_eq_emit, emit_obj]
  split_ifs <;>
    simp [writeXdmfAttributeBoolean1D_eq, writeXdmfAttributeInteger1D_eq,
      writeXdmfAttributeFloat1D_eq, writeXdmfAttributeFloat3D_eq, writeXdmfGeometry3D_eq, h,
      emit_emit]

theorem foldl_saveXdmfField (l : List Nat) (s : Sys) (h : s.obj.xdmfFileIsOpen = true) :
    l.foldl saveXdmfField s = emit s (l.flatMap (xdmfFieldLines s.obj)) := by
  induction l generalizing s with
  | nil => simp [emit_nil]
  | cons pg rest ih =>
    rw [List.foldl_cons, saveXdmfField_eq s pg h, ih _ (by simpa using h)]
    simp [emit_emit]

theorem saveXdmfFrame_closed (time : F32) (s : Sys) (h : s.obj.xdmfFileIsOpen = false) :
    saveXdmfFrame time s = s := by
  simp [saveXdmfFrame, h]

theorem saveXdmfFrame_open_aux (time : F32) (s : Sys) (h : s.obj.xdmfFileIsOpen = true) :
    saveXdmfFrame time s =
      emit { s with obj := { s.obj with xdmfFrameID := s.obj.xdmfFrameID + 1 } }
        (xdmfFrameLines s.obj time) := by
  have hopen : ¬ ((!s.obj.xdmfFileIsOpen) = true) := by rw [h]; simp
  unfold saveXdmfFrame
  rw [if_neg hopen]
  simp only [fprintf_eq_emit, emit_emit, emit_obj]
  by_cases hn : s.obj.dataName.length = 0
  · have hpos : ¬ ((s.obj.dataName.length : Int) > 0) := by omega
    rw [if_neg hpos]
    simp only [emit_emit, xdmfFrameLines, hn, List.range_zero, List.flatMap_nil,
      List.append_nil, List.cons_append, List.nil_append]
  · have hpos : ((s.obj.dataName.length : Int) > 0) := by omega
    rw [if_pos hpos, foldl_saveXdmfField]
    · simp only [emit_emit, emit_obj, xdmfFrameLines, Int.toNat_ofNat, List.append_assoc,
        List.cons_append, List.nil_append]
      rfl
    · exact h

theorem saveXdmfFrame_open (time : F32) (s : Sys) (h : s.obj.xdmfFileIsOpen = true) :
    saveXdmfFrame time s =
      { emit s (xdmfFrameLines s.obj time) with
        obj := { s.obj with xdmfFrameID := s.obj.xdmfFrameID + 1 } } := by
  rw [saveXdmfFrame_open_aux time s h]
  rfl

/-! ## File names -/

theorem charAt_append_left (a b : List Char) (i : Nat) (h : i < a.length) :
    charAt (a ++ b) i = charAt a i := by
  simp [charAt, List.getD_eq_getElem?_getD, List.getElem?_append_left h]

theorem charAt_append_right (a b : List Char) (i : Nat) :
    charAt (a ++ b) (a.length + i) = charAt b i := by
  simp [charAt, List.getD_eq_getElem?_getD, List.getElem?_append_right]

theorem charAt_mem (s : List Char) (i : Nat) (h : i < s.length) : charAt s i ∈ s := by
  simp [charAt, List.getD_eq_getElem?_getD, List.getElem?_eq_getElem h]

theorem stripSuffixLoop_eq (f : List Char) (k : Nat) :
    ∀ j, k ≤ j → (k = 0 ∨ (isDot (charAt f k) || isDelimiter (charAt f k)) = true) →
      (∀ i, k < i → i ≤ j → (isDot (charAt f i) || isDelimiter (charAt f i)) = false) →
      stripSuffixLoop f j = k := by
  intro j
  induction j with
  | zero => intro hk _ _; simp [stripSuffixLoop]; omega
  | succ j ih =>
    intro hkj hk hb
    by_cases hkeq : k = j + 1
    · subst hkeq
      have h1 : (isDot (charAt f (j + 1)) || isDelimiter (charAt f (j + 1))) = true := by
        rcases hk with h | h
        · omega
        · exact h
      simp [stripSuffixLoop, h1]
    · have hle : k ≤ j := by omega
      have h1 := hb (j + 1) (by omega) (le_refl _)
      rw [stripSuffixLoop]
      simp only [h1, Bool.not_false, if_true]
      exact ih hle hk (fun i hi hij => hb i hi (by omega))

theorem stripSuffixLoop_le (f : List Char) : ∀ j, stripSuffixLoop f j ≤ j := by
  intro j
  induction j with
  | zero => simp [stripSuffixLoop]
  | succ j ih =>
    rw [stripSuffixLoop]
    split_ifs
    · omega
    · omega

/-- Stripping the suffix of `a.ext` gives `a` when `ext` is non-empty and free of dots and
delimiters. -/
theorem stripSuffix_append_ext (a ext : List Char) (hne : ext ≠ [])
    (hext : ∀ c ∈ ext, (isDot c || isDelimiter c) = false) :
    stripSuffix (a ++ '.' :: ext) = .ok a := by
  have hlen : (a ++ '.' :: ext).length = a.length + 1 + ext.length := by simp; omega
  have hpos : 0 < ext.length := List.length_pos.mpr hne
  have hchar : ∀ i, a.length < i → i ≤ a.length + ext.length →
      (isDot (charAt (a ++ '.' :: ext) i) || isDelimiter (charAt (a ++ '.' :: ext) i)) = false := by
    intro i h1 h2
    obtain ⟨m, rfl⟩ : ∃ m, i = a.length + (m + 1) := ⟨i - a.length - 1, by omega⟩
    rw [charAt_append_right]
    have : charAt ('.' :: ext) (m + 1) = charAt ext m := by simp [charAt]
    rw [this]
    exact hext _ (charAt_mem ext m (by omega))
  have hdot : charAt (a ++ '.' :: ext) a.length = '.' := by
    have := charAt_append_right a ('.' :: ext) 0
    simpa [charAt] using this
  have hloop : stripSuffixLoop (a ++ '.' :: ext) (a.length + ext.length) = a.length := by
    apply stripSuffixLoop_eq
    · omega
    · right; rw [hdot]; rfl
    · exact hchar
  unfold stripSuffix
  simp only [stringLength, hlen]
  have hidx : ((↑(a.length + 1 + ext.length) : Int) - 1).toNat = a.length + ext.length := by omega
  have hneg : ¬ ((↑(a.length + 1 + ext.length) : Int) - 1 < 0) := by omega
  rw [if_neg hneg, hidx, hchar _ (by omega) (le_refl _)]
  simp only [Bool.false_eq_true, if_false, hloop, hdot]
  simp [isDot]

theorem addSuffix_append_ext (a ext suffix : List Char) (hne : ext ≠ [])
    (hext : ∀ c ∈ ext, (isDot c || isDelimiter c) = false) :
    addSuffix (a ++ '.' :: ext) suffix = .ok (a ++ suffix) := by
  simp [addSuffix, stripSuffix_append_ext a ext hne hext, stringCat]

theorem frameFileName_eq (base : List Char) (n : Int) :
    frameFileName base n = (base ++ '_' :: fmt04d n) ++ '.' :: "hdf5".toList := by
  simp [frameFileName]

/-- The name handed to `H5Fcreate` / `H5Fopen` for a frame is the frame file name itself:
`addSuffix` strips `.hdf5` and appends it again. -/
theorem addSuffix_frameFileName (base : List Char) (n : Int) :
    addSuffix (frameFileName base n) ".hdf5".toList = .ok (frameFileName base n) := by
  rw [frameFileName_eq, addSuffix_append_ext _ _ _ (by decide) (by decide)]
  rfl

/-- The per-frame mirror document has the frame file name with `.xdmf` for `.hdf5`. -/
theorem addSuffix_frameFileName_xdmf (base : List Char) (n : Int) :
    addSuffix (frameFileName base n) ".xdmf".toList = .ok (frameMirrorName base n) := by
  rw [frameFileName_eq, addSuffix_append_ext _ _ _ (by decide) (by decide)]
  rfl

/-! ## The steps of `saveFrame` -/

theorem openH5File_create_ok (fileName name : List Char) (s : Sys)
    (hadd : addSuffix fileName ".hdf5".toList = .ok name) (hw : name ∉ s.env.readOnly) :
    openH5File fileName true s = Outcome.ok
      ⟨{ s.obj with
          frameTime := 0, endOfFile := false, hdf5Name := name,
          file_id := (s.env.handles.length : Int) + 1, fileIsOpen := true },
       { s.env with
          containers := assocSet name ⟨[]⟩ s.env.containers
          handles := s.env.handles ++ [name] }⟩ := by
  unfold openH5File
  simp only [stringCopy, hadd, H5Fcreate, if_true, if_neg hw]
  have hneg : decide ((s.env.handles.length : Int) + 1 < 0) = false := by
    simp only [decide_eq_false_iff_not]; omega
  simp only [hneg, XcHandleError_false, Outcome.andThen_ok]

theorem openH5File_create_fail (fileName name : List Char) (s : Sys)
    (hadd : addSuffix fileName ".hdf5".toList = .ok name) (hw : name ∈ s.env.readOnly) :
    (openH5File fileName true s).error ≠ none := by
  unfold openH5File
  simp only [stringCopy, hadd, H5Fcreate, if_true, if_pos hw]
  simp [XcHandleError, Outcome.andThen]

theorem openXdmfFile_default_ok (name : List Char) (s : Sys)
    (hadd : addSuffix s.obj.hdf5Name ".xdmf".toList = .ok name) (hw : name ∉ s.env.readOnly) :
    openXdmfFile [] s = Outcome.ok
      ⟨{ s.obj with
          xdmfFileName := name, xdmfFile := s.env.streams.length + 1, xdmfFileIsOpen := true,
          xdmfFrameID := 0, writeXdmfTerminator := true },
       { s.env with
          streams := s.env.streams ++ [⟨name, xdmfHeaderLines, false, 0, false⟩] }⟩ := by
  unfold openXdmfFile
  have h0 : ¬ (stringLength ([] : List Char) > 0) := by simp [stringLength]
  simp only [if_neg h0, stringCopy, hadd, fopenW, if_neg hw]
  have hne : decide (s.env.streams.length + 1 ≠ 0) = true := by simp
  simp only [hne, Bool.not_true, XcHandleError_false, Outcome.andThen_ok, fprintf_eq_emit,
    emit_emit]
  simp only [emit, World.onStream, Nat.add_sub_cancel, Nat.succ_ne_zero, if_false,
    modifyAt_append_right, Outcome.ok, xdmfHeaderLines]
  rfl

theorem openXdmfFile_default_fail (name : List Char) (s : Sys)
    (hadd : addSuffix s.obj.hdf5Name ".xdmf".toList = .ok name) (hw : name ∈ s.env.readOnly) :
    (openXdmfFile [] s).error ≠ none := by
  unfold openXdmfFile
  have h0 : ¬ (stringLength ([] : List Char) > 0) := by simp [stringLength]
  simp only [if_neg h0, stringCopy, hadd, fopenW, if_pos hw]
  simp [XcHandleError, Outcome.andThen]

theorem assocSet_assocSet {κ β : Type} [DecidableEq κ] (k : κ) (v w : β) (l : List (κ × β)) :
    assocSet k w (assocSet k v l) = assocSet k w l := by
  induction l with
  | nil => simp [assocSet]
  | cons p rest ih =>
    obtain ⟨k', v'⟩ := p
    by_cases h : k' = k
    · simp [assocSet, h]
    · simp [assocSet, h, ih]

section Assoc

variable {κ β : Type} [BEq κ] [LawfulBEq κ] [DecidableEq κ]

theorem lookup_assocSet_self (k : κ) (v : β) (l : List (κ × β)) :
    (assocSet k v l).lookup k = some v := by
  induction l with
  | nil => simp [assocSet, List.lookup]
  | cons p rest ih =>
    obtain ⟨k', v'⟩ := p
    by_cases h : k' = k
    · simp [assocSet, h, List.lookup]
    · have h' : (k == k') = false := by simp [Ne.symm h]
      simp [assocSet, h, List.lookup, h', ih]

theorem lookup_assocSet_ne (k k' : κ) (v : β) (l : List (κ × β)) (hne : k' ≠ k) :
    (assocSet k v l).lookup k' = l.lookup k' := by
  induction l with
  | nil =>
    have h' : (k' == k) = false := by simp [hne]
    simp [assocSet, List.lookup, h']
  | cons p rest ih =>
    obtain ⟨k₀, v₀⟩ := p
    by_cases h : k₀ = k
    · subst h
      have h' : (k' == k₀) = false := by simp [hne]
      simp [assocSet, List.lookup, h']
    · by_cases h2 : k' = k₀
      · subst h2
        simp [assocSet, h, List.lookup]
      · have h' : (k' == k₀) = false := by simp [h2]
        simp [assocSet, h, List.lookup, h', ih]

theorem lookup_assocSet (k k' : κ) (v : β) (l : List (κ × β)) :
    (assocSet k v l).lookup k' = if k' = k then some v else l.lookup k' := by
  by_cases h : k' = k
  · subst h; simp [lookup_assocSet_self]
  · simp [h, lookup_assocSet_ne k k' v l h]

end Assoc

theorem onContainer_eq (w : World) (file_id : Int) (g : H5File → H5File) (path : List Char)
    (f : H5File) (hid : 0 < file_id) (hh : w.handles[file_id.toNat - 1]? = some path)
    (hc : w.containers.lookup path = some f) :
    w.onContainer file_id g = { w with containers := assocSet path (g f) w.containers } := by
  unfold World.onContainer
  have : ¬ file_id ≤ 0 := by omega
  simp [this, hh, hc]

theorem container_eq (w : World) (file_id : Int) (path : List Char)
    (hid : 0 < file_id) (hh : w.handles[file_id.toNat - 1]? = some path) :
    w.container file_id = w.containers.lookup path := by
  unfold World.container
  have : ¬ file_id ≤ 0 := by omega
  simp [this, hh]

theorem emit_last (s : Sys) (st : XStream) (l : List XStream) (ls : List XLine)
    (hfp : s.obj.xdmfFile = l.length + 1) (hs : s.env.streams = l ++ [st]) :
    emit s ls = ⟨s.obj, { s.env with streams := l ++ [{ st with lines := st.lines ++ ls }] }⟩ := by
  simp only [emit, World.onStream, hfp, hs, Nat.add_sub_cancel, Nat.succ_ne_zero, if_false,
    modifyAt_append_right]

theorem saveH5Frame_created (time : F32) (s : Sys) (name : List Char) (h : List (List Char))
    (c : List (List Char × H5File))
    (hopen : s.obj.fileIsOpen = true) (heof : s.obj.endOfFile = false)
    (hid : s.obj.file_id = (h.length : Int) + 1) (hh : s.env.handles = h ++ [name])
    (hc : s.env.containers = assocSet name ⟨[]⟩ c) :
    saveH5Frame time s
      = ⟨{ s.obj with frameTime := time },
         { s.env with
            containers := assocSet name
              (frameContainer s.env.lib s.env.heap { s.obj with frameTime := time }) c }⟩ := by
  unfold saveH5Frame
  simp only [hopen, heof, Bool.not_true, Bool.or_self, Bool.false_eq_true, if_false]
  rw [onContainer_eq _ _ _ name ⟨[]⟩]
  · simp only [hc, assocSet_assocSet, frameContainer]
  · simp [hid]
  · simp [hid, hh]
  · rw [hc]; exact lookup_assocSet_self _ _ _

theorem saveFrameStandalone_ok (time : F32) (s : Sys)
    (hh : frameFileName s.obj.theBaseName (s.obj.multiTemporalFrameID + 1) ∉ s.env.readOnly)
    (hx : frameMirrorName s.obj.theBaseName (s.obj.multiTemporalFrameID + 1) ∉ s.env.readOnly) :
    saveFrameStandalone time s = Outcome.ok (afterStandalone time s) := by
  unfold saveFrameStandalone
  simp only [pushXdmfState]
  rw [openH5File_create_ok _ (frameFileName s.obj.theBaseName (s.obj.multiTemporalFrameID + 1)) _
      (by exact addSuffix_frameFileName _ _) (by exact hh), Outcome.andThen_ok]
  rw [openXdmfFile_default_ok
      (frameMirrorName s.obj.theBaseName (s.obj.multiTemporalFrameID + 1)) _
      (by exact addSuffix_frameFileName_xdmf _ _) (by exact hx), Outcome.andThen_ok]
  rw [saveH5Frame_created time _ (frameFileName s.obj.theBaseName (s.obj.multiTemporalFrameID + 1))
      s.env.handles s.env.containers rfl rfl rfl rfl rfl]
  rw [saveXdmfFrame_open _ _ rfl]
  rw [emit_last _ _ s.env.streams _ rfl rfl]
  simp only [closeH5File, closeXdmfFile, popXdmfState, Bool.not_true, Bool.false_eq_true,
    if_false, if_true, fprintf_eq_emit, emit_emit, fclose]
  rw [emit_last _ _ s.env.streams _ rfl rfl]
  simp only [World.onStream, Nat.add_sub_cancel, Nat.succ_ne_zero, if_false,
    modifyAt_append_right, Outcome.ok]
  rfl

theorem saveFrameStandalone_error_none_iff (time : F32) (s : Sys) :
    (saveFrameStandalone time s).error = none ↔
      frameFileName s.obj.theBaseName (s.obj.multiTemporalFrameID + 1) ∉ s.env.readOnly ∧
      frameMirrorName s.obj.theBaseName (s.obj.multiTemporalFrameID + 1) ∉ s.env.readOnly := by
  constructor
  · intro h
    by_contra hcon
    by_cases hh : frameFileName s.obj.theBaseName (s.obj.multiTemporalFrameID + 1) ∈ s.env.readOnly
    · unfold saveFrameStandalone at h
      simp only [pushXdmfState] at h
      have h1 := (Outcome.andThen_error_none h).1
      exact openH5File_create_fail _
        (frameFileName s.obj.theBaseName (s.obj.multiTemporalFrameID + 1)) _
        (by exact addSuffix_frameFileName _ _) (by exact hh) h1
    · have hx : frameMirrorName s.obj.theBaseName (s.obj.multiTemporalFrameID + 1)
          ∈ s.env.readOnly := by tauto
      unfold saveFrameStandalone at h
      simp only [pushXdmfState] at h
      rw [openH5File_create_ok _ (frameFileName s.obj.theBaseName (s.obj.multiTemporalFrameID + 1)) _
        (by exact addSuffix_frameFileName _ _) (by exact hh), Outcome.andThen_ok] at h
      have h1 := (Outcome.andThen_error_none h).1
      exact openXdmfFile_default_fail
        (frameMirrorName s.obj.theBaseName (s.obj.multiTemporalFrameID + 1)) _
        (by exact addSuffix_frameFileName_xdmf _ _) (by exact hx) h1
  · rintro ⟨hh, hx⟩
    rw [saveFrameStandalone_ok time s hh hx]; rfl

theorem saveFrame_error_none_iff (time : F32) (s : Sys) :
    (saveFrame time s).error = none ↔
      frameFileName s.obj.theBaseName (s.obj.multiTemporalFrameID + 1) ∉ s.env.readOnly ∧
      frameMirrorName s.obj.theBaseName (s.obj.multiTemporalFrameID + 1) ∉ s.env.readOnly := by
  rw [← saveFrameStandalone_error_none_iff time s]
  constructor
  · intro h; exact (Outcome.andThen_error_none h).1
  · intro h
    unfold saveFrame
    rw [Outcome.andThen_of_none _ h]; rfl

theorem saveFrame_ok (time : F32) (s : Sys) (hok : (saveFrame time s).error = none) :
    saveFrame time s = Outcome.ok
      (saveXdmfFrame time
        { afterStandalone time s with
          obj := { (afterStandalone time s).obj with xdmfFrameID := 0 } }) := by
  obtain ⟨hh, hx⟩ := (saveFrame_error_none_iff time s).mp hok
  unfold saveFrame
  rw [saveFrameStandalone_ok time s hh hx, Outcome.andThen_ok]

/-! ## Decimal rendering -/

theorem toDigitsCore_fuel (f : Nat) : ∀ (g n : Nat) (acc : List Char),
    n < 10 ^ f → 0 < f → n < 10 ^ g → 0 < g →
    Nat.toDigitsCore 10 g n acc = Nat.toDigitsCore 10 f n acc := by
  induction f with
  | zero => intro g n acc _ h; omega
  | succ f ih =>
    intro g n acc hf _ hg hgpos
    obtain ⟨g, rfl⟩ : ∃ g', g = g' + 1 := ⟨g - 1, by omega⟩
    simp only [Nat.toDigitsCore]
    by_cases h0 : n / 10 = 0
    · simp [h0]
    · simp only [h0, if_false]
      have hn : 10 ≤ n := by
        by_contra hlt
        exact h0 (Nat.div_eq_of_lt (by omega))
      have hfpos : 0 < f := by
        rcases Nat.eq_zero_or_pos f with h | h
        · subst h; simp at hf; omega
        · exact h
      have hgpos' : 0 < g := by
        rcases Nat.eq_zero_or_pos g with h | h
        · subst h; simp at hg; omega
        · exact h
      have hf' : n / 10 < 10 ^ f := by
        rw [Nat.div_lt_iff_lt_mul (by norm_num)]
        rw [pow_succ] at hf; exact hf
      have hg' : n / 10 < 10 ^ g := by
        rw [Nat.div_lt_iff_lt_mul (by norm_num)]
        rw [pow_succ] at hg; exact hg
      exact ih g (n / 10) _ hf' hfpos hg' hgpos'

theorem toDigits_lt_10000 (n : Nat) (h : n < 10000) :
    Nat.toDigits 10 n = Nat.toDigitsCore 10 4 n [] := by
  unfold Nat.toDigits
  apply toDigitsCore_fuel 4 (n + 1) n [] (by omega) (by omega) _ (by omega)
  calc n < 2 ^ n := Nat.lt_two_pow n
    _ ≤ 10 ^ n := Nat.pow_le_pow_left (by norm_num) n
    _ ≤ 10 ^ (n + 1) := Nat.pow_le_pow_right (by norm_num) (by omega)



theorem fmt04d_eq_fourDigits (i : Nat) (h : i < 10000) : fmt04d (i : Int) = fourDigits i := by
  have hneg : ¬ ((i : Int) < 0) := by omega
  unfold fmt04d
  rw [if_neg hneg, Int.toNat_ofNat, toDigits_lt_10000 i h]
  have e1 : i / 10 / 10 = i / 100 := by omega
  have e2 : i / 100 / 10 = i / 1000 := by omega
  have hz : Nat.digitChar 0 = '0' := rfl
  simp only [Nat.toDigitsCore, fourDigits, e1, e2]
  by_cases h1 : i / 10 = 0
  · have a1 : i / 1000 = 0 := by omega
    have a2 : i / 100 = 0 := by omega
    simp [h1, a1, a2, hz]
  · by_cases h2 : i / 100 = 0
    · have a1 : i / 1000 = 0 := by omega
      simp [h1, h2, a1, hz]
    · by_cases h3 : i / 1000 = 0
      · simp [h1, h2, h3, hz]
      · have a4 : i / 1000 / 10 = 0 := by omega
        have a5 : i / 1000 % 10 = i / 1000 := by omega
        simp [h1, h2, h3, a4, a5]

theorem digitValue_digitChar (d : Nat) (h : d < 10) : digitValue (Nat.digitChar d) = d := by
  interval_cases d <;> rfl

theorem decimalValue_fourDigits (i : Nat) (h : i < 10000) : decimalValue (fourDigits i) = i := by
  simp only [decimalValue, fourDigits, List.foldl]
  rw [digitValue_digitChar _ (by omega), digitValue_digitChar _ (by omega),
    digitValue_digitChar _ (by omega), digitValue_digitChar _ (by omega)]
  omega

theorem fmt04d_10000 : fmt04d 10000 = "10000".toList := by decide

theorem fmt04d_injOn (i j : Nat) (hi : i ≤ 10000) (hj : j ≤ 10000)
    (h : fmt04d (i : Int) = fmt04d (j : Int)) : i = j := by
  rcases Nat.lt_or_ge i 10000 with hi' | hi'
  · rcases Nat.lt_or_ge j 10000 with hj' | hj'
    · rw [fmt04d_eq_fourDigits i hi', fmt04d_eq_fourDigits j hj'] at h
      have := congrArg decimalValue h
      rwa [decimalValue_fourDigits i hi', decimalValue_fourDigits j hj'] at this
    · have hj10 : j = 10000 := by omega
      subst hj10
      rw [fmt04d_eq_fourDigits i hi'] at h
      have := congrArg List.length h
      rw [show ((10000 : Nat) : Int) = 10000 from rfl, fmt04d_10000] at this
      simp [fourDigits] at this
  · have hi10 : i = 10000 := by omega
    subst hi10
    rcases Nat.lt_or_ge j 10000 with hj' | hj'
    · rw [fmt04d_eq_fourDigits j hj'] at h
      have := congrArg List.length h
      rw [show ((10000 : Nat) : Int) = 10000 from rfl, fmt04d_10000] at this
      simp [fourDigits] at this
    · omega

theorem frameFileName_injOn (base : List Char) (i j : Nat) (hi : i ≤ 10000) (hj : j ≤ 10000)
    (h : frameFileName base (i : Int) = frameFileName base (j : Int)) : i = j := by
  unfold frameFileName at h
  have h1 := List.append_cancel_left (List.append_cancel_right h)
  exact fmt04d_injOn i j hi hj (List.cons.inj h1).2


/-! ## `saveFrame`: mirror state, collection block, file names (C9, C8, C6) -/

theorem saveXdmfFrame_shape (time : F32) (s : Sys) :
    ∃ (id : Int) (streams : List XStream),
      saveXdmfFrame time s = ⟨{ s.obj with xdmfFrameID := id }, { s.env with streams := streams }⟩ := by
  cases hopen : s.obj.xdmfFileIsOpen with
  | false => exact ⟨s.obj.xdmfFrameID, s.env.streams, by rw [saveXdmfFrame_closed time s hopen]⟩
  | true =>
    refine ⟨s.obj.xdmfFrameID + 1, (emit s (xdmfFrameLines s.obj time)).env.streams, ?_⟩
    rw [saveXdmfFrame_open time s hopen]
    simp only [emit, World.onStream]
    split_ifs <;> rfl

theorem saveFrame_shape (time : F32) (s : Sys) (hok : (saveFrame time s).error = none) :
    ∃ (id : Int) (streams : List XStream),
      saveFrame time s = Outcome.ok
        ⟨{ (afterStandalone time s).obj with xdmfFrameID := id },
         { (afterStandalone time s).env with streams := streams }⟩ := by
  rw [saveFrame_ok time s hok]
  obtain ⟨id, streams, h⟩ := saveXdmfFrame_shape time
    { afterStandalone time s with obj := { (afterStandalone time s).obj with xdmfFrameID := 0 } }
  exact ⟨id, streams, by rw [h]⟩

/-- C9: whenever `saveFrame(time)` runs to its end, the mirror file handle, the mirror open
flag and the mirror frame index have, just after `popXdmfState()`, the values they had on
entry, although in between a standalone mirror document was opened on a new stream, written
(header, frame block, terminator) and closed; and on return from `saveFrame` the handle and
the open flag still have their entry values. -/
theorem C9_mirror_state_restored (time : F32) (s : Sys) (hok : (saveFrame time s).error = none) :
    (saveFrameStandalone time s).error = none ∧
    (saveFrameStandalone time s).state.obj.xdmfFile = s.obj.xdmfFile ∧
    (saveFrameStandalone time s).state.obj.xdmfFileIsOpen = s.obj.xdmfFileIsOpen ∧
    (saveFrameStandalone time s).state.obj.xdmfFrameID = s.obj.xdmfFrameID ∧
    (∃ st : XStream,
      (saveFrameStandalone time s).state.env.streams = s.env.streams ++ [st] ∧
      st.closed = true ∧
      st.lines = xdmfHeaderLines ++
        xdmfFrameLines (saveFrameStandalone time s).state.obj time ++ xdmfTerminatorLines) ∧
    (saveFrame time s).state.obj.xdmfFile = s.obj.xdmfFile ∧
    (saveFrame time s).state.obj.xdmfFileIsOpen = s.obj.xdmfFileIsOpen := by
  obtain ⟨hh, hx⟩ := (saveFrame_error_none_iff time s).mp hok
  obtain ⟨id, streams, hshape⟩ := saveFrame_shape time s hok
  rw [saveFrameStandalone_ok time s hh hx, hshape]
  refine ⟨rfl, rfl, rfl, rfl, ⟨_, rfl, rfl, rfl⟩, rfl, rfl⟩

/-- A worked instance of C9: the sample writer with an open temporal collection. -/
theorem C9_mirror_state_restored_witness :
    (saveFrame 42 sampleCollection).error = none ∧
    (saveFrameStandalone 42 sampleCollection).state.obj.xdmfFile = 1 ∧
    (saveFrame 42 sampleCollection).state.obj.xdmfFileIsOpen = true :=
  ⟨by decide,
   (C9_mirror_state_restored 42 sampleCollection (by decide)).2.1.trans (by decide),
   (C9_mirror_state_restored 42 sampleCollection (by decide)).2.2.2.2.2.2.trans (by decide)⟩

theorem stream_some (w : World) (fp : Nat) (st : XStream) (h : w.stream fp = some st) :
    fp ≠ 0 ∧ w.streams[fp - 1]? = some st ∧ fp - 1 < w.streams.length := by
  unfold World.stream at h
  by_cases h0 : fp = 0
  · simp [h0] at h
  · simp only [h0, if_false] at h
    refine ⟨h0, h, ?_⟩
    by_contra hlt
    rw [List.getElem?_eq_none (by omega)] at h
    simp at h

/-- C8: when the temporal-collection mirror file is open (its handle denotes a stream of
the environment), a call of `saveFrame(time)` that runs to its end appends to that stream
exactly one frame block, and the same block, line for line, stands between the header and
the terminator of the standalone mirror document written by the same call on a new stream;
the block is the one for the registry and the per-frame binary file of the call. -/
theorem C8_collection_block (time : F32) (s : Sys) (st : XStream)
    (hopen : s.obj.xdmfFileIsOpen = true) (hst : s.env.stream s.obj.xdmfFile = some st)
    (hok : (saveFrame time s).error = none) :
    ∃ (block : List XLine) (standalone : XStream),
      block = xdmfFrameLines (saveFrame time s).state.obj time ∧
      (saveFrame time s).state.obj.hdf5Name =
        frameFileName s.obj.theBaseName (s.obj.multiTemporalFrameID + 1) ∧
      (saveFrame time s).state.env.stream s.obj.xdmfFile =
        some { st with lines := st.lines ++ block } ∧
      (saveFrame time s).state.env.stream (s.env.streams.length + 1) = some standalone ∧
      standalone.lines = xdmfHeaderLines ++ block ++ xdmfTerminatorLines ∧
      standalone.path = frameMirrorName s.obj.theBaseName (s.obj.multiTemporalFrameID + 1) := by
  obtain ⟨hfp, hget, hlt⟩ := stream_some _ _ _ hst
  rw [saveFrame_ok time s hok]
  rw [saveXdmfFrame_open time _ (by exact hopen)]
  refine ⟨xdmfFrameLines
      { s.obj with hdf5Name := frameFileName s.obj.theBaseName (s.obj.multiTemporalFrameID + 1) }
      time,
    ⟨frameMirrorName s.obj.theBaseName (s.obj.multiTemporalFrameID + 1),
      xdmfHeaderLines ++
        xdmfFrameLines
          { s.obj with
            hdf5Name := frameFileName s.obj.theBaseName (s.obj.multiTemporalFrameID + 1) }
          time ++
        xdmfTerminatorLines,
      false, 0, true⟩, rfl, rfl, ?_, ?_, rfl, rfl⟩
  · simp only [Outcome.ok, emit, World.onStream, World.stream, afterStandalone, hfp, if_false]
    rw [modifyAt_append_left _ _ _ _ hlt, List.getElem?_append_left (by rw [modifyAt_length]; exact hlt),
      modifyAt_getElem?, if_pos rfl, hget]
    rfl
  · simp only [Outcome.ok, emit, World.onStream, World.stream, afterStandalone, hfp, if_false]
    rw [modifyAt_append_left _ _ _ _ hlt]
    simp only [Nat.add_sub_cancel, Nat.succ_ne_zero, if_false]
    rw [List.getElem?_append_right (by rw [modifyAt_length]), modifyAt_length]
    simp

/-- A worked instance of C8: the sample writer with an open temporal collection. -/
theorem C8_collection_block_witness :
    ∃ (block : List XLine) (standalone : XStream),
      block = xdmfFrameLines (saveFrame 42 sampleCollection).state.obj 42 ∧
      (saveFrame 42 sampleCollection).state.obj.hdf5Name = "./data/H5pio_0001.hdf5".toList ∧
      (saveFrame 42 sampleCollection).state.env.stream 1 =
        some ⟨"./data/H5pio.xdmf".toList, xdmfHeaderLines ++ block, false, 0, false⟩ ∧
      (saveFrame 42 sampleCollection).state.env.stream 2 = some standalone ∧
      standalone.lines = xdmfHeaderLines ++ block ++ xdmfTerminatorLines ∧
      standalone.path = "./data/H5pio_0001.xdmf".toList :=
  C8_collection_block 42 sampleCollection
    ⟨"./data/H5pio.xdmf".toList, xdmfHeaderLines, false, 0, false⟩ (by decide) (by decide)
    (by decide)

theorem foldl_andThen_error {σ α : Type} (f : α → σ → Outcome σ) (l : List α) (r : Outcome σ)
    (e : XcError) (h : r.error = some e) :
    l.foldl (fun r x => r.andThen (f x)) r = r := by
  induction l with
  | nil => rfl
  | cons x xs ih => rw [List.foldl_cons, Outcome.andThen_of_some _ h, ih]

theorem foldl_andThen_eq {σ α : Type} (f : α → σ → Outcome σ) (l : List α) (r : Outcome σ) :
    l.foldl (fun r x => r.andThen (f x)) r
      = r.andThen (fun s => l.foldl (fun r x => r.andThen (f x)) (Outcome.ok s)) := by
  cases h : r.error with
  | none =>
    rw [Outcome.andThen_of_none _ h]
    have : r = Outcome.ok r.state := by
      cases r; simp only [Outcome.ok] at *; simp [h]
    rw [← this]
  | some e => rw [Outcome.andThen_of_some _ h, foldl_andThen_error f l r e h]

theorem saveFrames_nil (s : Sys) : saveFrames [] s = Outcome.ok s := rfl

theorem saveFrames_cons (t : F32) (ts : List F32) (s : Sys) :
    saveFrames (t :: ts) s = (saveFrame t s).andThen (saveFrames ts) := by
  unfold saveFrames
  rw [List.foldl_cons, Outcome.andThen_ok, foldl_andThen_eq]

theorem saveFrames_inv (times : List F32) : ∀ (s : Sys), (saveFrames times s).error = none →
    (saveFrames times s).state.obj.theBaseName = s.obj.theBaseName ∧
    (saveFrames times s).state.obj.multiTemporalFrameID
      = s.obj.multiTemporalFrameID + times.length ∧
    (saveFrames times s).state.env.handles = s.env.handles ++
      (List.range times.length).map
        (fun (i : Nat) => frameFileName s.obj.theBaseName (s.obj.multiTemporalFrameID + 1 + (i : Int))) := by
  induction times with
  | nil => intro s _; simp [saveFrames_nil, Outcome.ok]
  | cons t ts ih =>
    intro s hok
    rw [saveFrames_cons] at hok ⊢
    obtain ⟨h1, h2⟩ := Outcome.andThen_error_none hok
    rw [Outcome.andThen_of_none _ h1]
    obtain ⟨hb, hm, hh⟩ := ih _ h2
    obtain ⟨id, streams, hshape⟩ := saveFrame_shape t s h1
    have e1 : (saveFrame t s).state.obj.theBaseName = s.obj.theBaseName := by rw [hshape]; rfl
    have e2 : (saveFrame t s).state.obj.multiTemporalFrameID = s.obj.multiTemporalFrameID + 1 := by
      rw [hshape]; rfl
    have e3 : (saveFrame t s).state.env.handles = s.env.handles ++
        [frameFileName s.obj.theBaseName (s.obj.multiTemporalFrameID + 1)] := by
      rw [hshape]; rfl
    refine ⟨hb.trans e1, ?_, ?_⟩
    · rw [hm, e2]; simp; omega
    · rw [hh, e1, e2, e3, List.length_cons, List.range_succ_eq_map, List.map_cons, List.map_map,
        List.append_assoc]
      simp only [List.singleton_append, Nat.cast_zero, add_zero, List.cons.injEq, true_and,
        List.append_cancel_left_eq]
      apply List.map_congr_left
      intro i _
      simp only [Function.comp, Nat.cast_succ]
      congr 1
      omega


theorem saveFrames_append (a b : List F32) (s : Sys) :
    saveFrames (a ++ b) s = (saveFrames a s).andThen (saveFrames b) := by
  unfold saveFrames
  rw [List.foldl_append, foldl_andThen_eq]

theorem saveFrames_hdf5Name (times : List F32) : ∀ (s : Sys), (saveFrames times s).error = none →
    times ≠ [] →
    (saveFrames times s).state.obj.hdf5Name
      = frameFileName s.obj.theBaseName (s.obj.multiTemporalFrameID + times.length) := by
  induction times with
  | nil => intro s _ h; exact absurd rfl h
  | cons t ts ih =>
    intro s hok _
    rw [saveFrames_cons] at hok ⊢
    obtain ⟨h1, h2⟩ := Outcome.andThen_error_none hok
    rw [Outcome.andThen_of_none _ h1]
    obtain ⟨id, streams, hshape⟩ := saveFrame_shape t s h1
    have e1 : (saveFrame t s).state.obj.theBaseName = s.obj.theBaseName := by rw [hshape]; rfl
    have e2 : (saveFrame t s).state.obj.multiTemporalFrameID = s.obj.multiTemporalFrameID + 1 := by
      rw [hshape]; rfl
    by_cases hts : ts = []
    · subst hts
      rw [saveFrames_nil, hshape]
      simp only [Outcome.ok, List.length_singleton, Nat.cast_one]
      rfl
    · rw [ih _ h2 hts, e1, e2]
      congr 1
      simp only [List.length_cons, Nat.cast_succ]
      omega

theorem saveFrames_containers (times : List F32) : ∀ (s : Sys),
    (saveFrames times s).error = none → ∀ name : List Char,
    ((saveFrames times s).state.env.containers.lookup name).isSome = true ↔
      ((s.env.containers.lookup name).isSome = true ∨
        ∃ i, i < times.length ∧
          name = frameFileName s.obj.theBaseName (s.obj.multiTemporalFrameID + 1 + (i : Int))) := by
  induction times with
  | nil =>
    intro s _ name
    rw [saveFrames_nil]
    constructor
    · intro h; left; exact h
    · rintro (h | ⟨i, hi, _⟩)
      · exact h
      · exact absurd hi (Nat.not_lt_zero _)
  | cons t ts ih =>
    intro s hok name
    rw [saveFrames_cons] at hok ⊢
    obtain ⟨h1, h2⟩ := Outcome.andThen_error_none hok
    rw [Outcome.andThen_of_none _ h1, ih _ h2 name]
    obtain ⟨id, streams, hshape⟩ := saveFrame_shape t s h1
    have e1 : (saveFrame t s).state.obj.theBaseName = s.obj.theBaseName := by rw [hshape]; rfl
    have e2 : (saveFrame t s).state.obj.multiTemporalFrameID = s.obj.multiTemporalFrameID + 1 := by
      rw [hshape]; rfl
    have e3 : (saveFrame t s).state.env.containers
        = assocSet (frameFileName s.obj.theBaseName (s.obj.multiTemporalFrameID + 1))
            (frameContainer s.env.lib s.env.heap { s.obj with frameTime := t })
            s.env.containers := by
      rw [hshape]; rfl
    rw [e1, e2, e3, lookup_assocSet]
    by_cases hname : name = frameFileName s.obj.theBaseName (s.obj.multiTemporalFrameID + 1)
    · simp only [hname, if_true, Option.isSome_some, true_or, true_iff]
      right; exact ⟨0, by simp, by simp⟩
    · simp only [hname, if_false]
      constructor
      · rintro (h | ⟨i, hi, hn⟩)
        · left; exact h
        · right
          refine ⟨i + 1, by simpa using hi, ?_⟩
          rw [hn]; congr 1; push_cast; omega
      · rintro (h | ⟨i, hi, hn⟩)
        · left; exact h
        · cases i with
          | zero =>
            exfalso; apply hname; rw [hn]; simp
          | succ i =>
            right
            refine ⟨i, by simpa using hi, ?_⟩
            rw [hn]; congr 1; push_cast; omega

theorem openFiles_ok (p : List Char) (s : Sys) (base : List Char)
    (h : deriveBaseName p = .ok base) :
    openFiles p s = Outcome.ok
      { s with obj := { s.obj with multiTemporalFrameID := 0, theBaseName := base } } := by
  unfold deriveBaseName at h
  unfold openFiles
  cases h1 : stripSuffix (stringCopy p) with
  | error e => rw [h1] at h; simp at h
  | ok stripped =>
    rw [h1] at h
    simp only at h
    simp only [h1, h]

theorem openFiles_error_none (p : List Char) (s : Sys) (h : (openFiles p s).error = none) :
    ∃ base, deriveBaseName p = .ok base := by
  unfold openFiles at h
  unfold deriveBaseName
  cases h1 : stripSuffix (stringCopy p) with
  | error e => simp [h1] at h
  | ok stripped =>
    simp only [h1] at h ⊢
    cases h2 : stripID stripped with
    | error e => simp [h2] at h
    | ok base => exact ⟨base, rfl⟩

/-- C6: after `openFiles(p)` succeeded with derived base name `base`, a run of `k` calls of
`saveFrame` (`1 <= k <= 9999`) that all return normally creates, in this order, exactly the
binary files `base_0001.hdf5`, ..., `base_000k.hdf5`: the `i`-th call hands `H5Fcreate` the
name `base`, `_`, `i` written with four zero-padded decimal digits, `.hdf5`; that name is
what `addSuffix` in `openH5File` returns for it, and the file exists afterwards. -/
theorem C6_frame_file_names (p : List Char) (s : Sys) (times : List F32)
    (hopen : (openFiles p s).error = none) (hk1 : 1 ≤ times.length)
    (hk : times.length ≤ 9999)
    (hsave : (saveFrames times (openFiles p s).state).error = none) :
    ∃ base, deriveBaseName p = .ok base ∧
      (saveFrames times (openFiles p s).state).state.env.handles =
        s.env.handles ++ (List.range times.length).map
          (fun (i : Nat) => base ++ '_' :: fourDigits (i + 1) ++ ".hdf5".toList) ∧
      ∀ i : Nat, 1 ≤ i → i ≤ times.length →
        (saveFrames (times.take i) (openFiles p s).state).error = none ∧
        (saveFrames (times.take i) (openFiles p s).state).state.obj.hdf5Name
          = base ++ '_' :: fourDigits i ++ ".hdf5".toList ∧
        (fourDigits i).length = 4 ∧ decimalValue (fourDigits i) = i ∧
        addSuffix (base ++ '_' :: fourDigits i ++ ".hdf5".toList) ".hdf5".toList
          = .ok (base ++ '_' :: fourDigits i ++ ".hdf5".toList) ∧
        ((saveFrames times (openFiles p s).state).state.env.containers.lookup
          (base ++ '_' :: fourDigits i ++ ".hdf5".toList)).isSome = true := by
  obtain ⟨base, hbase⟩ := openFiles_error_none p s hopen
  refine ⟨base, hbase, ?_, ?_⟩
  · rw [openFiles_ok p s base hbase] at hsave ⊢
    obtain ⟨_, _, hh⟩ := saveFrames_inv times _ hsave
    rw [hh]
    simp only [Outcome.ok, List.append_cancel_left_eq]
    apply List.map_congr_left
    intro i hi
    have hi' : i < times.length := List.mem_range.mp hi
    have : (0 : Int) + 1 + (i : Int) = ((i + 1 : Nat) : Int) := by push_cast; omega
    rw [this, frameFileName, fmt04d_eq_fourDigits (i + 1) (by omega)]
  · intro i hi1 hik
    have hname : frameFileName base (i : Int) = base ++ '_' :: fourDigits i ++ ".hdf5".toList := by
      rw [frameFileName, fmt04d_eq_fourDigits i (by omega)]
    rw [openFiles_ok p s base hbase] at hsave ⊢
    have hsplit : times = times.take i ++ times.drop i := (List.take_append_drop i times).symm
    have hpre : (saveFrames (times.take i) (Outcome.ok
        { s with obj := { s.obj with multiTemporalFrameID := 0, theBaseName := base } }).state).error
        = none := by
      rw [hsplit, saveFrames_append] at hsave
      exact (Outcome.andThen_error_none hsave).1
    have hlen : (times.take i).length = i := by simp; omega
    have hne : times.take i ≠ [] := by
      intro h; rw [h] at hlen; simp at hlen; omega
    refine ⟨hpre, ?_, rfl, decimalValue_fourDigits i (by omega), ?_, ?_⟩
    · rw [saveFrames_hdf5Name _ _ hpre hne, hlen, ← hname]
      simp [Outcome.ok]
    · rw [← hname]; exact addSuffix_frameFileName base i
    · rw [saveFrames_containers times _ hsave]
      right
      refine ⟨i - 1, by omega, ?_⟩
      rw [← hname]
      simp only [Outcome.ok]
      congr 1
      omega

/-- A worked instance of C6: three frames saved by the sample writer. -/
theorem C6_frame_file_names_witness :
    ∃ base, deriveBaseName "./data/H5pio".toList = .ok base ∧
      (saveFrames [0, 5, 10]
          (openFiles "./data/H5pio".toList ⟨sampleWriter, sampleWorld⟩).state).state.env.handles =
        sampleWorld.handles ++ (List.range 3).map
          (fun (i : Nat) => base ++ '_' :: fourDigits (i + 1) ++ ".hdf5".toList) :=
  (C6_frame_file_names "./data/H5pio".toList ⟨sampleWriter, sampleWorld⟩ [0, 5, 10]
    (by decide) (by decide) (by decide) (by decide)).imp fun _ h => ⟨h.1, h.2.1⟩

/-! ## Skipping frames of a mirror document (C7) -/

theorem getline_iterate (k : Nat) (s : Sys) :
    getline^[k] s = ⟨s.obj, s.env.onStream s.obj.xdmfFile (fun st => readLine^[k] st)⟩ := by
  induction k generalizing s with
  | zero =>
    simp only [Function.iterate_zero, id]
    rw [onStream_id _ _ _ (fun _ => rfl)]
  | succ k ih =>
    rw [Function.iterate_succ_apply, ih]
    simp only [getline, onStream_onStream, Function.iterate_succ_apply]

theorem forCount_eq_iterate (n : Nat) (body : Sys → Sys) (s : Sys) :
    forCount n body s = body^[n] s := by
  unfold forCount
  induction n generalizing s with
  | zero => rfl
  | succ n ih =>
    rw [List.range_succ, List.foldl_append, ih, Function.iterate_succ_apply']
    rfl

theorem getline_iterate_obj (k : Nat) (s : Sys) : (getline^[k] s).obj = s.obj := by
  rw [getline_iterate]

theorem skipFrame_iterate (n : Nat) (s : Sys) :
    (fun s : Sys =>
      forCount 3 getline
        (forCount (forCount 5 getline s).obj.dataName.length (fun s => forCount 6 getline s)
          (forCount 5 getline s)))^[n] s
      = getline^[n * (8 + 6 * s.obj.dataName.length)] s := by
  induction n generalizing s with
  | zero => simp
  | succ n ih =>
    rw [Function.iterate_succ_apply]
    simp only [forCount_eq_iterate] at ih ⊢
    rw [ih]
    have h6 : (fun s => getline^[6] s) = getline^[6] := rfl
    rw [h6, ← Function.iterate_mul]
    simp only [getline_iterate_obj]
    rw [← Function.iterate_add_apply, ← Function.iterate_add_apply,
      ← Function.iterate_add_apply]
    congr 1
    ring

/-- The number of `getline` calls of `skipXdmfFrames(nFrames)`: 6 for the header and, for
each frame, 5 + 6 per registered field + 3. -/
theorem skipXdmfFrames_eq (nFrames : Nat) (s : Sys) :
    skipXdmfFrames (nFrames : Int) s
      = getline^[6 + nFrames * (8 + 6 * s.obj.dataName.length)] s := by
  unfold skipXdmfFrames
  simp only [Int.toNat_ofNat]
  rw [forCount_eq_iterate nFrames, skipFrame_iterate, forCount_eq_iterate, getline_iterate_obj,
    ← Function.iterate_add_apply]
  congr 1
  ring

theorem readLine_iterate (k : Nat) (st : XStream) (hr : st.readable = true)
    (hlen : st.pos + k ≤ st.lines.length) :
    readLine^[k] st = { st with pos := st.pos + k } := by
  induction k generalizing st with
  | zero => rfl
  | succ k ih =>
    have hlt : st.pos < st.lines.length := by omega
    have h1 : readLine st = { st with pos := st.pos + 1 } := by
      simp [readLine, hr, hlt]
    rw [Function.iterate_succ_apply, h1, ih { st with pos := st.pos + 1 } hr (by simp only; omega)]
    simp only [XStream.mk.injEq, true_and, and_true]
    omega

theorem stream_onStream (w : World) (fp : Nat) (g : XStream → XStream) :
    (w.onStream fp g).stream fp = (w.stream fp).map g := by
  unfold World.onStream World.stream
  by_cases h : fp = 0
  · simp [h]
  · simp [h, modifyAt_getElem?]

/-- On a readable stream that holds enough lines, `skipXdmfFrames(nFrames)` moves the read
cursor forward by `6 + nFrames * (8 + 6 * g)` lines, `g` the number of registered fields. -/
theorem skipXdmfFrames_pos (nFrames : Nat) (s : Sys) (st : XStream)
    (hst : s.env.stream s.obj.xdmfFile = some st) (hr : st.readable = true)
    (hlen : st.pos + (6 + nFrames * (8 + 6 * s.obj.dataName.length)) ≤ st.lines.length) :
    (skipXdmfFrames (nFrames : Int) s).env.stream s.obj.xdmfFile
      = some { st with pos := st.pos + (6 + nFrames * (8 + 6 * s.obj.dataName.length)) } := by
  rw [skipXdmfFrames_eq, getline_iterate]
  simp only [stream_onStream, hst, Option.map_some']
  rw [readLine_iterate _ st hr hlen]

theorem xdmfFieldLines_length (o : H5pio) (pg : Nat) (h : (o.datasetKind pg).isSome = true) :
    (xdmfFieldLines o pg).length = 7 := by
  unfold H5pio.datasetKind at h
  unfold xdmfFieldLines
  simp only [List.length_cons]
  split_ifs at h ⊢ <;> simp_all [xdmfAttributeLines]

theorem flatMap_length_const {α β : Type} (l : List α) (f : α → List β) (c : Nat)
    (h : ∀ x ∈ l, (f x).length = c) : (l.flatMap f).length = l.length * c := by
  induction l with
  | nil => simp
  | cons x xs ih =>
    rw [List.flatMap_cons, List.length_append, h x (List.mem_cons_self _ _),
      ih (fun y hy => h y (List.mem_cons_of_mem _ hy)), List.length_cons]
    ring

/-- A frame block has `7 + 7 * g` lines when each of the `g` registered fields has a kind:
4 lines, then 1 + 6 per field, then 3 lines. -/
theorem xdmfFrameLines_length (o : H5pio) (time : F32)
    (h : ∀ pg, pg < o.dataName.length → (o.datasetKind pg).isSome = true) :
    (xdmfFrameLines o time).length = 7 + 7 * o.dataName.length := by
  unfold xdmfFrameLines
  rw [List.length_append, List.length_append,
    flatMap_length_const _ _ 7
      (fun pg hpg => xdmfFieldLines_length o pg (h pg (List.mem_range.mp hpg)))]
  simp only [List.length_cons, List.length_nil, List.length_range]
  omega

set_option maxRecDepth 100000 in
/-- C7 at a failing input: the sample writer (two registered fields) after
`openFiles("./data/H5pio")`, `openXdmfFile("./data/H5pio")`, `saveXdmfFrame(0)` and
`saveXdmfFrame(5)`.  The mirror stream holds the header and two frame blocks (closed, the
document gets the terminator as well); the header and the first frame block are 27 lines,
so frame block 2 starts at line index 27.  `skipXdmfFrames(1)` makes 26 `getline` calls (6,
then 5 + 6 per field + 3), one fewer than these 27 lines; and the stream was opened by
`fopen(..,"w")` and cannot be read, so none of the calls consumes a line: the read cursor
is still at line 0. -/
theorem C7_skip_stride_mismatch :
    sampleMirrorLines =
      xdmfHeaderLines ++ xdmfFrameLines sampleCollection.obj 0 ++
        xdmfFrameLines sampleCollection.obj 5 ++ xdmfTerminatorLines ∧
    (sampleTwoFrames.env.stream sampleTwoFrames.obj.xdmfFile).map XStream.lines =
      some (xdmfHeaderLines ++ xdmfFrameLines sampleCollection.obj 0 ++
        xdmfFrameLines sampleCollection.obj 5) ∧
    (xdmfHeaderLines ++ xdmfFrameLines sampleCollection.obj 0).length = 27 ∧
    skipXdmfFrames 1 sampleTwoFrames = getline^[26] sampleTwoFrames ∧
    (sampleTwoFrames.env.stream sampleTwoFrames.obj.xdmfFile).map XStream.readable =
      some false ∧
    (sampleTwoFrames.env.stream sampleTwoFrames.obj.xdmfFile).map XStream.pos = some 0 ∧
    ((skipXdmfFrames 1 sampleTwoFrames).env.stream sampleTwoFrames.obj.xdmfFile).map
      XStream.pos = some 0 := by
  have hlen : sampleTwoFrames.obj.dataName.length = 2 := by decide
  have hcalls : skipXdmfFrames 1 sampleTwoFrames = getline^[26] sampleTwoFrames := by
    have h := skipXdmfFrames_eq 1 sampleTwoFrames
    rw [hlen] at h
    exact h
  exact ⟨by decide, by decide, by decide, hcalls, by decide, by decide, by decide⟩

/-! ## Base-name derivation (C3) -/


theorem stripIDLoop_eq (f : List Char) (k : Nat) :
    ∀ j, k ≤ j → (k = 0 ∨ (charAt f k == '_' || isDigit (charAt f k)) = false) →
      (∀ i, k < i → i ≤ j → (charAt f i == '_' || isDigit (charAt f i)) = true) →
      stripIDLoop f j = k := by
  intro j
  induction j with
  | zero => intro hk _ _; simp [stripIDLoop]; omega
  | succ j ih =>
    intro hkj hk hb
    by_cases hkeq : k = j + 1
    · subst hkeq
      have h1 : (charAt f (j + 1) == '_' || isDigit (charAt f (j + 1))) = false := by
        rcases hk with h | h
        · omega
        · exact h
      rw [stripIDLoop]
      simp only [h1, Bool.false_eq_true, if_false]
    · have hle : k ≤ j := by omega
      have h1 := hb (j + 1) (by omega) (le_refl _)
      rw [stripIDLoop]
      simp only [h1, if_true]
      exact ih hle hk (fun i hi hij => hb i hi (by omega))

/-- Every non-empty list splits into a head part, one character and a tail all of whose
characters satisfy `P`, such that the split cannot be moved to the left. -/
theorem exists_tail_split (P : Char → Bool) (X : List Char) (hne : X ≠ []) :
    ∃ pre c post, X = pre ++ c :: post ∧ (∀ x ∈ post, P x = true) ∧
      (pre = [] ∨ P c = false) := by
  induction X with
  | nil => exact absurd rfl hne
  | cons a Y ih =>
    by_cases hY : Y = []
    · subst hY; exact ⟨[], a, [], rfl, by simp, Or.inl rfl⟩
    · obtain ⟨pre, c, post, hsplit, hpost, hc⟩ := ih hY
      by_cases hPc : P c = false
      · exact ⟨a :: pre, c, post, by rw [hsplit]; rfl, hpost, Or.inr hPc⟩
      · have hPc' : P c = true := by simpa using hPc
        rcases hc with hpre | hc
        · subst hpre
          refine ⟨[], a, c :: post, by rw [hsplit]; rfl, ?_, Or.inl rfl⟩
          intro x hx
          rcases List.mem_cons.mp hx with h | h
          · rw [h]; exact hPc'
          · exact hpost x h
        · exact absurd hc hPc

theorem charAt_split_mid (pre post : List Char) (c : Char) :
    charAt (pre ++ c :: post) pre.length = c := by
  have := charAt_append_right pre (c :: post) 0
  simpa [charAt] using this

theorem charAt_split_post (pre post : List Char) (c : Char) (i : Nat)
    (h1 : pre.length < i) (h2 : i ≤ pre.length + post.length) :
    charAt (pre ++ c :: post) i ∈ post := by
  obtain ⟨m, rfl⟩ : ∃ m, i = pre.length + (m + 1) := ⟨i - pre.length - 1, by omega⟩
  rw [charAt_append_right]
  have : charAt (c :: post) (m + 1) = charAt post m := by simp [charAt]
  rw [this]
  exact charAt_mem post m (by omega)

/-- The value of `stripSuffix` on a name split at the place where its loop stops. -/
theorem stripSuffix_split (pre post : List Char) (c : Char)
    (hpost : ∀ x ∈ post, (isDot x || isDelimiter x) = false)
    (hc : pre = [] ∨ (isDot c || isDelimiter c) = true)
    (hlast : post = [] → (isDot c || isDelimiter c) = false) :
    stripSuffix (pre ++ c :: post) = .ok (if isDot c then pre else pre ++ c :: post) := by
  have hlen : (pre ++ c :: post).length = pre.length + post.length + 1 := by simp; omega
  have hchar : ∀ i, pre.length < i → i ≤ pre.length + post.length →
      (isDot (charAt (pre ++ c :: post) i) || isDelimiter (charAt (pre ++ c :: post) i)) = false :=
    fun i h1 h2 => hpost _ (charAt_split_post pre post c i h1 h2)
  have hend : (isDot (charAt (pre ++ c :: post) (pre.length + post.length)) ||
      isDelimiter (charAt (pre ++ c :: post) (pre.length + post.length))) = false := by
    by_cases hp : post = []
    · subst hp
      simp only [List.length_nil, Nat.add_zero, charAt_split_mid]
      exact hlast rfl
    · exact hchar _ (by have := List.length_pos.mpr hp; omega) (le_refl _)
  have hloop : stripSuffixLoop (pre ++ c :: post) (pre.length + post.length) = pre.length := by
    apply stripSuffixLoop_eq
    · omega
    · rcases hc with h | h
      · left; rw [h]; rfl
      · right; rw [charAt_split_mid]; exact h
    · exact hchar
  unfold stripSuffix
  simp only [stringLength, hlen]
  have hidx : ((↑(pre.length + post.length + 1) : Int) - 1).toNat = pre.length + post.length := by
    omega
  have hneg : ¬ ((↑(pre.length + post.length + 1) : Int) - 1 < 0) := by omega
  rw [if_neg hneg, hidx, hend]
  simp only [Bool.false_eq_true, if_false, hloop, charAt_split_mid]
  split_ifs
  · simp
  · rfl

/-- The value of `stripID` on a name split at the place where its loop stops. -/
theorem stripID_split (pre post : List Char) (c : Char)
    (hpost : ∀ x ∈ post, (x == '_' || isDigit x) = true)
    (hc : pre = [] ∨ (c == '_' || isDigit c) = false)
    (hlast : (isDot (charAt (pre ++ c :: post) (pre.length + post.length)) ||
      isDelimiter (charAt (pre ++ c :: post) (pre.length + post.length))) = false) :
    stripID (pre ++ c :: post) = .ok (pre ++ [c]) := by
  have hlen : (pre ++ c :: post).length = pre.length + post.length + 1 := by simp; omega
  have hloop : stripIDLoop (pre ++ c :: post) (pre.length + post.length) = pre.length := by
    apply stripIDLoop_eq
    · omega
    · rcases hc with h | h
      · left; rw [h]; rfl
      · right; rw [charAt_split_mid]; exact h
    · exact fun i h1 h2 => hpost _ (charAt_split_post pre post c i h1 h2)
  unfold stripID
  simp only [stringLength, hlen]
  have hidx : ((↑(pre.length + post.length + 1) : Int) - 1).toNat = pre.length + post.length := by
    omega
  have hneg : ¬ ((↑(pre.length + post.length + 1) : Int) - 1 < 0) := by omega
  rw [if_neg hneg, hidx, hlast]
  simp only [Bool.false_eq_true, if_false, hloop]
  have hsplit : pre ++ c :: post = (pre ++ [c]) ++ post := by simp
  rw [hsplit, List.take_left' (by simp)]


theorem bnot_eq_false (b : Bool) (h : (!b) = false) : b = true := by
  cases b <;> simp_all

theorem stripSuffix_ok_last (X X' : List Char) (h : stripSuffix X = .ok X') :
    X ≠ [] ∧ (isDot (charAt X (X.length - 1)) || isDelimiter (charAt X (X.length - 1))) = false := by
  unfold stripSuffix at h
  simp only [stringLength] at h
  by_cases hneg : ((X.length : Int) - 1 < 0)
  · simp [hneg] at h
  · rw [if_neg hneg] at h
    have hidx : ((X.length : Int) - 1).toNat = X.length - 1 := by omega
    rw [hidx] at h
    constructor
    · intro hX; subst hX; simp at hneg
    · by_contra hsep
      have hsep' : (isDot (charAt X (X.length - 1)) || isDelimiter (charAt X (X.length - 1))) = true :=
        Bool.eq_true_of_not_eq_false hsep
      rw [if_pos hsep'] at h
      simp at h

theorem stripID_ok_last (X B : List Char) (h : stripID X = .ok B) :
    X ≠ [] ∧ (isDot (charAt X (X.length - 1)) || isDelimiter (charAt X (X.length - 1))) = false := by
  unfold stripID at h
  simp only [stringLength] at h
  by_cases hneg : ((X.length : Int) - 1 < 0)
  · simp [hneg] at h
  · rw [if_neg hneg] at h
    have hidx : ((X.length : Int) - 1).toNat = X.length - 1 := by omega
    rw [hidx] at h
    constructor
    · intro hX; subst hX; simp at hneg
    · by_contra hsep
      have hsep' : (isDot (charAt X (X.length - 1)) || isDelimiter (charAt X (X.length - 1))) = true :=
        Bool.eq_true_of_not_eq_false hsep
      rw [if_pos hsep'] at h
      simp at h

theorem lastComponent_append (a b : List Char) (hb : ∀ x ∈ b, isDelimiter x = false) :
    lastComponent (a ++ b) = lastComponent a ++ b := by
  unfold lastComponent
  rw [List.reverse_append, List.takeWhile_append_of_pos, List.reverse_append, List.reverse_reverse]
  intro x hx
  simp [hb x (List.mem_reverse.mp hx)]

theorem lastComponent_append_delimiter (a : List Char) (c : Char) (hc : isDelimiter c = true) :
    lastComponent (a ++ [c]) = [] := by
  unfold lastComponent
  simp [List.reverse_append, List.takeWhile_cons, hc]

theorem countP_isDot_eq_zero (l : List Char) (h : ∀ x ∈ l, (isDot x || isDelimiter x) = false) :
    l.countP isDot = 0 := by
  rw [List.countP_eq_zero]
  intro x hx
  have := h x hx
  simp only [Bool.or_eq_false_iff] at this
  simp [this.1]

theorem no_delimiter_of_no_sep (l : List Char)
    (h : ∀ x ∈ l, (isDot x || isDelimiter x) = false) : ∀ x ∈ l, isDelimiter x = false := by
  intro x hx
  have := h x hx
  simp only [Bool.or_eq_false_iff] at this
  exact this.2

theorem idChar_not_sep (x : Char) (h : (x == '_' || isDigit x) = true) :
    (isDot x || isDelimiter x) = false := by
  simp only [Bool.or_eq_true, beq_iff_eq] at h
  rcases h with h | h
  · subst h; decide
  · simp only [isDigit, Bool.and_eq_true, decide_eq_true_eq] at h
    simp only [isDot, isDelimiter, Bool.or_eq_false_iff, beq_eq_false_iff_ne, ne_eq]
    refine ⟨?_, ?_, ?_⟩ <;> (intro hx; subst hx; revert h; decide)

/-- The suffix count of a name split as in `stripSuffix_split`. -/
theorem suffixCount_split (pre post : List Char) (c : Char)
    (hpost : ∀ x ∈ post, (isDot x || isDelimiter x) = false) :
    suffixCount (pre ++ c :: post) =
      if isDelimiter c then 0
      else suffixCount pre + (if isDot c then 1 else 0) := by
  have hsplit : pre ++ c :: post = (pre ++ [c]) ++ post := by simp
  unfold suffixCount
  rw [hsplit, lastComponent_append _ _ (no_delimiter_of_no_sep post hpost), List.countP_append,
    countP_isDot_eq_zero post hpost, Nat.add_zero]
  by_cases hc : isDelimiter c = true
  · rw [lastComponent_append_delimiter pre c hc]; simp [hc]
  · have hc' : isDelimiter c = false := by simpa using hc
    rw [lastComponent_append pre [c] (by simp [hc']), List.countP_append]
    simp [hc', List.countP_cons]

/-- After `stripSuffix`, a name with at most one suffix has no dot left after its last
delimiter. -/
theorem suffixCount_stripSuffix (X X' : List Char) (hs : suffixCount X ≤ 1)
    (h : stripSuffix X = .ok X') : suffixCount X' = 0 := by
  obtain ⟨hne, hlast⟩ := stripSuffix_ok_last X X' h
  obtain ⟨pre, c, post, hsplit, hpost, hc⟩ :=
    exists_tail_split (fun x => !(isDot x || isDelimiter x)) X hne
  have hpost' : ∀ x ∈ post, (isDot x || isDelimiter x) = false := by
    intro x hx; simpa using hpost x hx
  have hc' : pre = [] ∨ (isDot c || isDelimiter c) = true := by
    rcases hc with h1 | h1
    · exact Or.inl h1
    · right; exact bnot_eq_false _ h1
  have hlast' : post = [] → (isDot c || isDelimiter c) = false := by
    intro hp
    subst hp
    rw [hsplit] at hlast
    simpa [charAt_split_mid] using hlast
  rw [hsplit, stripSuffix_split pre post c hpost' hc' hlast'] at h
  rw [hsplit, suffixCount_split pre post c hpost'] at hs
  by_cases hdot : isDot c = true
  · have hnd : isDelimiter c = false := by
      simp only [isDot, beq_iff_eq] at hdot; subst hdot; decide
    simp only [hdot, if_true, Except.ok.injEq] at h
    simp only [hnd, Bool.false_eq_true, if_false, hdot, if_true] at hs
    rw [← h]; omega
  · have hdot' : isDot c = false := by simpa using hdot
    rw [hdot'] at h
    simp only [Bool.false_eq_true, if_false, Except.ok.injEq] at h
    rw [← h, suffixCount_split pre post c hpost']
    by_cases hdel : isDelimiter c = true
    · simp [hdel]
    · have hcsep : (isDot c || isDelimiter c) = false := by simp [hdot, hdel]
      rcases hc' with h1 | h1
      · subst h1
        simp [hdel, hdot, suffixCount, lastComponent]
      · rw [hcsep] at h1; simp at h1

/-- C3, amended: for a name with at most one suffix on which the derivation of `openFiles`
(`stripSuffix`, then `stripID`) succeeds with a base name that does not end in a path
delimiter, the derivation applied to that base name succeeds and returns it unchanged. -/
theorem C3_derivation_idempotent (X B : List Char) (hs : suffixCount X ≤ 1)
    (hB : deriveBaseName X = .ok B)
    (hend : isDelimiter (charAt B (B.length - 1)) = false) :
    deriveBaseName B = .ok B := by
  unfold deriveBaseName stringCopy at hB
  cases hX' : stripSuffix X with
  | error e => rw [hX'] at hB; simp at hB
  | ok X' =>
    rw [hX'] at hB
    simp only at hB
    have hcount := suffixCount_stripSuffix X X' hs hX'
    obtain ⟨hne, hlast⟩ := stripID_ok_last X' B hB
    obtain ⟨pre, c, post, hsplit, hpost, hc⟩ :=
      exists_tail_split (fun x => x == '_' || isDigit x) X' hne
    have hlen : X'.length - 1 = pre.length + post.length := by rw [hsplit]; simp
    rw [hlen, hsplit] at hlast
    rw [hsplit, stripID_split pre post c hpost hc hlast] at hB
    have hBeq : B = pre ++ [c] := by simpa using hB.symm
    subst hBeq
    have hpostsep : ∀ x ∈ post, (isDot x || isDelimiter x) = false :=
      fun x hx => idChar_not_sep x (hpost x hx)
    -- the base name has no dot after its last delimiter
    have hcountB : suffixCount (pre ++ [c]) = 0 := by
      have h1 := suffixCount_split pre post c hpostsep
      have h2 := suffixCount_split pre [] c (by simp)
      rw [← hsplit, hcount] at h1
      rw [h2, ← h1]
    have hcdel : isDelimiter c = false := by
      have : charAt (pre ++ [c]) ((pre ++ [c]).length - 1) = c := by
        simp only [List.length_append, List.length_singleton, Nat.add_sub_cancel]
        exact charAt_split_mid pre [] c
      rw [this] at hend; exact hend
    have hcdot : isDot c = false := by
      have h2 := suffixCount_split pre [] c (by simp)
      rw [hcountB] at h2
      simp only [hcdel, Bool.false_eq_true, if_false] at h2
      by_contra hd
      have hd' : isDot c = true := by simpa using hd
      rw [if_pos hd'] at h2
      omega
    have hcsep : (isDot c || isDelimiter c) = false := by simp [hcdot, hcdel]
    -- stripSuffix leaves the base name as it is
    have hstrip : stripSuffix (pre ++ [c]) = .ok (pre ++ [c]) := by
      obtain ⟨p, d, q, hsplit2, hq, hd⟩ :=
        exists_tail_split (fun x => !(isDot x || isDelimiter x)) (pre ++ [c]) (by simp)
      have hq' : ∀ x ∈ q, (isDot x || isDelimiter x) = false := by
        intro x hx; simpa using hq x hx
      have hd' : p = [] ∨ (isDot d || isDelimiter d) = true := by
        rcases hd with h1 | h1
        · exact Or.inl h1
        · right; exact bnot_eq_false _ h1
      have hlast2 : q = [] → (isDot d || isDelimiter d) = false := by
        intro hqe
        subst hqe
        have : d = c := by
          have h3 := congrArg List.getLast? hsplit2
          simpa using h3.symm
        rw [this]; exact hcsep
      have hddot : isDot d = false := by
        have h2 := suffixCount_split p q d hq'
        rw [← hsplit2, hcountB] at h2
        by_contra hdd
        have hdd' : isDot d = true := by simpa using hdd
        have hnd : isDelimiter d = false := by
          simp only [isDot, beq_iff_eq] at hdd'; subst hdd'; decide
        simp only [hnd, Bool.false_eq_true, if_false, hdd', if_true] at h2
        omega
      rw [hsplit2, stripSuffix_split p q d hq' hd' hlast2]
      simp [hddot]
    unfold deriveBaseName stringCopy
    rw [hstrip]
    simp only
    have h4 := stripID_split pre [] c (by simp) hc
      (by simp only [List.length_nil, Nat.add_zero, charAt_split_mid]; exact hcsep)
    exact h4

/-- A worked instance of the amended C3: `./data/H5pio_0001.hdf5` derives to `./data/H5pio`,
which derives to itself. -/
theorem C3_derivation_idempotent_witness :
    suffixCount "./data/H5pio_0001.hdf5".toList ≤ 1 ∧
    deriveBaseName "./data/H5pio_0001.hdf5".toList = .ok "./data/H5pio".toList ∧
    deriveBaseName "./data/H5pio".toList = .ok "./data/H5pio".toList :=
  ⟨by decide, by decide,
   C3_derivation_idempotent "./data/H5pio_0001.hdf5".toList "./data/H5pio".toList
     (by decide) (by decide) (by decide)⟩

/-- C3 as stated fails: `./data/0001.hdf5` has one suffix and one trailing numeric id, its
derivation succeeds with the base name `./data/`, and the derivation applied to `./data/`
fails with the invalid-name error of `stripSuffix`. -/
theorem C3_derivation_not_idempotent :
    suffixCount "./data/0001.hdf5".toList = 1 ∧
    numericIdCount "./data/0001.hdf5".toList = 1 ∧
    deriveBaseName "./data/0001.hdf5".toList = .ok "./data/".toList ∧
    deriveBaseName "./data/".toList = .error ⟨"Invalid fileName", "H5pio::stripSuffix"⟩ := by
  decide

/-! ## The content of a saved container -/

theorem saveH5Header_empty (lib : H5Lib) (o : H5pio) :
    saveH5Header lib o ⟨[]⟩ =
      ⟨[("Header",
          ⟨[("Flag_DoublePrecision", ⟨.NATIVE_INT, [0]⟩),
            ("MassTable", ⟨.NATIVE_FLOAT, [0, 0, 0, 0, 0, 0]⟩),
            ("NumFilesPerSnapshot", ⟨.NATIVE_INT, [1]⟩),
            ("NumPart_ThisFile", ⟨.NATIVE_INT, List.ofFn o.nParticles⟩),
            ("NumPart_Total", ⟨.NATIVE_INT, List.ofFn o.nParticles⟩),
            ("NumPart_Total_HighWord", ⟨.NATIVE_INT, [0, 0, 0, 0, 0, 0]⟩),
            ("Time", ⟨.NATIVE_FLOAT, [o.frameTime]⟩)], []⟩)]⟩ := by
  have hlen : (List.ofFn o.nParticles).take N_TYPES = List.ofFn o.nParticles := by
    apply List.take_of_length_le; simp [N_TYPES]
  simp [saveH5Header, H5Gcreate, writeAttribute, assocSet, List.lookup, hlen, N_TYPES,
    List.replicate]


theorem assocSet_of_lookup {κ β : Type} [BEq κ] [LawfulBEq κ] [DecidableEq κ] (k : κ) (v : β)
    (l : List (κ × β)) (h : l.lookup k = some v) : assocSet k v l = l := by
  induction l with
  | nil => simp [List.lookup] at h
  | cons p rest ih =>
    obtain ⟨k', v'⟩ := p
    by_cases hk : k' = k
    · subst hk
      simp only [List.lookup, beq_self_eq_true, Option.some.injEq] at h
      simp [assocSet, h]
    · have h' : (k == k') = false := by simp [Ne.symm hk]
      simp only [List.lookup, h'] at h
      simp [assocSet, hk, ih h]

theorem saveH5Field_groups (lib : H5Lib) (mem : Nat → List Int) (o : H5pio) (type : Nat)
    (np : Int) (g : String) (f : H5File) (grp : H5Group) (gid : Nat)
    (hg : f.groups.lookup g = some grp) :
    saveH5Field lib mem o type np (some g) f gid =
      ⟨assocSet g { grp with datasets := datasetStep lib mem o type np grp.datasets gid }
        f.groups⟩ := by
  have hsame : (⟨assocSet g grp f.groups⟩ : H5File) = f := by
    rw [assocSet_of_lookup g grp f.groups hg]
  unfold saveH5Field datasetStep
  by_cases hcat : o.dataParticleType.getD gid 0 = (type : Int)
  · simp only [hcat, if_true]
    cases hkind : o.datasetKind gid with
    | none => simp only; exact hsame.symm
    | some k =>
      obtain ⟨t, dof⟩ := k
      simp only [writeDataset, hg]
      by_cases hp : o.dataPointer.getD gid 0 = 0
      · simp only [hp, if_true]; exact hsame.symm
      · simp only [hp, if_false]
        by_cases hex : ((grp.datasets.lookup (o.dataName.getD gid "")).isSome && !lib.replaceExisting) = true
        · simp only [hex, if_true]; exact hsame.symm
        · simp only [hex, if_false]; rfl
  · simp only [hcat, if_false]; exact hsame.symm

theorem foldl_saveH5Field_groups (lib : H5Lib) (mem : Nat → List Int) (o : H5pio) (type : Nat)
    (np : Int) (g : String) (l : List Nat) : ∀ (f : H5File) (grp : H5Group),
    f.groups.lookup g = some grp →
    l.foldl (saveH5Field lib mem o type np (some g)) f =
      ⟨assocSet g { grp with datasets := l.foldl (datasetStep lib mem o type np) grp.datasets }
        f.groups⟩ := by
  induction l with
  | nil =>
    intro f grp hg
    simp only [List.foldl_nil]
    rw [assocSet_of_lookup g grp f.groups hg]
  | cons gid rest ih =>
    intro f grp hg
    rw [List.foldl_cons, saveH5Field_groups lib mem o type np g f grp gid hg,
      ih _ _ (lookup_assocSet_self _ _ _), List.foldl_cons, assocSet_assocSet]

theorem saveH5Type_skip (lib : H5Lib) (mem : Nat → List Int) (o : H5pio) (f : H5File)
    (type : Nat) (h : ¬ o.count type > 0) : saveH5Type lib mem o f type = f := by
  simp [saveH5Type, h]

theorem saveH5Type_new (lib : H5Lib) (mem : Nat → List Int) (o : H5pio) (f : H5File)
    (type : Nat) (h : o.count type > 0) (hnew : f.groups.lookup (partTypeName type) = none) :
    saveH5Type lib mem o f type =
      ⟨assocSet (partTypeName type) ⟨[], groupDatasets lib mem o type⟩ f.groups⟩ := by
  unfold saveH5Type
  simp only [h, if_true, H5Gcreate, hnew]
  rw [foldl_saveH5Field_groups lib mem o type _ _ _ _ ⟨[], []⟩ (lookup_assocSet_self _ _ _),
    assocSet_assocSet]
  rfl

theorem partTypeName_injOn (a b : Nat) (ha : a < 6) (hb : b < 6)
    (h : partTypeName (a : Int) = partTypeName (b : Int)) : a = b := by
  interval_cases a <;> interval_cases b <;> first | rfl | (revert h; decide)

theorem partTypeName_ne_header (a : Nat) (ha : a < 6) : "Header" ≠ partTypeName (a : Int) := by
  interval_cases a <;> decide

/-- The groups of a container after the loop over the particle types of `saveH5Frame`. -/
theorem foldl_saveH5Type_groups (lib : H5Lib) (mem : Nat → List Int) (o : H5pio)
    (types : List Nat) : ∀ (f : H5File), types.Nodup → (∀ t ∈ types, t < 6) →
    (∀ t ∈ types, f.groups.lookup (partTypeName (t : Int)) = none) →
    (∀ g : String, (∀ t ∈ types, g ≠ partTypeName (t : Int)) →
      (types.foldl (saveH5Type lib mem o) f).groups.lookup g = f.groups.lookup g) ∧
    (∀ t ∈ types, (types.foldl (saveH5Type lib mem o) f).groups.lookup (partTypeName (t : Int)) =
      if o.count t > 0 then some ⟨[], groupDatasets lib mem o t⟩ else none) := by
  induction types with
  | nil => intro f _ _ _; exact ⟨fun _ _ => rfl, fun t ht => by simp at ht⟩
  | cons t ts ih =>
    intro f hnd hlt hnone
    have hnd' := (List.nodup_cons.mp hnd)
    have ht6 : t < 6 := hlt t (List.mem_cons_self _ _)
    have hstep : ∀ g : String, g ≠ partTypeName (t : Int) →
        (saveH5Type lib mem o f t).groups.lookup g = f.groups.lookup g := by
      intro g hg
      by_cases hc : o.count t > 0
      · rw [saveH5Type_new lib mem o f t hc (hnone t (List.mem_cons_self _ _))]
        exact lookup_assocSet_ne _ _ _ _ hg
      · rw [saveH5Type_skip lib mem o f t hc]
    have hself : (saveH5Type lib mem o f t).groups.lookup (partTypeName (t : Int)) =
        if o.count t > 0 then some ⟨[], groupDatasets lib mem o t⟩ else none := by
      by_cases hc : o.count t > 0
      · rw [saveH5Type_new lib mem o f t hc (hnone t (List.mem_cons_self _ _)), if_pos hc]
        exact lookup_assocSet_self _ _ _
      · rw [saveH5Type_skip lib mem o f t hc, if_neg hc]
        exact hnone t (List.mem_cons_self _ _)
    have hne : ∀ t' ∈ ts, partTypeName (t' : Int) ≠ partTypeName (t : Int) := by
      intro t' ht' heq
      have := partTypeName_injOn t' t (hlt t' (List.mem_cons_of_mem _ ht')) ht6 heq
      subst this
      exact hnd'.1 ht'
    obtain ⟨iha, ihb⟩ := ih (saveH5Type lib mem o f t) hnd'.2
      (fun t' ht' => hlt t' (List.mem_cons_of_mem _ ht'))
      (fun t' ht' => by
        rw [hstep _ (hne t' ht')]
        exact hnone t' (List.mem_cons_of_mem _ ht'))
    rw [List.foldl_cons]
    constructor
    · intro g hg
      rw [iha g (fun t' ht' => hg t' (List.mem_cons_of_mem _ ht'))]
      exact hstep g (hg t (List.mem_cons_self _ _))
    · intro t' ht'
      rcases List.mem_cons.mp ht' with h | h
      · subst h
        rw [iha _ (fun t'' ht'' => (hne t'' ht'').symm)]
        exact hself
      · exact ihb t' h

theorem saveH5Header_no_partType (lib : H5Lib) (o : H5pio) (t : Nat) (ht : t < 6) :
    (saveH5Header lib o ⟨[]⟩).groups.lookup (partTypeName (t : Int)) = none := by
  rw [saveH5Header_empty]
  have hb : (partTypeName (t : Int) == "Header") = false := by
    rw [beq_eq_false_iff_ne]; exact (partTypeName_ne_header t ht).symm
  simp only [List.lookup, hb]

/-- The `Header` group of a saved container. -/
theorem frameContainer_header (lib : H5Lib) (mem : Nat → List Int) (o : H5pio) :
    (frameContainer lib mem o).groups.lookup "Header" =
      some ⟨[("Flag_DoublePrecision", ⟨.NATIVE_INT, [0]⟩),
            ("MassTable", ⟨.NATIVE_FLOAT, [0, 0, 0, 0, 0, 0]⟩),
            ("NumFilesPerSnapshot", ⟨.NATIVE_INT, [1]⟩),
            ("NumPart_ThisFile", ⟨.NATIVE_INT, List.ofFn o.nParticles⟩),
            ("NumPart_Total", ⟨.NATIVE_INT, List.ofFn o.nParticles⟩),
            ("NumPart_Total_HighWord", ⟨.NATIVE_INT, [0, 0, 0, 0, 0, 0]⟩),
            ("Time", ⟨.NATIVE_FLOAT, [o.frameTime]⟩)], []⟩ := by
  unfold frameContainer
  have hnone : ∀ t ∈ List.range N_TYPES,
      (saveH5Header lib o ⟨[]⟩).groups.lookup (partTypeName (t : Int)) = none :=
    fun t ht => saveH5Header_no_partType lib o t (List.mem_range.mp ht)
  obtain ⟨ha, _⟩ := foldl_saveH5Type_groups lib mem o (List.range N_TYPES) _
    (List.nodup_range _) (fun t ht => List.mem_range.mp ht) hnone
  rw [ha "Header" (fun t ht => partTypeName_ne_header t (List.mem_range.mp ht)),
    saveH5Header_empty]
  rfl

theorem checkCounts_aux (np : List Int) (s : Sys) (l : List Nat) : ∀ (r : Outcome Sys),
    r.state = s →
    (l.foldl
      (fun r i => r.andThen fun s =>
        XcHandleError (decide (np.getD i 0 ≠ s.obj.nParticles (Fin.ofNat i))) "H5pio::loadH5Frame"
          "Inconsistent number of particles; bad checkpoint file?" s) r).state = s ∧
    (r.error = none → (∀ i ∈ l, np.getD i 0 = s.obj.nParticles (Fin.ofNat i)) →
      (l.foldl
        (fun r i => r.andThen fun s =>
          XcHandleError (decide (np.getD i 0 ≠ s.obj.nParticles (Fin.ofNat i))) "H5pio::loadH5Frame"
            "Inconsistent number of particles; bad checkpoint file?" s) r).error = none) ∧
    ((r.error = none ∨ r.error = some inconsistentCheckpoint) →
      (r.error = some inconsistentCheckpoint ∨
        ∃ i ∈ l, np.getD i 0 ≠ s.obj.nParticles (Fin.ofNat i)) →
      (l.foldl
        (fun r i => r.andThen fun s =>
          XcHandleError (decide (np.getD i 0 ≠ s.obj.nParticles (Fin.ofNat i))) "H5pio::loadH5Frame"
            "Inconsistent number of particles; bad checkpoint file?" s) r).error
        = some inconsistentCheckpoint) := by
  induction l with
  | nil =>
    intro r hr
    refine ⟨hr, fun h _ => h, fun _ h => ?_⟩
    rcases h with h | ⟨i, hi, _⟩
    · exact h
    · simp at hi
  | cons i rest ih =>
    intro r hr
    rw [List.foldl_cons]
    cases hre : r.error with
    | some e =>
      rw [Outcome.andThen_of_some _ hre]
      obtain ⟨h1, h2, h3⟩ := ih r hr
      refine ⟨h1, fun h => by simp at h, fun hor _ => ?_⟩
      rcases hor with h | h
      · simp at h
      · have hr' : r.error = some inconsistentCheckpoint := by rw [hre]; exact h
        exact h3 (Or.inr hr') (Or.inl hr')
    | none =>
      rw [Outcome.andThen_of_none _ hre, hr]
      by_cases hc : np.getD i 0 = s.obj.nParticles (Fin.ofNat i)
      · have hd : decide (np.getD i 0 ≠ s.obj.nParticles (Fin.ofNat i)) = false :=
          decide_eq_false (fun h => h hc)
        rw [hd, XcHandleError_false]
        obtain ⟨h1, h2, h3⟩ := ih (Outcome.ok s) rfl
        refine ⟨h1, fun _ hall => h2 rfl (fun j hj => hall j (List.mem_cons_of_mem _ hj)),
          fun _ hex => ?_⟩
        rcases hex with h | ⟨j, hj, hne⟩
        · simp at h
        · rcases List.mem_cons.mp hj with hji | hji
          · subst hji; exact absurd hc hne
          · exact h3 (Or.inl rfl) (Or.inr ⟨j, hji, hne⟩)
      · have hd : decide (np.getD i 0 ≠ s.obj.nParticles (Fin.ofNat i)) = true :=
          decide_eq_true hc
        rw [hd, XcHandleError_true]
        obtain ⟨h1, h2, h3⟩ := ih
          (⟨some ⟨"H5pio::loadH5Frame", "Inconsistent number of particles; bad checkpoint file?"⟩, s⟩ :
            Outcome Sys) rfl
        refine ⟨h1, fun _ hall => absurd (hall i (List.mem_cons_self _ _)) hc, fun _ _ => ?_⟩
        exact h3 (Or.inr rfl) (Or.inl rfl)

theorem checkCounts_state (np : List Int) (s : Sys) : (checkCounts np s).state = s :=
  (checkCounts_aux np s (List.range N_TYPES) (Outcome.ok s) rfl).1

theorem Outcome.eq_mk {σ : Type} (r : Outcome σ) (e : Option XcError) (s : σ)
    (h1 : r.error = e) (h2 : r.state = s) : r = ⟨e, s⟩ := by
  cases r; simp only at h1 h2; rw [h1, h2]

theorem checkCounts_ok (np : List Int) (s : Sys)
    (h : ∀ i, i < 6 → np.getD i 0 = s.obj.nParticles (Fin.ofNat i)) :
    checkCounts np s = Outcome.ok s := by
  have h1 : (checkCounts np s).error = none :=
    (checkCounts_aux np s (List.range N_TYPES) (Outcome.ok s) rfl).2.1 rfl
      (fun i hi => h i (List.mem_range.mp hi))
  exact Outcome.eq_mk _ _ _ h1 (checkCounts_state np s)

theorem checkCounts_fail (np : List Int) (s : Sys)
    (h : ∃ i, i < 6 ∧ np.getD i 0 ≠ s.obj.nParticles (Fin.ofNat i)) :
    checkCounts np s = ⟨some inconsistentCheckpoint, s⟩ := by
  obtain ⟨i, hi, hne⟩ := h
  have h1 : (checkCounts np s).error = some inconsistentCheckpoint :=
    (checkCounts_aux np s (List.range N_TYPES) (Outcome.ok s) rfl).2.2 (Or.inl rfl)
      (Or.inr ⟨i, List.mem_range.mpr hi, hne⟩)
  exact Outcome.eq_mk _ _ _ h1 (checkCounts_state np s)

theorem loadedCounts_eq (w : World) (f : H5File) (counts : List Int)
    (hc : headerCounts w.lib f = some counts) (hlen : counts.length = 6) :
    loadedCounts w f (H5Gopen f "Header") = counts := by
  unfold headerCounts at hc
  unfold loadedCounts
  rw [hc]
  simp only [overlay, N_TYPES]
  rw [List.take_append_of_le_length (by omega), List.take_of_length_le (by omega)]

/-- A failing `loadH5Frame`: the counts of the header differ from the registry. -/
theorem loadH5Frame_inconsistent (s : Sys) (f : H5File) (counts : List Int)
    (hopen : s.obj.fileIsOpen = true) (hfile : s.env.container s.obj.file_id = some f)
    (hc : headerCounts s.env.lib f = some counts) (hlen : counts.length = 6)
    (hdiff : ∃ i, i < 6 ∧ counts.getD i 0 ≠ s.obj.nParticles (Fin.ofNat i)) :
    (loadH5Frame s).error = some inconsistentCheckpoint ∧
    (loadH5Frame s).state.env = s.env := by
  unfold loadH5Frame
  simp only [hopen, Bool.not_true, Bool.false_eq_true, if_false, hfile, Option.getD_some]
  rw [loadedCounts_eq s.env f counts hc hlen, checkCounts_fail counts _ (by exact hdiff)]
  exact ⟨rfl, rfl⟩

theorem openH5File_open_ok (fileName name : List Char) (s : Sys) (f : H5File)
    (hadd : addSuffix fileName ".hdf5".toList = .ok name)
    (hf : s.env.containers.lookup name = some f) :
    openH5File fileName false s = Outcome.ok
      ⟨{ s.obj with
          frameTime := 0, endOfFile := false, hdf5Name := name,
          file_id := (s.env.handles.length : Int) + 1, fileIsOpen := true },
       { s.env with handles := s.env.handles ++ [name] }⟩ := by
  unfold openH5File
  simp only [stringCopy, hadd, H5Fopen, hf, Bool.false_eq_true, if_false]
  have hneg : decide ((s.env.handles.length : Int) + 1 < 0) = false := by
    simp only [decide_eq_false_iff_not]; omega
  simp only [hneg, XcHandleError_false, Outcome.andThen_ok]


/-- The state in which `loadFrame` calls `loadH5Frame`, when the expected frame file is a
container on disk. -/
theorem loadFrame_of_container (s : Sys) (f : H5File)
    (hf : s.env.containers.lookup
      (frameFileName s.obj.theBaseName (s.obj.multiTemporalFrameID + 1)) = some f) :
    loadFrame s =
      (loadH5Frame
        ⟨{ s.obj with
            multiTemporalFrameID := s.obj.multiTemporalFrameID + 1
            frameTime := 0
            endOfFile := false
            hdf5Name := frameFileName s.obj.theBaseName (s.obj.multiTemporalFrameID + 1)
            file_id := (s.env.handles.length : Int) + 1
            fileIsOpen := true },
         { s.env with
            handles := s.env.handles ++
              [frameFileName s.obj.theBaseName (s.obj.multiTemporalFrameID + 1)] }⟩).andThen
      fun s =>
        Outcome.ok
          { closeH5File s with
            obj := { (closeH5File s).obj with frameTime := s.obj.frameTime, endOfFile := false } } := by
  unfold loadFrame
  have hex : s.env.fileExists
      (frameFileName s.obj.theBaseName (s.obj.multiTemporalFrameID + 1)) = true := by
    simp [World.fileExists, hf]
  simp only [hex, if_true]
  rw [openH5File_open_ok _ (frameFileName s.obj.theBaseName (s.obj.multiTemporalFrameID + 1)) _ f
    (by exact addSuffix_frameFileName _ _) (by exact hf), Outcome.andThen_ok]

theorem container_after_open (w : World) (name : List Char) :
    ({ w with handles := w.handles ++ [name] } : World).container ((w.handles.length : Int) + 1)
      = w.containers.lookup name := by
  rw [container_eq _ _ name (by omega)]
  simp

/-- C4: when the per-category counts stored in the header of a checkpoint file differ from
the registered counts of the reader for at least one of the six categories, `loadH5Frame`
on that (open) file fails with the inconsistent-checkpoint error and leaves the
environment, hence every caller array, as it was; and so does `loadFrame` whenever that
file is the per-frame file it expects. -/
theorem C4_consistency_guard (s : Sys) (f : H5File) (counts : List Int)
    (hc : headerCounts s.env.lib f = some counts) (hlen : counts.length = 6)
    (hdiff : ∃ i, i < 6 ∧ counts.getD i 0 ≠ s.obj.nParticles (Fin.ofNat i)) :
    (s.obj.fileIsOpen = true → s.env.container s.obj.file_id = some f →
      (loadH5Frame s).error = some inconsistentCheckpoint ∧
      (loadH5Frame s).state.env.heap = s.env.heap) ∧
    (s.env.containers.lookup
        (frameFileName s.obj.theBaseName (s.obj.multiTemporalFrameID + 1)) = some f →
      (loadFrame s).error = some inconsistentCheckpoint ∧
      (loadFrame s).state.env.heap = s.env.heap) := by
  constructor
  · intro hopen hfile
    obtain ⟨h1, h2⟩ := loadH5Frame_inconsistent s f counts hopen hfile hc hlen hdiff
    exact ⟨h1, by rw [h2]⟩
  · intro hf
    rw [loadFrame_of_container s f hf]
    obtain ⟨h1, h2⟩ := loadH5Frame_inconsistent
      ⟨{ s.obj with
          multiTemporalFrameID := s.obj.multiTemporalFrameID + 1
          frameTime := 0
          endOfFile := false
          hdf5Name := frameFileName s.obj.theBaseName (s.obj.multiTemporalFrameID + 1)
          file_id := (s.env.handles.length : Int) + 1
          fileIsOpen := true },
       { s.env with
          handles := s.env.handles ++
            [frameFileName s.obj.theBaseName (s.obj.multiTemporalFrameID + 1)] }⟩
      f counts rfl (by rw [container_after_open]; exact hf) hc hlen hdiff
    rw [Outcome.andThen_of_some _ h1]
    exact ⟨h1, by rw [h2]⟩

/-- A worked instance of C4: the sample writer saved a frame with 3 particles of type 0; a
reader that registered 4 particles of type 0 calls `loadFrame`. -/
theorem C4_consistency_guard_witness :
    headerCounts sampleMismatch.env.lib
      (frameContainer sampleWorld.lib sampleWorld.heap { sampleSession.obj with frameTime := 42 })
      = some [3, 0, 0, 0, 0, 0] ∧
    sampleMismatch.obj.nParticles 0 = 4 ∧
    (loadFrame sampleMismatch).error = some inconsistentCheckpoint ∧
    (loadFrame sampleMismatch).state.env.heap = sampleMismatch.env.heap :=
  ⟨by decide, by decide,
   (C4_consistency_guard sampleMismatch
      (frameContainer sampleWorld.lib sampleWorld.heap { sampleSession.obj with frameTime := 42 })
      [3, 0, 0, 0, 0, 0] (by decide) (by decide) ⟨0, by decide, by decide⟩).2 (by decide)⟩

/-! ## The load loop (C5) -/

theorem ofFn_getD (g : Fin 6 → Int) (i : Nat) (hi : i < 6) :
    (List.ofFn g).getD i 0 = g (Fin.ofNat i) := by
  interval_cases i <;> simp [List.ofFn] <;> rfl

theorem frameContainer_H5Gopen_header (lib : H5Lib) (mem : Nat → List Int) (o : H5pio) :
    H5Gopen (frameContainer lib mem o) "Header" = some "Header" := by
  unfold H5Gopen
  rw [frameContainer_header]

theorem frameContainer_headerCounts (lib lib' : H5Lib) (mem : Nat → List Int) (o : H5pio) :
    headerCounts lib' (frameContainer lib mem o) = some (List.ofFn o.nParticles) := by
  unfold headerCounts
  rw [frameContainer_H5Gopen_header]
  unfold readAttribute
  simp only [frameContainer_header]
  simp [List.lookup, convertCells]

theorem frameContainer_loadedTime (lib : H5Lib) (mem : Nat → List Int) (o : H5pio) (w : World) :
    loadedTime w (frameContainer lib mem o) (H5Gopen (frameContainer lib mem o) "Header")
      = o.frameTime := by
  unfold loadedTime
  rw [frameContainer_H5Gopen_header]
  unfold readAttribute
  simp only [frameContainer_header]
  simp [List.lookup, convertCells]


theorem loadH5Frame_consistent (s : Sys) (f : H5File) (counts : List Int)
    (hopen : s.obj.fileIsOpen = true) (hfile : s.env.container s.obj.file_id = some f)
    (hc : headerCounts s.env.lib f = some counts) (hlen : counts.length = 6)
    (heq : ∀ i, i < 6 → counts.getD i 0 = s.obj.nParticles (Fin.ofNat i)) :
    loadH5Frame s = Outcome.ok
      ⟨{ s.obj with frameTime := loadedTime s.env f (H5Gopen f "Header") },
       { s.env with
          heap := (List.range N_TYPES).foldl
            (loadH5Type s.env.lib
              { s.obj with frameTime := loadedTime s.env f (H5Gopen f "Header") } f)
            s.env.heap }⟩ := by
  unfold loadH5Frame
  simp only [hopen, Bool.not_true, Bool.false_eq_true, if_false, hfile, Option.getD_some]
  rw [loadedCounts_eq s.env f counts hc hlen, checkCounts_ok counts _ (by exact heq),
    Outcome.andThen_ok]

/-- A successful `loadFrame`: the expected frame file is a container written by
`saveH5Frame` for the same counts. -/
theorem loadFrame_saved (s : Sys) (lib : H5Lib) (mem : Nat → List Int) (o : H5pio)
    (hf : s.env.containers.lookup
      (frameFileName s.obj.theBaseName (s.obj.multiTemporalFrameID + 1))
        = some (frameContainer lib mem o))
    (hn : o.nParticles = s.obj.nParticles) :
    loadFrame s = Outcome.ok
      ⟨{ s.obj with
          multiTemporalFrameID := s.obj.multiTemporalFrameID + 1
          frameTime := o.frameTime
          endOfFile := false
          hdf5Name := frameFileName s.obj.theBaseName (s.obj.multiTemporalFrameID + 1)
          file_id := (s.env.handles.length : Int) + 1
          fileIsOpen := false },
       { s.env with
          handles := s.env.handles ++
            [frameFileName s.obj.theBaseName (s.obj.multiTemporalFrameID + 1)]
          heap := (loadFrame s).state.env.heap }⟩ := by
  rw [loadFrame_of_container s _ hf]
  rw [loadH5Frame_consistent _ (frameContainer lib mem o) (List.ofFn o.nParticles) rfl
    (by rw [container_after_open]; exact hf)
    (frameContainer_headerCounts _ _ _ _) (by simp)
    (fun i hi => by rw [ofFn_getD _ i hi, hn]), Outcome.andThen_ok]
  simp only [closeH5File, Bool.not_true, Bool.false_eq_true, if_false,
    frameContainer_loadedTime, Outcome.ok]

/-- The end of the sequence: the expected frame file does not exist. -/
theorem loadFrame_absent (s : Sys)
    (hf : s.env.fileExists
      (frameFileName s.obj.theBaseName (s.obj.multiTemporalFrameID + 1)) = false) :
    loadFrame s = Outcome.ok
      ⟨{ s.obj with
          multiTemporalFrameID := s.obj.multiTemporalFrameID + 1, endOfFile := true },
       s.env⟩ := by
  unfold loadFrame
  simp only [hf, Bool.false_eq_true, if_false, Bool.not_false]

theorem loadFrames_succ (n : Nat) (s : Sys) :
    loadFrames (n + 1) s = (loadFrames n s).andThen loadFrame := by
  unfold loadFrames
  rw [List.range_succ, List.foldl_append]
  rfl

theorem loadFrames_zero (s : Sys) : loadFrames 0 s = Outcome.ok s := rfl


theorem Outcome.andThen_ok_right {σ : Type} (r : Outcome σ) : r.andThen Outcome.ok = r := by
  cases h : r.error with
  | none => rw [Outcome.andThen_of_none _ h]; exact (Outcome.eq_mk r none r.state h rfl).symm
  | some e => rw [Outcome.andThen_of_some _ h]

theorem saveFrames_snoc (ts : List F32) (t : F32) (s : Sys) :
    saveFrames (ts ++ [t]) s = (saveFrames ts s).andThen (saveFrame t) := by
  rw [saveFrames_append]
  rfl

theorem saveFrames_preserve (times : List F32) : ∀ (s : Sys), (saveFrames times s).error = none →
    (saveFrames times s).state.env.lib = s.env.lib ∧
    (saveFrames times s).state.env.heap = s.env.heap ∧
    (saveFrames times s).state.obj.nParticles = s.obj.nParticles := by
  induction times with
  | nil => intro s _; exact ⟨rfl, rfl, rfl⟩
  | cons t ts ih =>
    intro s hok
    rw [saveFrames_cons] at hok ⊢
    obtain ⟨h1, h2⟩ := Outcome.andThen_error_none hok
    rw [Outcome.andThen_of_none _ h1]
    obtain ⟨ha, hb, hc⟩ := ih _ h2
    obtain ⟨id, streams, hshape⟩ := saveFrame_shape t s h1
    rw [ha, hb, hc, hshape]
    exact ⟨rfl, rfl, rfl⟩

/-- The containers a run of `saveFrame` calls leaves on disk: frame `i+1` holds the header
written for the `i`-th time. -/
theorem saveFrames_contents (times : List F32) : ∀ (s : Sys),
    s.obj.multiTemporalFrameID = 0 → times.length ≤ 9999 →
    (saveFrames times s).error = none →
    ∀ (i : Nat) (t : F32), times[i]? = some t →
      ∃ (o : H5pio) (mem : Nat → List Int),
        (saveFrames times s).state.env.containers.lookup
            (frameFileName s.obj.theBaseName ((i : Int) + 1))
          = some (frameContainer s.env.lib mem o) ∧
        o.nParticles = s.obj.nParticles ∧ o.frameTime = t := by
  induction times using List.reverseRecOn with
  | nil => intro s _ _ _ i t hi; simp at hi
  | append_singleton ts t' ih =>
    intro s h0 hk hok i t hi
    rw [saveFrames_snoc] at hok ⊢
    obtain ⟨h1, h2⟩ := Outcome.andThen_error_none hok
    rw [Outcome.andThen_of_none _ h1]
    have hlen : ts.length + 1 ≤ 9999 := by simpa using hk
    obtain ⟨hbase, hid, _⟩ := saveFrames_inv ts s h1
    obtain ⟨hlib, hheap, hnp⟩ := saveFrames_preserve ts s h1
    obtain ⟨id, streams, hshape⟩ := saveFrame_shape t' _ h2
    have hcont : (saveFrame t' (saveFrames ts s).state).state.env.containers
        = assocSet (frameFileName s.obj.theBaseName ((ts.length : Int) + 1))
            (frameContainer s.env.lib s.env.heap
              { (saveFrames ts s).state.obj with frameTime := t' })
            (saveFrames ts s).state.env.containers := by
      rw [hshape]
      simp only [Outcome.ok, afterStandalone, hbase, hid, h0, hlib, hheap, zero_add]
    rw [hcont, lookup_assocSet]
    by_cases hi' : i < ts.length
    · have hne : frameFileName s.obj.theBaseName ((i : Int) + 1)
          ≠ frameFileName s.obj.theBaseName ((ts.length : Int) + 1) := by
        intro heq
        have := frameFileName_injOn s.obj.theBaseName (i + 1) (ts.length + 1) (by omega)
          (by omega) (by push_cast; exact heq)
        omega
      rw [if_neg hne]
      rw [List.getElem?_append_left hi'] at hi
      exact ih s h0 (by omega) h1 i t hi
    · have hieq : i = ts.length := by
        have := (List.getElem?_eq_some.mp hi).1
        simp at this
        omega
      subst hieq
      rw [if_pos rfl]
      have ht : t = t' := by simpa using hi.symm
      subst ht
      exact ⟨_, _, rfl, hnp, rfl⟩

theorem modifyAt_map_path (g : XStream → XStream) (hg : ∀ st, (g st).path = st.path) (n : Nat)
    (l : List XStream) : (modifyAt g n l).map XStream.path = l.map XStream.path := by
  induction l generalizing n with
  | nil => cases n <;> rfl
  | cons x xs ih => cases n <;> simp [modifyAt, ih, hg]

theorem onStream_paths (w : World) (fp : Nat) (g : XStream → XStream)
    (hg : ∀ st, (g st).path = st.path) :
    (w.onStream fp g).streams.map XStream.path = w.streams.map XStream.path := by
  unfold World.onStream
  split_ifs
  · rfl
  · exact modifyAt_map_path g hg _ _

theorem onStream_containers (w : World) (fp : Nat) (g : XStream → XStream) :
    (w.onStream fp g).containers = w.containers := by
  unfold World.onStream; split_ifs <;> rfl

theorem emit_paths (s : Sys) (ls : List XLine) :
    (emit s ls).env.streams.map XStream.path = s.env.streams.map XStream.path :=
  onStream_paths _ _ _ (fun _ => rfl)

theorem saveXdmfFrame_paths (time : F32) (s : Sys) :
    (saveXdmfFrame time s).env.streams.map XStream.path = s.env.streams.map XStream.path := by
  cases hopen : s.obj.xdmfFileIsOpen with
  | false => rw [saveXdmfFrame_closed time s hopen]
  | true => rw [saveXdmfFrame_open time s hopen]; exact emit_paths _ _

theorem saveFrame_paths (time : F32) (s : Sys) (hok : (saveFrame time s).error = none) :
    (saveFrame time s).state.env.streams.map XStream.path =
      s.env.streams.map XStream.path ++
        [frameMirrorName s.obj.theBaseName (s.obj.multiTemporalFrameID + 1)] := by
  rw [saveFrame_ok time s hok]
  simp only [Outcome.ok]
  rw [saveXdmfFrame_paths]
  simp [afterStandalone]

theorem saveFrames_paths (times : List F32) : ∀ (s : Sys), (saveFrames times s).error = none →
    ∀ path ∈ (saveFrames times s).state.env.streams.map XStream.path,
      path ∈ s.env.streams.map XStream.path ∨
        ∃ j : Int, path = frameMirrorName s.obj.theBaseName j := by
  induction times with
  | nil => intro s _ path hp; exact Or.inl hp
  | cons t ts ih =>
    intro s hok path hp
    rw [saveFrames_cons] at hok hp
    obtain ⟨h1, h2⟩ := Outcome.andThen_error_none hok
    rw [Outcome.andThen_of_none _ h1] at hp
    obtain ⟨id, streams, hshape⟩ := saveFrame_shape t s h1
    have hbase : (saveFrame t s).state.obj.theBaseName = s.obj.theBaseName := by
      rw [hshape]; rfl
    rcases ih _ h2 path hp with h | ⟨j, hj⟩
    · rw [saveFrame_paths t s h1] at h
      rcases List.mem_append.mp h with h' | h'
      · exact Or.inl h'
      · right; exact ⟨_, by simpa using h'⟩
    · right; exact ⟨j, by rw [hj, hbase]⟩

theorem closeH5File_env (s : Sys) : (closeH5File s).env = s.env := by
  unfold closeH5File; split_ifs <;> rfl

theorem emit_containers (s : Sys) (ls : List XLine) :
    (emit s ls).env.containers = s.env.containers ∧ (emit s ls).env.lib = s.env.lib := by
  unfold emit World.onStream
  split_ifs <;> exact ⟨rfl, rfl⟩

theorem onStream_fixed (w : World) (fp : Nat) (g : XStream → XStream) :
    (w.onStream fp g).containers = w.containers ∧ (w.onStream fp g).lib = w.lib := by
  unfold World.onStream; split_ifs <;> exact ⟨rfl, rfl⟩

theorem closeXdmfFile_paths (s : Sys) :
    (closeXdmfFile s).env.streams.map XStream.path = s.env.streams.map XStream.path := by
  unfold closeXdmfFile
  by_cases hopen : (!s.obj.xdmfFileIsOpen) = true
  · rw [if_pos hopen]
  · rw [if_neg hopen]
    simp only [fclose]
    rw [onStream_paths]
    · by_cases ht : s.obj.writeXdmfTerminator = true
      · simp only [ht, if_true, fprintf_eq_emit, emit_emit]
        exact emit_paths _ _
      · simp only [ht, if_false, Bool.false_eq_true]
    · intro st; rfl

theorem closeXdmfFile_containers (s : Sys) :
    (closeXdmfFile s).env.containers = s.env.containers ∧
    (closeXdmfFile s).env.lib = s.env.lib := by
  unfold closeXdmfFile
  by_cases hopen : (!s.obj.xdmfFileIsOpen) = true
  · rw [if_pos hopen]; exact ⟨rfl, rfl⟩
  · rw [if_neg hopen]
    simp only [fclose]
    rw [(onStream_fixed _ _ _).1, (onStream_fixed _ _ _).2]
    by_cases ht : s.obj.writeXdmfTerminator = true
    · rw [if_pos ht]
      simp only [fprintf_eq_emit, emit_emit]
      exact emit_containers _ _
    · rw [if_neg ht]
      exact ⟨rfl, rfl⟩

theorem closeFiles_paths (s : Sys) :
    (closeFiles s).env.streams.map XStream.path = s.env.streams.map XStream.path := by
  unfold closeFiles
  rw [closeXdmfFile_paths, closeH5File_env]

theorem closeFiles_containers (s : Sys) :
    (closeFiles s).env.containers = s.env.containers ∧ (closeFiles s).env.lib = s.env.lib := by
  unfold closeFiles
  rw [(closeXdmfFile_containers _).1, (closeXdmfFile_containers _).2, closeH5File_env]
  exact ⟨rfl, rfl⟩

theorem frameMirrorName_ne_frameFileName (base base' : List Char) (i j : Int) :
    frameMirrorName base i ≠ frameFileName base' j := by
  intro h
  have := congrArg List.reverse h
  simp [frameMirrorName, frameFileName, List.reverse_append] at this


theorem loadFrames_inv (times : List F32) (r0 : Sys) (h0 : r0.obj.multiTemporalFrameID = 0)
    (H : ∀ (i : Nat) (t : F32), times[i]? = some t →
      ∃ (o : H5pio) (mem : Nat → List Int) (lib : H5Lib),
        r0.env.containers.lookup (frameFileName r0.obj.theBaseName ((i : Int) + 1))
          = some (frameContainer lib mem o) ∧
        o.nParticles = r0.obj.nParticles ∧ o.frameTime = t) :
    ∀ j, j ≤ times.length →
      (loadFrames j r0).error = none ∧
      (loadFrames j r0).state.obj.multiTemporalFrameID = j ∧
      (loadFrames j r0).state.obj.theBaseName = r0.obj.theBaseName ∧
      (loadFrames j r0).state.obj.nParticles = r0.obj.nParticles ∧
      (loadFrames j r0).state.env.containers = r0.env.containers ∧
      (loadFrames j r0).state.env.streams = r0.env.streams ∧
      (∀ (i : Nat) (t : F32), j = i + 1 → times[i]? = some t →
        (loadFrames j r0).state.obj.endOfFile = false ∧
        (loadFrames j r0).state.obj.frameTime = t) := by
  intro j
  induction j with
  | zero =>
    intro _
    rw [loadFrames_zero]
    exact ⟨rfl, by simpa using h0, rfl, rfl, rfl, rfl, fun i t hi => by omega⟩
  | succ j ih =>
    intro hj
    obtain ⟨he, hid, hbase, hnp, hcont, hstr, _⟩ := ih (by omega)
    have hlt : j < times.length := by omega
    obtain ⟨o, mem, lib, hlook, hon, hot⟩ := H j times[j] (List.getElem?_eq_getElem hlt)
    rw [loadFrames_succ, Outcome.andThen_of_none _ he]
    have hlook' : (loadFrames j r0).state.env.containers.lookup
        (frameFileName (loadFrames j r0).state.obj.theBaseName
          ((loadFrames j r0).state.obj.multiTemporalFrameID + 1))
        = some (frameContainer lib mem o) := by
      rw [hcont, hbase, hid]; exact hlook
    rw [loadFrame_saved _ lib mem o hlook' (by rw [hon, hnp])]
    refine ⟨rfl, ?_, hbase, hnp, hcont, hstr, ?_⟩
    · simp only [Outcome.ok, hid]; push_cast; rfl
    · intro i t hi ht
      have hij : i = j := by omega
      subst hij
      rw [List.getElem?_eq_getElem hlt] at ht
      simp only [Option.some.injEq] at ht
      exact ⟨rfl, by simp only [Outcome.ok]; rw [hot, ht]⟩

theorem fileExists_false_iff (w : World) (name : List Char) :
    w.fileExists name = false ↔
      w.containers.lookup name = none ∧ name ∉ w.streams.map XStream.path := by
  unfold World.fileExists
  have h1 : (w.containers.lookup name).isSome = false ↔ w.containers.lookup name = none := by
    cases w.containers.lookup name <;> simp
  simp only [Bool.or_eq_false_iff, h1, List.any_eq_false, decide_eq_true_eq, List.mem_map,
    not_exists, not_and]

/-- C5: a writer opens a session on `p` and saves `k <= 9999` frames at the times `times`
(frame file `k+1` of that base not being there); a reader with the same category counts
opens a session on `p` on the resulting disk.  Then the `i`-th call of `loadFrame`
(`1 <= i <= k`) returns normally with `endOfFile == false` and `frameTime` the `i`-th time,
and call `k+1` returns normally with `endOfFile == true` and leaves every caller array (the
whole heap) as it was before that call. -/
theorem C5_load_loop (p base : List Char) (w r : H5pio) (W : World) (times : List F32)
    (hbase : deriveBaseName p = .ok base) (hk : times.length ≤ 9999)
    (hfresh : W.fileExists (frameFileName base ((times.length : Int) + 1)) = false)
    (hreg : r.nParticles = w.nParticles)
    (hsave : ((openFiles p ⟨w, W⟩).andThen (saveFrames times)).error = none) :
    (∀ (i : Nat) (t : F32), times[i]? = some t →
      ((openFiles p
          ⟨r, (closeFiles ((openFiles p ⟨w, W⟩).andThen (saveFrames times)).state).env⟩).andThen
        (loadFrames (i + 1))).error = none ∧
      ((openFiles p
          ⟨r, (closeFiles ((openFiles p ⟨w, W⟩).andThen (saveFrames times)).state).env⟩).andThen
        (loadFrames (i + 1))).state.obj.endOfFile = false ∧
      ((openFiles p
          ⟨r, (closeFiles ((openFiles p ⟨w, W⟩).andThen (saveFrames times)).state).env⟩).andThen
        (loadFrames (i + 1))).state.obj.frameTime = t) ∧
    ((openFiles p
        ⟨r, (closeFiles ((openFiles p ⟨w, W⟩).andThen (saveFrames times)).state).env⟩).andThen
      (loadFrames (times.length + 1))).error = none ∧
    ((openFiles p
        ⟨r, (closeFiles ((openFiles p ⟨w, W⟩).andThen (saveFrames times)).state).env⟩).andThen
      (loadFrames (times.length + 1))).state.obj.endOfFile = true ∧
    ((openFiles p
        ⟨r, (closeFiles ((openFiles p ⟨w, W⟩).andThen (saveFrames times)).state).env⟩).andThen
      (loadFrames (times.length + 1))).state.env.heap =
    ((openFiles p
        ⟨r, (closeFiles ((openFiles p ⟨w, W⟩).andThen (saveFrames times)).state).env⟩).andThen
      (loadFrames times.length)).state.env.heap := by
  rw [openFiles_ok p ⟨w, W⟩ base hbase, Outcome.andThen_ok] at hsave ⊢
  simp only [openFiles_ok p _ base hbase, Outcome.andThen_ok]
  obtain ⟨hcc, _⟩ := closeFiles_containers
    (saveFrames times ⟨{ w with multiTemporalFrameID := 0, theBaseName := base }, W⟩).state
  have hpaths := closeFiles_paths
    (saveFrames times ⟨{ w with multiTemporalFrameID := 0, theBaseName := base }, W⟩).state
  have H : ∀ (i : Nat) (t : F32), times[i]? = some t →
      ∃ (o : H5pio) (mem : Nat → List Int) (lib : H5Lib),
        (closeFiles (saveFrames times
            ⟨{ w with multiTemporalFrameID := 0, theBaseName := base }, W⟩).state).env.containers.lookup
          (frameFileName base ((i : Int) + 1)) = some (frameContainer lib mem o) ∧
        o.nParticles = r.nParticles ∧ o.frameTime = t := by
    intro i t hi
    obtain ⟨o, mem, h1, h2, h3⟩ := saveFrames_contents times
      ⟨{ w with multiTemporalFrameID := 0, theBaseName := base }, W⟩ rfl hk hsave i t hi
    exact ⟨o, mem, W.lib, by rw [hcc]; exact h1, by rw [h2, hreg], h3⟩
  have hinv := loadFrames_inv times
    ⟨{ r with multiTemporalFrameID := 0, theBaseName := base },
      (closeFiles (saveFrames times
        ⟨{ w with multiTemporalFrameID := 0, theBaseName := base }, W⟩).state).env⟩ rfl H
  constructor
  · intro i t hi
    have hlt : i < times.length := (List.getElem?_eq_some.mp hi).1
    obtain ⟨he, _, _, _, _, _, hlast⟩ := hinv (i + 1) (by omega)
    obtain ⟨h1, h2⟩ := hlast i t rfl hi
    exact ⟨he, h1, h2⟩
  · obtain ⟨he, hid, hb, _, hcont, hstr, _⟩ := hinv times.length (le_refl _)
    rw [loadFrames_succ, Outcome.andThen_of_none _ he]
    obtain ⟨hW1, hW2⟩ := (fileExists_false_iff W _).mp hfresh
    have habsent : (loadFrames times.length
        ⟨{ r with multiTemporalFrameID := 0, theBaseName := base },
          (closeFiles (saveFrames times
            ⟨{ w with multiTemporalFrameID := 0, theBaseName := base }, W⟩).state).env⟩).state.env.fileExists
        (frameFileName
          (loadFrames times.length
            ⟨{ r with multiTemporalFrameID := 0, theBaseName := base },
              (closeFiles (saveFrames times
                ⟨{ w with multiTemporalFrameID := 0, theBaseName := base }, W⟩).state).env⟩).state.obj.theBaseName
          ((loadFrames times.length
            ⟨{ r with multiTemporalFrameID := 0, theBaseName := base },
              (closeFiles (saveFrames times
                ⟨{ w with multiTemporalFrameID := 0, theBaseName := base }, W⟩).state).env⟩).state.obj.multiTemporalFrameID
            + 1)) = false := by
      rw [fileExists_false_iff, hcont, hstr, hb, hid, hcc, hpaths]
      constructor
      · rw [← Option.not_isSome_iff_eq_none, Bool.not_eq_true, ← Bool.not_eq_true,
          saveFrames_containers times _ hsave]
        rintro (h | ⟨i, hi, hn⟩)
        · rw [hW1] at h; simp at h
        · have := frameFileName_injOn base (times.length + 1) (i + 1) (by omega) (by omega)
            (by push_cast; simpa [add_comm] using hn)
          omega
      · intro hmem
        rcases saveFrames_paths times _ hsave _ hmem with h | ⟨j, hj⟩
        · exact hW2 h
        · exact frameMirrorName_ne_frameFileName _ _ _ _ hj.symm
    rw [loadFrame_absent _ habsent]
    exact ⟨rfl, rfl, rfl⟩

/-- A worked instance of C5: the sample writer saves three frames at times 0, 5 and 10; the
sample reader gets time 5 from its second `loadFrame` and end-of-file from its fourth. -/
theorem C5_load_loop_witness :
    ((openFiles "./data/H5pio".toList
        ⟨sampleReader,
          (closeFiles ((openFiles "./data/H5pio".toList ⟨sampleWriter, sampleWorld⟩).andThen
            (saveFrames [0, 5, 10])).state).env⟩).andThen
      (loadFrames 2)).state.obj.frameTime = 5 ∧
    ((openFiles "./data/H5pio".toList
        ⟨sampleReader,
          (closeFiles ((openFiles "./data/H5pio".toList ⟨sampleWriter, sampleWorld⟩).andThen
            (saveFrames [0, 5, 10])).state).env⟩).andThen
      (loadFrames 4)).state.obj.endOfFile = true :=
  ⟨((C5_load_loop "./data/H5pio".toList "./data/H5pio".toList sampleWriter sampleReader
      sampleWorld [0, 5, 10] (by decide) (by decide) (by decide) rfl (by decide)).1 1 5
      (by decide)).2.2,
   (C5_load_loop "./data/H5pio".toList "./data/H5pio".toList sampleWriter sampleReader
      sampleWorld [0, 5, 10] (by decide) (by decide) (by decide) rfl (by decide)).2.2.1⟩

/-! ## Well-formed registries -/

theorem getD_append_old {α : Type} (l : List α) (x d : α) (i : Nat) (h : i < l.length) :
    (l ++ [x]).getD i d = l.getD i d := by
  simp [List.getD_eq_getElem?_getD, List.getElem?_append_left h]

theorem getD_append_new {α : Type} (l : List α) (x d : α) :
    (l ++ [x]).getD l.length d = x := by
  simp [List.getD_eq_getElem?_getD]

theorem RegistryOK.pushField {o : H5pio} (h : RegistryOK o) (c b1 i1 f1 f3 g3 : Bool)
    (name : String) (ptr : Nat) (hflags : [b1, i1, f1, f3, g3].count true = 1)
    (hptr : ptr ≠ 0) : RegistryOK (pushField o c b1 i1 f1 f3 g3 name ptr) := by
  have hlen : ∀ pg, pg < (o.dataName ++ [name]).length →
      pg < o.dataName.length ∨ pg = o.dataName.length := by
    intro pg hpg; simp at hpg; omega
  refine ⟨?_, ?_, ?_, ?_, ?_, ?_, ?_, ?_, h.current, ?_, ?_, ?_⟩
  · simp [GizmoH5.pushField, h.lenType]
  · simp [GizmoH5.pushField, h.lenCenter]
  · simp [GizmoH5.pushField, h.lenB1]
  · simp [GizmoH5.pushField, h.lenI1]
  · simp [GizmoH5.pushField, h.lenF1]
  · simp [GizmoH5.pushField, h.lenF3]
  · simp [GizmoH5.pushField, h.lenG3]
  · simp [GizmoH5.pushField, h.lenPtr]
  · intro pg hpg
    rcases hlen pg hpg with hlt | heq
    · have := h.kind pg hlt
      simp only [H5pio.kindFlags, GizmoH5.pushField] at this ⊢
      rw [getD_append_old _ _ _ _ (by rw [h.lenB1]; exact hlt),
        getD_append_old _ _ _ _ (by rw [h.lenI1]; exact hlt),
        getD_append_old _ _ _ _ (by rw [h.lenF1]; exact hlt),
        getD_append_old _ _ _ _ (by rw [h.lenF3]; exact hlt),
        getD_append_old _ _ _ _ (by rw [h.lenG3]; exact hlt)]
      exact this
    · subst heq
      simp only [H5pio.kindFlags, GizmoH5.pushField]
      rw [← h.lenB1, getD_append_new, h.lenB1, ← h.lenI1, getD_append_new, h.lenI1,
        ← h.lenF1, getD_append_new, h.lenF1, ← h.lenF3, getD_append_new, h.lenF3,
        ← h.lenG3, getD_append_new]
      exact hflags
  · intro pg hpg
    rcases hlen pg hpg with hlt | heq
    · simp only [GizmoH5.pushField]
      rw [getD_append_old _ _ _ _ (by rw [h.lenType]; exact hlt)]
      exact h.category pg hlt
    · subst heq
      simp only [GizmoH5.pushField]
      rw [← h.lenType, getD_append_new]
      exact h.current
  · intro pg hpg
    rcases hlen pg hpg with hlt | heq
    · simp only [GizmoH5.pushField]
      rw [getD_append_old _ _ _ _ (by rw [h.lenPtr]; exact hlt)]
      exact h.pointer pg hlt
    · subst heq
      simp only [GizmoH5.pushField]
      rw [← h.lenPtr, getD_append_new]
      exact hptr

theorem RegistryOK.resetFields (o : H5pio) : RegistryOK (resetFields o) := by
  refine ⟨rfl, rfl, rfl, rfl, rfl, rfl, rfl, rfl, ⟨by show (0 : Int) ≤ 0; decide, by show (0 : Int) ≤ 5; decide⟩, ?_, ?_, ?_⟩ <;>
    (intro pg hpg; simp [GizmoH5.resetFields] at hpg)

theorem datasetStep_lookup (lib : H5Lib) (mem : Nat → List Int) (o : H5pio) (type : Nat)
    (np : Int) (ds : List (String × H5Dataset)) (gid : Nat) (x : String) :
    (datasetStep lib mem o type np ds gid).lookup x = ds.lookup x ∨
    (o.dataParticleType.getD gid 0 = (type : Int) ∧ o.dataPointer.getD gid 0 ≠ 0 ∧
      o.dataName.getD gid "" = x ∧ ∃ t dof, o.datasetKind gid = some (t, dof) ∧
      (datasetStep lib mem o type np ds gid).lookup x = some (fieldDataset mem o gid np t dof)) := by
  unfold datasetStep
  by_cases hc : o.dataParticleType.getD gid 0 = (type : Int)
  · rw [if_pos hc]
    cases hk : o.datasetKind gid with
    | none => left; rfl
    | some td =>
      obtain ⟨t, dof⟩ := td
      simp only []
      by_cases hp : o.dataPointer.getD gid 0 = 0
      · rw [if_pos hp]; left; rfl
      · rw [if_neg hp]
        split_ifs with hdup
        · left; rfl
        · by_cases hx : x = o.dataName.getD gid ""
          · right
            refine ⟨hc, hp, hx.symm, t, dof, rfl, ?_⟩
            rw [hx, lookup_assocSet_self]
          · left
            exact lookup_assocSet_ne _ _ _ _ hx
  · rw [if_neg hc]; left; rfl

theorem datasetStep_isSome (lib : H5Lib) (mem : Nat → List Int) (o : H5pio) (type : Nat)
    (np : Int) (ds : List (String × H5Dataset)) (gid : Nat) (x : String)
    (h : (ds.lookup x).isSome = true) :
    ((datasetStep lib mem o type np ds gid).lookup x).isSome = true := by
  rcases datasetStep_lookup lib mem o type np ds gid x with h1 | ⟨_, _, _, t, dof, _, h2⟩
  · rw [h1]; exact h
  · rw [h2]; rfl

theorem datasetStep_self (lib : H5Lib) (mem : Nat → List Int) (o : H5pio) (type : Nat)
    (np : Int) (ds : List (String × H5Dataset)) (gid : Nat) (t : H5T) (dof : Int)
    (hc : o.dataParticleType.getD gid 0 = (type : Int)) (hk : o.datasetKind gid = some (t, dof))
    (hp : o.dataPointer.getD gid 0 ≠ 0) :
    ((datasetStep lib mem o type np ds gid).lookup (o.dataName.getD gid "")).isSome = true ∧
    (ds.lookup (o.dataName.getD gid "") = none →
      (datasetStep lib mem o type np ds gid).lookup (o.dataName.getD gid "") =
        some (fieldDataset mem o gid np t dof)) := by
  unfold datasetStep
  rw [if_pos hc, hk]
  simp only []
  rw [if_neg hp]
  constructor
  · split_ifs with hdup
    · simp only [Bool.and_eq_true] at hdup
      exact hdup.1
    · rw [lookup_assocSet_self]; rfl
  · intro hnone
    rw [hnone]
    simp only [Option.isSome_none, Bool.false_and, Bool.false_eq_true, if_false]
    exact lookup_assocSet_self _ _ _

theorem foldl_datasetStep_isSome (lib : H5Lib) (mem : Nat → List Int) (o : H5pio) (type : Nat)
    (np : Int) (x : String) (l : List Nat) : ∀ (ds : List (String × H5Dataset)),
    (ds.lookup x).isSome = true →
    ((l.foldl (datasetStep lib mem o type np) ds).lookup x).isSome = true := by
  induction l with
  | nil => intro ds h; exact h
  | cons gid rest ih =>
    intro ds h
    rw [List.foldl_cons]
    exact ih _ (datasetStep_isSome lib mem o type np ds gid x h)

/-- Every registered field of the category with a kind and a non-null reference has a
dataset of its name in the table. -/
theorem foldl_datasetStep_mem (lib : H5Lib) (mem : Nat → List Int) (o : H5pio) (type : Nat)
    (np : Int) (pg : Nat) (t : H5T) (dof : Int)
    (hc : o.dataParticleType.getD pg 0 = (type : Int)) (hk : o.datasetKind pg = some (t, dof))
    (hp : o.dataPointer.getD pg 0 ≠ 0) (l : List Nat) :
    ∀ (ds : List (String × H5Dataset)), pg ∈ l →
    ((l.foldl (datasetStep lib mem o type np) ds).lookup (o.dataName.getD pg "")).isSome = true := by
  induction l with
  | nil => intro ds h; simp at h
  | cons gid rest ih =>
    intro ds h
    rw [List.foldl_cons]
    rcases List.mem_cons.mp h with heq | hmem
    · subst heq
      exact foldl_datasetStep_isSome lib mem o type np _ rest _
        (datasetStep_self lib mem o type np ds pg t dof hc hk hp).1
    · exact ih _ hmem

theorem RegistryOK.of_registry {a b : H5pio} (ha : RegistryOK a) (h : a.registry = b.registry) :
    RegistryOK b := by
  have e2 : a.theParticleType = b.theParticleType := congrArg Registry.theParticleType h
  have e3 : a.dataParticleType = b.dataParticleType := congrArg Registry.dataParticleType h
  have e4 : a.dataIsNodeCentered = b.dataIsNodeCentered :=
    congrArg Registry.dataIsNodeCentered h
  have e5 : a.dataIsBoolean1D = b.dataIsBoolean1D := congrArg Registry.dataIsBoolean1D h
  have e6 : a.dataIsInteger1D = b.dataIsInteger1D := congrArg Registry.dataIsInteger1D h
  have e7 : a.dataIsFloat1D = b.dataIsFloat1D := congrArg Registry.dataIsFloat1D h
  have e8 : a.dataIsFloat3D = b.dataIsFloat3D := congrArg Registry.dataIsFloat3D h
  have e9 : a.dataIsGeometry3D = b.dataIsGeometry3D := congrArg Registry.dataIsGeometry3D h
  have e10 : a.dataName = b.dataName := congrArg Registry.dataName h
  have e11 : a.dataPointer = b.dataPointer := congrArg Registry.dataPointer h
  refine ⟨?_, ?_, ?_, ?_, ?_, ?_, ?_, ?_, ?_, ?_, ?_, ?_⟩
  · rw [← e3, ← e10]; exact ha.lenType
  · rw [← e4, ← e10]; exact ha.lenCenter
  · rw [← e5, ← e10]; exact ha.lenB1
  · rw [← e6, ← e10]; exact ha.lenI1
  · rw [← e7, ← e10]; exact ha.lenF1
  · rw [← e8, ← e10]; exact ha.lenF3
  · rw [← e9, ← e10]; exact ha.lenG3
  · rw [← e11, ← e10]; exact ha.lenPtr
  · rw [← e2]; exact ha.current
  · intro pg hpg
    rw [← e10] at hpg
    have := ha.kind pg hpg
    unfold H5pio.kindFlags at this ⊢
    rw [← e5, ← e6, ← e7, ← e8, ← e9]; exact this
  · intro pg hpg
    rw [← e10] at hpg
    rw [← e3]; exact ha.category pg hpg
  · intro pg hpg
    rw [← e10] at hpg
    rw [← e11]; exact ha.pointer pg hpg

theorem SameLayout.datasetKind {r w : H5pio} (h : SameLayout r w) (gid : Nat) :
    r.datasetKind gid = w.datasetKind gid := by
  unfold H5pio.datasetKind
  rw [h.boolean1D, h.integer1D, h.float1D, h.float3D, h.geometry3D]

theorem SameLayout.count {r w : H5pio} (h : SameLayout r w) (t : Int) : r.count t = w.count t := by
  unfold H5pio.count; rw [h.counts]

theorem SameLayout.cells {r w : H5pio} (h : SameLayout r w) (gid : Nat) :
    r.cells gid = w.cells gid := by
  unfold H5pio.cells
  rw [h.datasetKind, h.category]
  cases w.datasetKind gid with
  | none => rfl
  | some td => simp only [h.count]

theorem registerField_eq (kind : FieldKind) (c : Bool) (name : String) (ptr : Nat) (o : H5pio) :
    registerField kind c name ptr o =
      if ptr = 0 then o
      else pushField o c (decide (kind = .Boolean1D)) (decide (kind = .Integer1D))
        (decide (kind = .Float1D)) (decide (kind = .Float3D)) (decide (kind = .Geometry3D))
        name ptr := by
  cases kind <;>
    simp [registerField, registerBoolean1DField, registerInteger1DField, registerFloat1DField,
      registerFloat3DField, registerGeometry3DField]

theorem runOps_snoc (raw : H5pio) (ops : List RegistryOp) (op : RegistryOp) :
    runOps raw (ops ++ [op]) = op.run (runOps raw ops) := by
  unfold runOps; rw [List.foldl_append]; rfl

theorem currentCategory_snoc (ops : List RegistryOp) (op : RegistryOp) :
    currentCategory (ops ++ [op]) =
      match op with
      | .resetFields => 0
      | .registerParticles np type =>
        if 0 < np ∧ 0 ≤ type ∧ type ≤ 5 then type else currentCategory ops
      | .registerField _ _ _ _ => currentCategory ops := by
  unfold currentCategory; rw [List.foldl_append]; rfl

theorem registeredReferences_snoc (ops : List RegistryOp) (op : RegistryOp) :
    registeredReferences (ops ++ [op]) =
      match op with
      | .resetFields => []
      | .registerParticles _ _ => registeredReferences ops
      | .registerField _ _ _ ptr =>
        if ptr ≠ 0 then registeredReferences ops ++ [ptr] else registeredReferences ops := by
  unfold registeredReferences; rw [List.foldl_append]; rfl

/-- The current category and the reference vector after a sequence of registry calls. -/
theorem runOps_registry (raw : H5pio) (ops : List RegistryOp) :
    (runOps raw ops).theParticleType = currentCategory ops ∧
    (runOps raw ops).dataPointer = registeredReferences ops := by
  induction ops using List.reverseRecOn with
  | nil => exact ⟨rfl, rfl⟩
  | append_singleton ops op ih =>
    rw [runOps_snoc, currentCategory_snoc, registeredReferences_snoc]
    cases op with
    | resetFields => exact ⟨rfl, rfl⟩
    | registerParticles np type =>
      simp only [RegistryOp.run]
      by_cases hbad : np ≤ 0 ∨ type < 0 ∨ type > 5
      · rw [(registerParticles_fail np type _ hbad).2]
        have : ¬ (0 < np ∧ 0 ≤ type ∧ type ≤ 5) := by omega
        rw [if_neg this]
        exact ih
      · rw [registerParticles_ok np type _ hbad]
        have : 0 < np ∧ 0 ≤ type ∧ type ≤ 5 := by omega
        rw [if_pos this]
        exact ⟨rfl, ih.2⟩
    | registerField kind c name ptr =>
      simp only [RegistryOp.run]
      rw [registerField_eq]
      by_cases hp : ptr = 0
      · rw [if_pos hp, if_neg (not_not.mpr hp)]; exact ih
      · rw [if_neg hp, if_pos hp]
        refine ⟨ih.1, ?_⟩
        show (runOps raw ops).dataPointer ++ [ptr] = _
        rw [ih.2]

/-- C11: each of the five `register...Field` functions (selected by `kind`) leaves the
object as it is when the reference is null; with a non-null reference (an address
`ptr + 1`) it appends exactly
one entry at the end of each of the nine descriptor vectors: the current category, the
given centering, the five kind flags of which only the one of the function called is set,
the given name and the given reference; the counts and every other member are unchanged.
After the constructor and any sequence of registry calls the current category is the
category of the most recent successful `registerParticles` call, 0 if there was none since
construction or the last `resetFields`, so that this is the category a registered field
gets; and the reference vector is the list of the non-null references registered since
construction or the last `resetFields`, in the order of the calls. -/
theorem C11_registerField (kind : FieldKind) (isNodeCentered : Bool) (name : String)
    (ptr : Nat) (o raw : H5pio) (ops : List RegistryOp) :
    registerField kind isNodeCentered name 0 o = o ∧
    registerField kind isNodeCentered name (ptr + 1) o =
      { o with
        dataParticleType := o.dataParticleType ++ [o.theParticleType]
        dataIsNodeCentered := o.dataIsNodeCentered ++ [isNodeCentered]
        dataIsBoolean1D := o.dataIsBoolean1D ++ [decide (kind = .Boolean1D)]
        dataIsInteger1D := o.dataIsInteger1D ++ [decide (kind = .Integer1D)]
        dataIsFloat1D := o.dataIsFloat1D ++ [decide (kind = .Float1D)]
        dataIsFloat3D := o.dataIsFloat3D ++ [decide (kind = .Float3D)]
        dataIsGeometry3D := o.dataIsGeometry3D ++ [decide (kind = .Geometry3D)]
        dataName := o.dataName ++ [name]
        dataPointer := o.dataPointer ++ [ptr + 1] } ∧
    (registerField kind isNodeCentered name ptr o).nParticles = o.nParticles ∧
    (runOps raw ops).theParticleType = currentCategory ops ∧
    (registerField kind isNodeCentered name (ptr + 1) (runOps raw ops)).dataParticleType =
      (runOps raw ops).dataParticleType ++ [currentCategory ops] ∧
    (runOps raw ops).dataPointer = registeredReferences ops := by
  have hreg := runOps_registry raw ops
  refine ⟨?_, ?_, ?_, hreg.1, ?_, hreg.2⟩
  · rw [registerField_eq, if_pos rfl]
  · rw [registerField_eq, if_neg (Nat.succ_ne_zero ptr)]; rfl
  · rw [registerField_eq]
    split_ifs <;> rfl
  · rw [registerField_eq, if_neg (Nat.succ_ne_zero ptr), ← hreg.1]; rfl

/-! ## Dataset shapes (C12) -/

/-- C13 at a failing input: the sample writer has two registered fields, the scalar field
`Masses` and the geometry field `Coordinates`.  The frame block `saveXdmfFrame(42)` writes
for it has one uniform `Grid` element, one `Time` element, one `Geometry` element and one
`Attribute` element, but two `Topology` elements, one per registered field: the `Topology`
line is written inside the loop over the fields. -/
theorem C13_topology_per_field :
    sampleCollection.obj.dataName = ["Masses", "Coordinates"] ∧
    sampleCollection.obj.dataIsGeometry3D = [false, true] ∧
    sampleBlock.length = 21 ∧
    countFormat "      <Grid Name=\"GIZMO Particles\" GridType=\"Uniform\">\n" sampleBlock = 1 ∧
    countFormat "        <Time Value=\"%.4e\"/>\n" sampleBlock = 1 ∧
    countFormat "        <Geometry GeometryType=\"XYZ\">\n" sampleBlock = 1 ∧
    countAttributes sampleBlock = 1 ∧
    countFormat
      "        <Topology TopologyType=\"Polyvertex\" NumberOfElements=\"%d\" />\n" sampleBlock
      = 2 := by
  refine ⟨by decide, by decide, by decide, by decide, by decide, by decide, by decide,
    by decide⟩

/-- C14 at a failing input: `openFiles` changes the frame counter and the base name only;
it leaves the mirror open flag, the mirror handle and the environment as they are.  For the
sample writer, fresh from its constructor and registrations, `openFiles("./data/H5pio")`
succeeds and the mirror open flag is `false` afterwards, no stream is open, and after a
following `saveFrame(42)` the only mirror document is the standalone one of the frame:
nothing was appended to a temporal collection. -/
theorem C14_openFiles_leaves_mirror_closed (p : List Char) (s : Sys) :
    (openFiles p s).state.obj.xdmfFileIsOpen = s.obj.xdmfFileIsOpen ∧
    (openFiles p s).state.obj.xdmfFile = s.obj.xdmfFile ∧
    (openFiles p s).state.env = s.env ∧
    sampleWriter.xdmfFileIsOpen = false ∧
    (openFiles "./data/H5pio".toList ⟨sampleWriter, sampleWorld⟩).error = none ∧
    (openFiles "./data/H5pio".toList ⟨sampleWriter, sampleWorld⟩).state.obj.xdmfFileIsOpen
      = false ∧
    (openFiles "./data/H5pio".toList ⟨sampleWriter, sampleWorld⟩).state.env.streams = [] ∧
    ((openFiles "./data/H5pio".toList ⟨sampleWriter, sampleWorld⟩).andThen
      (saveFrame 42)).error = none ∧
    ((openFiles "./data/H5pio".toList ⟨sampleWriter, sampleWorld⟩).andThen
      (saveFrame 42)).state.env.streams.map XStream.path = ["./data/H5pio_0001.xdmf".toList] := by
  refine ⟨?_, ?_, ?_, by decide, by decide, by decide, by decide, by decide, by decide⟩
  all_goals
    unfold openFiles
    cases h1 : stripSuffix (stringCopy p) with
    | error e => simp only [h1]
    | ok stripped =>
      cases h2 : stripID stripped with
      | error e => simp only [h1, h2]
      | ok base => simp only [h1, h2, Outcome.ok]

/-! ## Closing the container (C17) and the end of a sequence (C18) -/

/-- C17: `closeH5File` called twice gives the state of one call; on a state whose container
is not open it changes nothing; on a state whose container is open it clears the open flag,
sets `frameTime` to 0 and `endOfFile` to true and changes no other member, so that the
registry and the mirror state are as before; the environment is never changed. -/
theorem C17_closeH5File (s : Sys) :
    closeH5File (closeH5File s) = closeH5File s ∧
    (s.obj.fileIsOpen = false → closeH5File s = s) ∧
    (s.obj.fileIsOpen = true →
      closeH5File s =
        { s with obj := { s.obj with fileIsOpen := false, frameTime := 0, endOfFile := true } }) ∧
    (closeH5File s).obj.fileIsOpen = false ∧
    (closeH5File s).obj.registry = s.obj.registry ∧
    (closeH5File s).obj.xdmfFile = s.obj.xdmfFile ∧
    (closeH5File s).obj.xdmfFileIsOpen = s.obj.xdmfFileIsOpen ∧
    (closeH5File s).obj.xdmfFrameID = s.obj.xdmfFrameID ∧
    (closeH5File s).obj.xdmfFileName = s.obj.xdmfFileName ∧
    (closeH5File s).obj.writeXdmfTerminator = s.obj.writeXdmfTerminator ∧
    (closeH5File s).obj.saveXdmfState = s.obj.saveXdmfState ∧
    (closeH5File s).env = s.env := by
  cases h : s.obj.fileIsOpen with
  | false =>
    have h1 : closeH5File s = s := by unfold closeH5File; simp [h]
    rw [h1]
    exact ⟨h1, fun _ => rfl, fun hc => absurd hc (by simp), h, rfl, rfl, rfl, rfl, rfl, rfl,
      rfl, rfl⟩
  | true =>
    have h1 : closeH5File s =
        { s with obj := { s.obj with fileIsOpen := false, frameTime := 0, endOfFile := true } } := by
      unfold closeH5File; simp [h]
    have h2 : closeH5File (closeH5File s) = closeH5File s := by
      rw [h1]; unfold closeH5File; simp
    rw [h2, h1]
    exact ⟨rfl, fun hc => absurd hc (by simp), fun _ => rfl, rfl, rfl, rfl, rfl, rfl, rfl, rfl,
      rfl, rfl⟩

/-- A worked instance of C17: the sample writer with the container of its first frame
open. -/
theorem C17_closeH5File_witness :
    (openH5File "./data/H5pio_0001".toList true sampleSession).state.obj.fileIsOpen = true ∧
    closeH5File (openH5File "./data/H5pio_0001".toList true sampleSession).state =
      { (openH5File "./data/H5pio_0001".toList true sampleSession).state with
        obj := { (openH5File "./data/H5pio_0001".toList true sampleSession).state.obj with
          fileIsOpen := false, frameTime := 0, endOfFile := true } } :=
  ⟨by decide,
   (C17_closeH5File (openH5File "./data/H5pio_0001".toList true sampleSession).state).2.2.1
     (by decide)⟩

/-- C18: when the per-frame binary file expected for the incremented frame counter does not
exist, `loadFrame` returns without error, with the frame counter incremented and
`endOfFile` set to true, and changes nothing else: `frameTime`, the registry, the open flags
of the container and of the mirror and every other member are as before the call, and so
is the environment, with every caller array. -/
theorem C18_loadFrame_absent (s : Sys)
    (hf : s.env.fileExists
      (frameFileName s.obj.theBaseName (s.obj.multiTemporalFrameID + 1)) = false) :
    loadFrame s = Outcome.ok
      ⟨{ s.obj with
          multiTemporalFrameID := s.obj.multiTemporalFrameID + 1, endOfFile := true },
       s.env⟩ ∧
    (loadFrame s).error = none ∧
    (loadFrame s).state.obj.endOfFile = true ∧
    (loadFrame s).state.obj.frameTime = s.obj.frameTime ∧
    (loadFrame s).state.obj.registry = s.obj.registry ∧
    (loadFrame s).state.obj.fileIsOpen = s.obj.fileIsOpen ∧
    (loadFrame s).state.obj.xdmfFileIsOpen = s.obj.xdmfFileIsOpen ∧
    (loadFrame s).state.env.heap = s.env.heap ∧
    (loadFrame s).state.env = s.env := by
  have h := loadFrame_absent s hf
  rw [h]
  exact ⟨rfl, rfl, rfl, rfl, rfl, rfl, rfl, rfl, rfl⟩

/-- A worked instance of C18: the sample reader after `openFiles("./data/H5pio")` on a disk
without files. -/
theorem C18_loadFrame_absent_witness :
    (loadFrame (openFiles "./data/H5pio".toList ⟨sampleReader, sampleWorld⟩).state).state.obj.endOfFile
      = true ∧
    (loadFrame (openFiles "./data/H5pio".toList ⟨sampleReader, sampleWorld⟩).state).state.obj.multiTemporalFrameID
      = 1 ∧
    (loadFrame (openFiles "./data/H5pio".toList ⟨sampleReader, sampleWorld⟩).state).state.env
      = sampleWorld :=
  ⟨(C18_loadFrame_absent (openFiles "./data/H5pio".toList ⟨sampleReader, sampleWorld⟩).state
      (by decide)).2.2.1,
   by decide,
   (C18_loadFrame_absent (openFiles "./data/H5pio".toList ⟨sampleReader, sampleWorld⟩).state
      (by decide)).2.2.2.2.2.2.2.2⟩

/-! ## The file-name helpers in the words of their description (C15, C16, C19, C20) -/

theorem getLast?_eq_charAt (X : List Char) (hne : X ≠ []) :
    X.getLast? = some (charAt X (X.length - 1)) := by
  obtain ⟨pre, c, rfl⟩ : ∃ pre c, X = pre ++ [c] :=
    ⟨X.dropLast, X.getLast hne, (List.dropLast_append_getLast hne).symm⟩
  rw [List.getLast?_append_cons, List.getLast?_singleton]
  simp [charAt, List.getD_eq_getElem?_getD]

theorem endsInSeparator_eq (X : List Char) (hne : X ≠ []) :
    endsInSeparator X =
      (isDot (charAt X (X.length - 1)) || isDelimiter (charAt X (X.length - 1))) := by
  unfold endsInSeparator
  rw [getLast?_eq_charAt X hne]
  simp only [isDot, isDelimiter, Bool.or_assoc]

theorem endsInSeparator_nil : endsInSeparator [] = false := rfl

/-- A non-empty name that does not end in a separator, cut where the loop of `stripSuffix`
stops. -/
theorem suffix_split (X : List Char) (hne : X ≠ []) (hend : endsInSeparator X = false) :
    ∃ pre c post, X = pre ++ c :: post ∧
      (∀ x ∈ post, (isDot x || isDelimiter x) = false) ∧
      (pre = [] ∨ (isDot c || isDelimiter c) = true) ∧
      (post = [] → (isDot c || isDelimiter c) = false) := by
  obtain ⟨pre, c, post, hX, hpost, hc⟩ :=
    exists_tail_split (fun x => !(isDot x || isDelimiter x)) X hne
  refine ⟨pre, c, post, hX, ?_, ?_, ?_⟩
  · intro x hx
    have := hpost x hx
    simpa using this
  · rcases hc with h | h
    · exact Or.inl h
    · right
      cases hb : (isDot c || isDelimiter c) with
      | true => rfl
      | false => rw [hb] at h; simp at h
  · intro hp
    subst hp
    rw [endsInSeparator_eq X hne, hX] at hend
    have hl : (pre ++ [c]).length - 1 = pre.length := by simp
    rw [hl, charAt_split_mid] at hend
    exact hend

theorem hasSuffixDot_split (pre post : List Char) (c : Char)
    (hpost : ∀ x ∈ post, (isDot x || isDelimiter x) = false)
    (hc : pre = [] ∨ (isDot c || isDelimiter c) = true) :
    hasSuffixDot (pre ++ c :: post) = isDot c := by
  have hpd : ∀ x ∈ post, isDelimiter x = false := no_delimiter_of_no_sep post hpost
  have hpdot : ∀ x ∈ post, (x == '.') = false := by
    intro x hx
    have := hpost x hx
    simp only [isDot, Bool.or_eq_false_iff] at this
    exact this.1
  have hany : (post.any fun c => c == '.') = false := by
    rw [List.any_eq_false]
    intro x hx
    simp [hpdot x hx]
  unfold hasSuffixDot
  have hsplit : pre ++ c :: post = (pre ++ [c]) ++ post := by simp
  rw [hsplit, lastComponent_append _ _ hpd, List.any_append, hany, Bool.or_false]
  by_cases hdel : isDelimiter c = true
  · rw [lastComponent_append_delimiter pre c hdel]
    have : isDot c = false := by
      simp only [isDelimiter, isDot, Bool.or_eq_true, beq_iff_eq] at hdel ⊢
      rcases hdel with h | h <;> rw [h] <;> decide
    rw [this]; rfl
  · have hdel2 : isDelimiter c = false := by simpa using hdel
    rw [lastComponent_append pre [c] (by intro x hx; rw [List.mem_singleton.mp hx]; exact hdel2),
      List.any_append]
    by_cases hdot : isDot c = true
    · rw [hdot]; simp only [isDot] at hdot; simp [hdot]
    · have hdot2 : isDot c = false := by simpa using hdot
      rcases hc with h | h
      · subst h
        rw [hdot2]
        simp only [isDot] at hdot2
        simp [lastComponent, hdot2]
      · rw [hdot2, hdel2] at h; simp at h

theorem beforeLastDot_split (pre post : List Char) (c : Char)
    (hpost : ∀ x ∈ post, (isDot x || isDelimiter x) = false) (hc : isDot c = true) :
    beforeLastDot (pre ++ c :: post) = pre := by
  unfold beforeLastDot
  have hrev : (pre ++ c :: post).reverse = post.reverse ++ c :: pre.reverse := by simp
  rw [hrev, List.dropWhile_append_of_pos, List.dropWhile_cons_of_neg]
  · simp
  · simp only [isDot, beq_iff_eq] at hc
    simp [hc]
  · intro x hx
    have := hpost x (List.mem_reverse.mp hx)
    simp only [isDot, Bool.or_eq_false_iff, beq_eq_false_iff_ne] at this
    simp [this.1]

/-- On a non-empty name that does not end in a separator, `stripSuffix` cuts the name at its
last dot when there is one after the last delimiter, and leaves it as it is otherwise. -/
theorem stripSuffix_eq (X : List Char) (hne : X ≠ []) (hend : endsInSeparator X = false) :
    stripSuffix X = .ok (if hasSuffixDot X then beforeLastDot X else X) := by
  obtain ⟨pre, c, post, hX, hpost, hc, hlast⟩ := suffix_split X hne hend
  rw [hX, stripSuffix_split pre post c hpost hc hlast, hasSuffixDot_split pre post c hpost hc]
  by_cases hdot : isDot c = true
  · rw [if_pos hdot, if_pos hdot, beforeLastDot_split pre post c hpost hdot]
  · rw [if_neg hdot, if_neg hdot]

/-- C15: for every file name that is non-empty and does not end in `.`, `/` or `:` (the
path buffer is taken to be large enough for the name and the suffix): when the name
contains a `.` after its last delimiter, `addSuffix(name, s)` is the part of the name before
that last `.` followed by `s`; when it contains none, `addSuffix(name, s)` is the name
followed by `s`. -/
theorem C15_addSuffix (name s : List Char) (hne : name ≠ [])
    (hend : endsInSeparator name = false) :
    (hasSuffixDot name = true → addSuffix name s = .ok (beforeLastDot name ++ s)) ∧
    (hasSuffixDot name = false → addSuffix name s = .ok (name ++ s)) := by
  unfold addSuffix
  rw [stripSuffix_eq name hne hend]
  constructor
  · intro h; rw [if_pos h]; rfl
  · intro h
    rw [if_neg (by rw [h]; simp)]; rfl

/-- A worked instance of C15: `./data/myFiles` has no suffix and gets one appended; in
`./data/H5pio_0001.hdf5` the suffix is replaced. -/
theorem C15_addSuffix_witness :
    addSuffix "./data/myFiles".toList ".hdf5".toList = .ok "./data/myFiles.hdf5".toList ∧
    addSuffix "./data/H5pio_0001.hdf5".toList ".xdmf".toList =
      .ok "./data/H5pio_0001.xdmf".toList :=
  ⟨(C15_addSuffix "./data/myFiles".toList ".hdf5".toList (by decide) (by decide)).2 (by decide),
   ((C15_addSuffix "./data/H5pio_0001.hdf5".toList ".xdmf".toList (by decide) (by decide)).1
      (by decide)).trans (by decide)⟩

/-- A non-empty name cut where the loop of `stripID` stops. -/
theorem id_split (X : List Char) (hne : X ≠ []) :
    ∃ pre c post, X = pre ++ c :: post ∧
      (∀ x ∈ post, (x == '_' || isDigit x) = true) ∧
      (pre = [] ∨ (c == '_' || isDigit c) = false) :=
  exists_tail_split (fun x => x == '_' || isDigit x) X hne

theorem withoutTrailingId_split (pre post : List Char) (c : Char)
    (hpost : ∀ x ∈ post, (x == '_' || isDigit x) = true)
    (hc : pre = [] ∨ (c == '_' || isDigit c) = false) :
    withoutTrailingId (pre ++ c :: post) =
      if (c == '_' || isDigit c) = true then [] else pre ++ [c] := by
  unfold withoutTrailingId
  have hrev : (pre ++ c :: post).reverse = post.reverse ++ c :: pre.reverse := by simp
  rw [hrev, List.dropWhile_append_of_pos (fun x hx => hpost x (List.mem_reverse.mp hx))]
  by_cases hid : (c == '_' || isDigit c) = true
  · rw [if_pos hid]
    simp only [List.dropWhile_cons, hid, if_true]
    rcases hc with h | h
    · subst h; rfl
    · rw [h] at hid; simp at hid
  · rw [if_neg hid]
    simp only [List.dropWhile_cons, hid, if_false]
    simp

/-- The value of `stripID` on a non-empty name that does not end in a separator, with the
place where its loop stops. -/
theorem stripID_shape (X : List Char) (hne : X ≠ []) (hend : endsInSeparator X = false) :
    ∃ pre c post, X = pre ++ c :: post ∧
      (∀ x ∈ post, (x == '_' || isDigit x) = true) ∧
      (pre = [] ∨ (c == '_' || isDigit c) = false) ∧
      stripID X = .ok (pre ++ [c]) := by
  obtain ⟨pre, c, post, hX, hpost, hc⟩ := id_split X hne
  refine ⟨pre, c, post, hX, hpost, hc, ?_⟩
  rw [endsInSeparator_eq X hne] at hend
  have hl : X.length - 1 = pre.length + post.length := by rw [hX]; simp
  rw [hl] at hend
  rw [hX] at hend ⊢
  exact stripID_split pre post c hpost hc hend

theorem stripID_eq (X : List Char) (hne : X ≠ []) (hend : endsInSeparator X = false) :
    stripID X = .ok (if withoutTrailingId X = [] then X.take 1 else withoutTrailingId X) := by
  obtain ⟨pre, c, post, hX, hpost, hc, hval⟩ := stripID_shape X hne hend
  rw [hval, hX, withoutTrailingId_split pre post c hpost hc]
  by_cases hid : (c == '_' || isDigit c) = true
  · rw [if_pos hid, if_pos rfl]
    rcases hc with h | h
    · subst h; rfl
    · rw [h] at hid; simp at hid
  · rw [if_neg hid, if_neg (by simp)]

/-- C16 as stated fails: `0001` is non-empty and does not end in `.`, `/` or `:`; it is one
run of digits, so removing its maximal trailing run of digits and underscores leaves the
empty name, but `stripID` returns `0`: its loop stops at index 0. -/
theorem C16_stripID_keeps_first_character :
    endsInSeparator "0001".toList = false ∧
    withoutTrailingId "0001".toList = [] ∧
    stripID "0001".toList = .ok "0".toList ∧
    deriveBaseName "0001.hdf5".toList = .ok "0".toList := by
  refine ⟨by decide, by decide, by decide, by decide⟩

/-- C16 (amended): for every name that is non-empty and does not end in `.`, `/` or `:`:
when the name has a character that is neither a digit nor an underscore, `stripID` returns
the name with its maximal trailing run of digit and underscore characters removed, which is
the name itself when it does not end in a digit or underscore; when the name consists of
digits and underscores only, `stripID` returns its first character. -/
theorem C16_stripID (X : List Char) (hne : X ≠ []) (hend : endsInSeparator X = false) :
    ((∃ x ∈ X, (x == '_' || isDigit x) = false) → stripID X = .ok (withoutTrailingId X)) ∧
    ((∀ x ∈ X, (x == '_' || isDigit x) = true) → stripID X = .ok (X.take 1)) ∧
    ((∀ c, X.getLast? = some c → (c == '_' || isDigit c) = false) → stripID X = .ok X) := by
  obtain ⟨pre, c, post, hX, hpost, hc, hval⟩ := stripID_shape X hne hend
  have hw := withoutTrailingId_split pre post c hpost hc
  rw [← hX] at hw
  refine ⟨?_, ?_, ?_⟩
  · rintro ⟨x, hx, hnot⟩
    have hcid : (c == '_' || isDigit c) = false := by
      rcases hc with h | h
      · subst h
        rw [hX] at hx
        rcases List.mem_cons.mp (by simpa using hx) with h1 | h1
        · rw [← h1]; exact hnot
        · rw [hpost x h1] at hnot; simp at hnot
      · exact h
    rw [hval, hw, if_neg (by rw [hcid]; simp)]
  · intro hall
    have hcid : (c == '_' || isDigit c) = true := hall c (by rw [hX]; simp)
    rcases hc with h | h
    · subst h
      rw [hval, hX]; rfl
    · rw [h] at hcid; simp at hcid
  · intro hlast
    have hp : post = [] := by
      by_contra hp
      have hlen : X.length - 1 = pre.length + post.length := by rw [hX]; simp
      have hmem : charAt X (X.length - 1) ∈ post := by
        rw [hlen, hX]
        exact charAt_split_post pre post c _
          (by have := List.length_pos.mpr hp; omega) (le_refl _)
      have := hlast _ (getLast?_eq_charAt X hne)
      rw [hpost _ hmem] at this
      simp at this
    subst hp
    rw [hval, hX]

/-- A worked instance of C16 (amended): the trailing id `_0001` is removed from
`./data/H5pio_0001`, and of `12` the first character is kept. -/
theorem C16_stripID_witness :
    stripID "./data/H5pio_0001".toList = .ok "./data/H5pio".toList ∧
    stripID "12".toList = .ok "1".toList :=
  ⟨((C16_stripID "./data/H5pio_0001".toList (by decide) (by decide)).1 (by decide)).trans
      (by decide),
   ((C16_stripID "12".toList (by decide) (by decide)).2.1 (by decide)).trans (by decide)⟩

theorem stripSuffix_nil : stripSuffix [] = .error ⟨"nullptr fileName", "H5pio::stripSuffix"⟩ := rfl

theorem stripID_nil : stripID [] = .error ⟨"nullptr fileName", "H5pio::stripID"⟩ := rfl

theorem stripSuffix_invalid (X : List Char) (hne : X ≠ []) (hend : endsInSeparator X = true) :
    stripSuffix X = .error ⟨"Invalid fileName", "H5pio::stripSuffix"⟩ := by
  rw [endsInSeparator_eq X hne] at hend
  have hpos := List.length_pos.mpr hne
  unfold stripSuffix
  simp only [stringLength]
  have hneg : ¬ ((X.length : Int) - 1 < 0) := by omega
  have hidx : ((X.length : Int) - 1).toNat = X.length - 1 := by omega
  rw [if_neg hneg, hidx, if_pos hend]

theorem stripID_invalid (X : List Char) (hne : X ≠ []) (hend : endsInSeparator X = true) :
    stripID X = .error ⟨"Invalid fileName", "H5pio::stripID"⟩ := by
  rw [endsInSeparator_eq X hne] at hend
  have hpos := List.length_pos.mpr hne
  unfold stripID
  simp only [stringLength]
  have hneg : ¬ ((X.length : Int) - 1 < 0) := by omega
  have hidx : ((X.length : Int) - 1).toNat = X.length - 1 := by omega
  rw [if_neg hneg, hidx, if_pos hend]

theorem beforeLastDot_prefix (X : List Char) (hne : X ≠ []) (hend : endsInSeparator X = false)
    (hdot : hasSuffixDot X = true) : beforeLastDot X <+: X := by
  obtain ⟨pre, c, post, hX, hpost, hc, _⟩ := suffix_split X hne hend
  rw [hX, hasSuffixDot_split pre post c hpost hc] at hdot
  rw [hX, beforeLastDot_split pre post c hpost hdot]
  exact List.prefix_append _ _

/-- The result of `stripID` is a non-empty prefix of its argument. -/
theorem stripID_prefix (Y B : List Char) (h : stripID Y = .ok B) : B ≠ [] ∧ B <+: Y := by
  have hne : Y ≠ [] := by
    intro hY; subst hY; rw [stripID_nil] at h; simp at h
  have hend : endsInSeparator Y = false := by
    cases he : endsInSeparator Y with
    | false => rfl
    | true => rw [stripID_invalid Y hne he] at h; simp at h
  obtain ⟨pre, c, post, hY, _, _, hval⟩ := stripID_shape Y hne hend
  rw [hval] at h
  have hB : B = pre ++ [c] := (Except.ok.inj h).symm
  rw [hB, hY]
  exact ⟨by simp, ⟨post, by simp⟩⟩

/-- The base-name derivation on a non-empty name that does not end in a separator. -/
theorem deriveBaseName_eq (X : List Char) (hne : X ≠ []) (hend : endsInSeparator X = false) :
    deriveBaseName X = stripID (if hasSuffixDot X then beforeLastDot X else X) := by
  unfold deriveBaseName stringCopy
  rw [stripSuffix_eq X hne hend]

/-- C19: the derivation of the base name by `openFiles` (`stripSuffix`, then `stripID`)
fails exactly when the name is empty, or ends in `.`, `/` or `:`, or has a `.` after its
last delimiter and the part before that last `.` is empty or ends in `.`, `/` or `:`.  A
failure is one of the four errors raised by the two functions for an empty and for an
invalid file name.  When the derivation succeeds its result is a non-empty prefix of the
name.  A name made of dots and delimiters only is empty or ends in one of them, so the
derivation fails on it. -/
theorem C19_derivation_failure_set (X : List Char) :
    ((∃ e, deriveBaseName X = .error e) ↔
      (X = [] ∨ endsInSeparator X = true ∨
        (hasSuffixDot X = true ∧
          (beforeLastDot X = [] ∨ endsInSeparator (beforeLastDot X) = true)))) ∧
    (∀ e, deriveBaseName X = .error e →
      e = ⟨"nullptr fileName", "H5pio::stripSuffix"⟩ ∨
      e = ⟨"Invalid fileName", "H5pio::stripSuffix"⟩ ∨
      e = ⟨"nullptr fileName", "H5pio::stripID"⟩ ∨
      e = ⟨"Invalid fileName", "H5pio::stripID"⟩) ∧
    (∀ B, deriveBaseName X = .ok B → B ≠ [] ∧ B <+: X) ∧
    ((∀ c ∈ X, (isDot c || isDelimiter c) = true) → X = [] ∨ endsInSeparator X = true) := by
  have hlast : (∀ c ∈ X, (isDot c || isDelimiter c) = true) →
      X = [] ∨ endsInSeparator X = true := by
    intro hall
    by_cases hne : X = []
    · exact Or.inl hne
    · right
      rw [endsInSeparator_eq X hne]
      exact hall _ (charAt_mem X _ (by have := List.length_pos.mpr hne; omega))
  suffices H : ((∃ e, deriveBaseName X = .error e) ↔
      (X = [] ∨ endsInSeparator X = true ∨
        (hasSuffixDot X = true ∧
          (beforeLastDot X = [] ∨ endsInSeparator (beforeLastDot X) = true)))) ∧
    (∀ e, deriveBaseName X = .error e →
      e = ⟨"nullptr fileName", "H5pio::stripSuffix"⟩ ∨
      e = ⟨"Invalid fileName", "H5pio::stripSuffix"⟩ ∨
      e = ⟨"nullptr fileName", "H5pio::stripID"⟩ ∨
      e = ⟨"Invalid fileName", "H5pio::stripID"⟩) ∧
    (∀ B, deriveBaseName X = .ok B → B ≠ [] ∧ B <+: X) from ⟨H.1, H.2.1, H.2.2, hlast⟩
  by_cases hne : X = []
  · have hd : deriveBaseName X = .error ⟨"nullptr fileName", "H5pio::stripSuffix"⟩ := by
      rw [hne]; rfl
    rw [hd]
    refine ⟨⟨fun _ => Or.inl hne, fun _ => ⟨_, rfl⟩⟩, ?_, ?_⟩
    · intro e he; left; exact (Except.error.inj he).symm
    · intro B hB; simp at hB
  by_cases hend : endsInSeparator X = true
  · have hd : deriveBaseName X = .error ⟨"Invalid fileName", "H5pio::stripSuffix"⟩ := by
      unfold deriveBaseName stringCopy
      rw [stripSuffix_invalid X hne hend]
    rw [hd]
    refine ⟨⟨fun _ => Or.inr (Or.inl hend), fun _ => ⟨_, rfl⟩⟩, ?_, ?_⟩
    · intro e he; right; left; exact (Except.error.inj he).symm
    · intro B hB; simp at hB
  have hend2 : endsInSeparator X = false := by simpa using hend
  rw [deriveBaseName_eq X hne hend2]
  by_cases hdot : hasSuffixDot X = true
  · rw [if_pos hdot]
    have hpre := beforeLastDot_prefix X hne hend2 hdot
    by_cases hbne : beforeLastDot X = []
    · have hd : stripID (beforeLastDot X) = .error ⟨"nullptr fileName", "H5pio::stripID"⟩ := by
        rw [hbne]; rfl
      rw [hd]
      refine ⟨⟨fun _ => Or.inr (Or.inr ⟨hdot, Or.inl hbne⟩), fun _ => ⟨_, rfl⟩⟩, ?_, ?_⟩
      · intro e he; right; right; left; exact (Except.error.inj he).symm
      · intro B hB; simp at hB
    · by_cases hbend : endsInSeparator (beforeLastDot X) = true
      · rw [stripID_invalid _ hbne hbend]
        refine ⟨⟨fun _ => Or.inr (Or.inr ⟨hdot, Or.inr hbend⟩), fun _ => ⟨_, rfl⟩⟩, ?_, ?_⟩
        · intro e he; right; right; right; exact (Except.error.inj he).symm
        · intro B hB; simp at hB
      · have hbend2 : endsInSeparator (beforeLastDot X) = false := by simpa using hbend
        obtain ⟨pre, c, post, hY, _, _, hval⟩ := stripID_shape _ hbne hbend2
        refine ⟨⟨fun h => ?_, fun h => ?_⟩, ?_, ?_⟩
        · obtain ⟨e, he⟩ := h; rw [hval] at he; simp at he
        · rcases h with h | h | ⟨_, h | h⟩
          · exact absurd h hne
          · exact absurd h hend
          · exact absurd h hbne
          · exact absurd h hbend
        · intro e he; rw [hval] at he; simp at he
        · intro B hB
          obtain ⟨h1, h2⟩ := stripID_prefix _ B hB
          exact ⟨h1, h2.trans hpre⟩
  · rw [if_neg hdot]
    obtain ⟨pre, c, post, hX, _, _, hval⟩ := stripID_shape X hne hend2
    refine ⟨⟨fun h => ?_, fun h => ?_⟩, ?_, ?_⟩
    · obtain ⟨e, he⟩ := h; rw [hval] at he; simp at he
    · rcases h with h | h | ⟨h, _⟩
      · exact absurd h hne
      · exact absurd h hend
      · exact absurd h hdot
    · intro e he; rw [hval] at he; simp at he
    · intro B hB
      exact stripID_prefix _ B hB

theorem digitChar_isDigit (d : Nat) (h : d < 10) : isDigit (Nat.digitChar d) = true := by
  interval_cases d <;> decide

theorem toDigitsCore_isDigit : ∀ (fuel n : Nat) (acc : List Char),
    (∀ c ∈ acc, isDigit c = true) →
    ∀ c ∈ Nat.toDigitsCore 10 fuel n acc, isDigit c = true := by
  intro fuel
  induction fuel with
  | zero => intro n acc hacc c hc; exact hacc c hc
  | succ fuel ih =>
    intro n acc hacc c hc
    have hd : ∀ x ∈ Nat.digitChar (n % 10) :: acc, isDigit x = true := by
      intro x hx
      rcases List.mem_cons.mp hx with h | h
      · rw [h]; exact digitChar_isDigit _ (Nat.mod_lt _ (by norm_num))
      · exact hacc x h
    simp only [Nat.toDigitsCore] at hc
    split_ifs at hc
    · exact hd c hc
    · exact ih _ _ hd c hc

/-- The characters `printf("%04d", k)` writes for `k >= 0` are digits. -/
theorem fmt04d_isDigit (k : Int) (hk : 0 ≤ k) : ∀ c ∈ fmt04d k, isDigit c = true := by
  intro c hc
  unfold fmt04d at hc
  rw [if_neg (by omega)] at hc
  rcases List.mem_append.mp hc with h | h
  · rw [(List.mem_replicate.mp h).2]; decide
  · exact toDigitsCore_isDigit _ _ [] (by simp) c h

theorem stripID_ok_valid (Y B : List Char) (h : stripID Y = .ok B) :
    Y ≠ [] ∧ endsInSeparator Y = false := by
  have hne : Y ≠ [] := by
    intro hY; subst hY; rw [stripID_nil] at h; simp at h
  refine ⟨hne, ?_⟩
  cases he : endsInSeparator Y with
  | false => rfl
  | true => rw [stripID_invalid Y hne he] at h; simp at h

/-- C20: for every path on which the base-name derivation succeeds with the result `B`, and
every frame number `k >= 0`, the derivation applied to the per-frame file name of `saveFrame`
and `loadFrame` (`B`, then `_`, then `k` written with at least four digits, then `.hdf5`)
succeeds and returns `B`. -/
theorem C20_frame_name_round_trip (X B : List Char) (k : Int)
    (hB : deriveBaseName X = .ok B) (hk : 0 ≤ k) :
    deriveBaseName (frameFileName B k) = .ok B := by
  unfold deriveBaseName at hB
  cases hY : stripSuffix (stringCopy X) with
  | error e => rw [hY] at hB; simp at hB
  | ok Y =>
    rw [hY] at hB
    have hB2 : stripID Y = .ok B := hB
    obtain ⟨hne, hend⟩ := stripID_ok_valid Y B hB2
    obtain ⟨pre, c, post, _, _, hc, hval⟩ := stripID_shape Y hne hend
    rw [hval] at hB2
    have hBeq : B = pre ++ [c] := (Except.ok.inj hB2).symm
    have hpost : ∀ x ∈ '_' :: fmt04d k, (x == '_' || isDigit x) = true := by
      intro x hx
      rcases List.mem_cons.mp hx with h | h
      · rw [h]; rfl
      · rw [fmt04d_isDigit k hk x h]; simp
    unfold deriveBaseName stringCopy
    rw [frameFileName_eq, stripSuffix_append_ext _ _ (by decide) (by decide)]
    show stripID (B ++ '_' :: fmt04d k) = .ok B
    rw [hBeq]
    have hsplit : (pre ++ [c]) ++ '_' :: fmt04d k = pre ++ c :: ('_' :: fmt04d k) := by simp
    rw [hsplit]
    apply stripID_split pre ('_' :: fmt04d k) c hpost hc
    apply idChar_not_sep
    exact hpost _ (charAt_split_post pre ('_' :: fmt04d k) c _ (by simp) (le_refl _))

/-- A worked instance of C20: the base name of `./data/H5pio.hdf5` is `./data/H5pio`, and
it is the base name of the file of frame 7, `./data/H5pio_0007.hdf5`. -/
theorem C20_frame_name_round_trip_witness :
    frameFileName "./data/H5pio".toList 7 = "./data/H5pio_0007.hdf5".toList ∧
    deriveBaseName (frameFileName "./data/H5pio".toList 7) = .ok "./data/H5pio".toList :=
  ⟨by decide,
   C20_frame_name_round_trip "./data/H5pio.hdf5".toList "./data/H5pio".toList 7 (by decide)
     (by decide)⟩

/-! ## The registry invariant (C21) -/

theorem andThen_registry (r : Outcome Sys) (f : Sys → Outcome Sys) (R : Registry)
    (hr : r.state.obj.registry = R)
    (hf : ∀ s, s.obj.registry = R → (f s).state.obj.registry = R) :
    (r.andThen f).state.obj.registry = R := by
  unfold Outcome.andThen
  cases r.error with
  | none => exact hf r.state hr
  | some e => exact hr

theorem XcHandleError_registry (cond : Bool) (a b : String) (s : Sys) :
    (XcHandleError cond a b s).state.obj.registry = s.obj.registry := by
  rw [XcHandleError_state]

theorem openH5File_registry (fileName : List Char) (createFile : Bool) (s : Sys) :
    (openH5File fileName createFile s).state.obj.registry = s.obj.registry := by
  unfold openH5File
  simp only []
  cases addSuffix (stringCopy fileName) ".hdf5".toList with
  | error e => rfl
  | ok name =>
    simp only []
    apply andThen_registry
    · rw [XcHandleError_state]; rfl
    · intro s2 h2; exact h2

theorem emit_registry (s : Sys) (ls : List XLine) : (emit s ls).obj.registry = s.obj.registry := rfl

theorem openXdmfFile_registry (fileName : List Char) (s : Sys) :
    (openXdmfFile fileName s).state.obj.registry = s.obj.registry := by
  unfold openXdmfFile
  simp only []
  split
  · rfl
  · apply andThen_registry
    · rw [XcHandleError_state]; rfl
    · intro s2 h2
      simp only [fprintf_eq_emit, emit_emit]
      exact h2

theorem saveH5Frame_registry (time : F32) (s : Sys) :
    (saveH5Frame time s).obj.registry = s.obj.registry := by
  unfold saveH5Frame
  split_ifs <;> rfl

theorem saveXdmfFrame_registry (time : F32) (s : Sys) :
    (saveXdmfFrame time s).obj.registry = s.obj.registry := by
  obtain ⟨id, streams, h⟩ := saveXdmfFrame_shape time s
  rw [h]; rfl

theorem closeH5File_registry (s : Sys) : (closeH5File s).obj.registry = s.obj.registry := by
  unfold closeH5File
  split_ifs <;> rfl

theorem closeXdmfFile_registry (s : Sys) : (closeXdmfFile s).obj.registry = s.obj.registry := by
  unfold closeXdmfFile
  split_ifs <;> rfl

theorem closeFiles_registry (s : Sys) : (closeFiles s).obj.registry = s.obj.registry := by
  unfold closeFiles
  rw [closeXdmfFile_registry, closeH5File_registry]

theorem openFiles_registry (p : List Char) (s : Sys) :
    (openFiles p s).state.obj.registry = s.obj.registry := by
  unfold openFiles
  cases h1 : stripSuffix (stringCopy p) with
  | error e => simp only [h1]; rfl
  | ok stripped =>
    cases h2 : stripID stripped with
    | error e => simp only [h1, h2]; rfl
    | ok base => simp only [h1, h2, Outcome.ok]; rfl

theorem saveFrame_registry (time : F32) (s : Sys) :
    (saveFrame time s).state.obj.registry = s.obj.registry := by
  unfold saveFrame
  apply andThen_registry
  · unfold saveFrameStandalone
    simp only []
    apply andThen_registry
    · rw [openH5File_registry]; rfl
    · intro s2 h2
      apply andThen_registry
      · rw [openXdmfFile_registry]; exact h2
      · intro s3 h3
        show (popXdmfState (closeXdmfFile (closeH5File
          (saveXdmfFrame time (saveH5Frame time s3))))).obj.registry = _
        have : (popXdmfState (closeXdmfFile (closeH5File
            (saveXdmfFrame time (saveH5Frame time s3))))).obj.registry =
            (closeXdmfFile (closeH5File
              (saveXdmfFrame time (saveH5Frame time s3)))).obj.registry := rfl
        rw [this, closeXdmfFile_registry, closeH5File_registry, saveXdmfFrame_registry,
          saveH5Frame_registry, h3]
  · intro s2 h2
    show (saveXdmfFrame time _).obj.registry = _
    rw [saveXdmfFrame_registry]; exact h2

theorem loadH5Frame_registry (s : Sys) :
    (loadH5Frame s).state.obj.registry = s.obj.registry := by
  unfold loadH5Frame
  split_ifs
  · rfl
  · simp only []
    apply andThen_registry
    · rw [checkCounts_state]; rfl
    · intro s2 h2; exact h2

theorem loadFrame_registry (s : Sys) :
    (loadFrame s).state.obj.registry = s.obj.registry := by
  unfold loadFrame
  simp only []
  split_ifs
  · apply andThen_registry
    · rw [openH5File_registry]; rfl
    · intro s2 h2
      apply andThen_registry
      · rw [loadH5Frame_registry]; exact h2
      · intro s3 h3
        show (closeH5File s3).obj.registry = _
        rw [closeH5File_registry]; exact h3
  · rfl

theorem RegistryOK.registerField {o : H5pio} (h : RegistryOK o) (kind : FieldKind) (c : Bool)
    (name : String) (ptr : Nat) : RegistryOK (GizmoH5.registerField kind c name ptr o) := by
  rw [registerField_eq]
  split_ifs with hp
  · exact h
  · apply h.pushField _ _ _ _ _ _ _ _ _ hp
    cases kind <;> decide

theorem RegistryOK.registerParticles {o : H5pio} (h : RegistryOK o) (np type : Int) :
    RegistryOK (GizmoH5.registerParticles np type o).state := by
  by_cases hbad : np ≤ 0 ∨ type < 0 ∨ type > 5
  · rw [(registerParticles_fail np type o hbad).2]; exact h
  · rw [registerParticles_ok np type o hbad]
    exact ⟨h.lenType, h.lenCenter, h.lenB1, h.lenI1, h.lenF1, h.lenF3, h.lenG3,
      h.lenPtr, ⟨by simp only [Outcome.ok]; omega, by simp only [Outcome.ok]; omega⟩,
      h.kind, h.category, h.pointer⟩

/-- Every state a caller can reach has a well-formed registry. -/
theorem ReachableSys.registry_wellFormed {s : Sys} (h : ReachableSys s) : RegistryOK s.obj := by
  induction h with
  | construct raw W => exact RegistryOK.resetFields _
  | environment W _ ih => exact ih
  | resetFields _ _ => exact RegistryOK.resetFields _
  | registerParticles np type _ ih => exact ih.registerParticles np type
  | registerField kind c name ptr _ ih => exact ih.registerField kind c name ptr
  | openFiles p _ ih => exact ih.of_registry (openFiles_registry p _).symm
  | closeFiles _ ih => exact ih.of_registry (closeFiles_registry _).symm
  | saveFrame time _ ih => exact ih.of_registry (saveFrame_registry time _).symm
  | loadFrame _ ih => exact ih.of_registry (loadFrame_registry _).symm

/-- C21: in every state reachable from the constructor through `resetFields`,
`registerParticles`, the five `register...Field` functions, `openFiles`, `closeFiles`,
`saveFrame` and `loadFrame` (whatever their arguments and outcome, and whatever the caller
does to the environment in between): the nine descriptor vectors have the same length;
every descriptor has exactly one of its five kind flags set; the category of every
descriptor and the current category lie in `[0,5]`; the reference of every descriptor is
non-null.  Hence a descriptor index below `dataName.size()` is a valid index of each of the
nine vectors, and the category found there is a valid index of the array of counts. -/
theorem C21_registry_invariant (s : Sys) (h : ReachableSys s) :
    (s.obj.dataParticleType.length = s.obj.dataName.length ∧
      s.obj.dataIsNodeCentered.length = s.obj.dataName.length ∧
      s.obj.dataIsBoolean1D.length = s.obj.dataName.length ∧
      s.obj.dataIsInteger1D.length = s.obj.dataName.length ∧
      s.obj.dataIsFloat1D.length = s.obj.dataName.length ∧
      s.obj.dataIsFloat3D.length = s.obj.dataName.length ∧
      s.obj.dataIsGeometry3D.length = s.obj.dataName.length ∧
      s.obj.dataPointer.length = s.obj.dataName.length) ∧
    (∀ pg, pg < s.obj.dataName.length →
      [s.obj.dataIsBoolean1D.getD pg false, s.obj.dataIsInteger1D.getD pg false,
        s.obj.dataIsFloat1D.getD pg false, s.obj.dataIsFloat3D.getD pg false,
        s.obj.dataIsGeometry3D.getD pg false].count true = 1) ∧
    (∀ pg, pg < s.obj.dataName.length →
      0 ≤ s.obj.dataParticleType.getD pg 0 ∧ s.obj.dataParticleType.getD pg 0 ≤ 5) ∧
    (0 ≤ s.obj.theParticleType ∧ s.obj.theParticleType ≤ 5) ∧
    (∀ pg, pg < s.obj.dataName.length → s.obj.dataPointer.getD pg 0 ≠ 0) ∧
    (∀ pg, pg < s.obj.dataName.length →
      pg < s.obj.dataParticleType.length ∧ pg < s.obj.dataIsNodeCentered.length ∧
      pg < s.obj.dataIsBoolean1D.length ∧ pg < s.obj.dataIsInteger1D.length ∧
      pg < s.obj.dataIsFloat1D.length ∧ pg < s.obj.dataIsFloat3D.length ∧
      pg < s.obj.dataIsGeometry3D.length ∧ pg < s.obj.dataPointer.length ∧
      ∃ type : Nat, type < N_TYPES ∧ s.obj.dataParticleType[pg]? = some (type : Int)) := by
  have hR := h.registry_wellFormed
  refine ⟨⟨hR.lenType, hR.lenCenter, hR.lenB1, hR.lenI1, hR.lenF1, hR.lenF3, hR.lenG3,
    hR.lenPtr⟩, hR.kind, hR.category, hR.current, hR.pointer, ?_⟩
  intro pg hpg
  have hlt : pg < s.obj.dataParticleType.length := by rw [hR.lenType]; exact hpg
  refine ⟨hlt, by rw [hR.lenCenter]; exact hpg, by rw [hR.lenB1]; exact hpg,
    by rw [hR.lenI1]; exact hpg, by rw [hR.lenF1]; exact hpg, by rw [hR.lenF3]; exact hpg,
    by rw [hR.lenG3]; exact hpg, by rw [hR.lenPtr]; exact hpg, ?_⟩
  have hcat := hR.category pg hpg
  have hget : s.obj.dataParticleType.getD pg 0 = s.obj.dataParticleType[pg] := by
    simp [List.getD_eq_getElem?_getD, List.getElem?_eq_getElem hlt]
  rw [hget] at hcat
  refine ⟨(s.obj.dataParticleType[pg]).toNat, by unfold N_TYPES; omega, ?_⟩
  rw [List.getElem?_eq_getElem hlt, Int.toNat_of_nonneg hcat.1]

/-- A worked instance of C21: the sample writer after its registrations,
`openFiles("./data/H5pio")`, `saveFrame(42)` and a `loadFrame()`. -/
theorem C21_registry_invariant_witness :
    (loadFrame (saveFrame 42 sampleSession).state).state.obj.dataName =
      ["Masses", "Coordinates"] ∧
    (loadFrame (saveFrame 42 sampleSession).state).state.obj.dataPointer.length =
      (loadFrame (saveFrame 42 sampleSession).state).state.obj.dataName.length ∧
    (∀ pg, pg < (loadFrame (saveFrame 42 sampleSession).state).state.obj.dataName.length →
      (loadFrame (saveFrame 42 sampleSession).state).state.obj.dataPointer.getD pg 0 ≠ 0) :=
  ⟨by decide,
   (C21_registry_invariant (loadFrame (saveFrame 42 sampleSession).state).state
      (ReachableSys.loadFrame (ReachableSys.saveFrame 42
        (ReachableSys.openFiles "./data/H5pio".toList
          (ReachableSys.registerField .Geometry3D true "Coordinates" 2
            (ReachableSys.registerField .Float1D true "Masses" 1
              (ReachableSys.registerParticles 3 0
                (ReachableSys.construct rawObject sampleWorld)))))))).1.2.2.2.2.2.2.2,
   (C21_registry_invariant (loadFrame (saveFrame 42 sampleSession).state).state
      (ReachableSys.loadFrame (ReachableSys.saveFrame 42
        (ReachableSys.openFiles "./data/H5pio".toList
          (ReachableSys.registerField .Geometry3D true "Coordinates" 2
            (ReachableSys.registerField .Float1D true "Masses" 1
              (ReachableSys.registerParticles 3 0
                (ReachableSys.construct rawObject sampleWorld)))))))).2.2.2.2.1⟩

end GizmoH5
